import Mathlib

/-!
# DynamO: event-driven simulation core

A shallow embedding of the parts of the DynamO sources that the specification
talks about, followed by theorems relating the specification to the code.

Conventions of the embedding.

* `double` / `Iflt` values are exact rationals; an event time is a rational or
  `HUGE_VAL` (the top element of `WithTop ℚ`).  NaN is not modelled.
* In the scheduler a particle is identified by its ID, which is also its index
  in the particle store `Sim->vParticleList`; a pointer to a particle is that
  ID, a null pointer is `none`.  Where the code indexes `Sim->particles` by an
  ID, the theorems assume the store to be indexed by ID.
* `M_throw()` / `I_throw()` is the `Except.error` result; an action with
  undefined behaviour in C++ (dereferencing `end()`) is `none`.
* The compile-time switch `DYNAMO_DEBUG` is the Boolean parameter `debug`.
-/

namespace DynamO

/-! ## Data model -/

/-- Time values: a finite rational or `HUGE_VAL`. -/
abbrev Time := WithTop ℚ

/-- The constant `HUGE_VAL` of `<cmath>`. -/
abbrev HUGE_VAL : Time := ⊤

/-- Particle state: the stable integer ID, the position and the velocity. -/
structure Particle where
  ID : Nat
  pos : ℚ × ℚ × ℚ
  vel : ℚ × ℚ × ℚ
deriving DecidableEq

/-- Modelled from the spec: the enumeration `EEventType` (its header is not part
of the sources); only the sub-kinds named by the specification and used by the
sources are listed. -/
inductive EEventType where
  | NONE
  | CORE
  | WELL_IN
  | WELL_OUT
  | BOUNCE
  | STEP_IN
  | STEP_OUT
  | VIRTUAL
  | UMBRELLA
deriving DecidableEq

/-- Modelled from the spec: the interaction event record `IntEvent` / `CIntEvent`
(header `intEvent.hpp` is missing): firing time, primary particle, optional
secondary particle (`none` is the null pointer) and sub-kind.  The constructor
used by the interactions is `CIntEvent(p1, p2, dt, type, *this)`. -/
structure IntEvent where
  particle1 : Nat
  particle2 : Option Nat
  dt : Time
  type : EEventType
deriving DecidableEq

/-- An interaction object as the registry sees it.  `addr` is the identity of
the object (the address held by the `shared_ptr`); the remaining fields are the
virtual member functions used by `Simulation`. -/
structure Interaction where
  addr : Nat
  isInteraction : Particle → Particle → Bool
  getEvent : Particle → Particle → IntEvent
  maxIntDist : ℚ

/-! ## `Simulation::getInteraction` and `Simulation::getEvent` -/

/-- `Simulation::getInteraction` (simulation.cpp:234-242): the range-for loop
over `interactions`, returning the first pointer whose `isInteraction` accepts
the pair and throwing when the loop ends. -/
def getInteraction (interactions : List Interaction) (p1 p2 : Particle) :
    Except String Interaction :=
  match interactions with
  | [] => .error "Could not find an Interaction between particles"
  | ptr :: rest =>
    if ptr.isInteraction p1 p2 then .ok ptr else getInteraction rest p1 p2

/-- `Simulation::getEvent` (simulation.cpp:201-209). -/
def getEvent (interactions : List Interaction) (p1 p2 : Particle) :
    Except String IntEvent :=
  match interactions with
  | [] => .error "Could not find the right interaction to test for"
  | ptr :: rest =>
    if ptr.isInteraction p1 p2 then .ok (ptr.getEvent p1 p2) else getEvent rest p1 p2

/-- Whether an `Except` value is an error. -/
def isError {ε α : Type} : Except ε α → Bool
  | .error _ => true
  | .ok _ => false

/-! ## The single-list scheduler `CSFastSingle` (schedulers/fastsingle.cpp) -/

/-- Modelled from the spec: `CIntEvent::operator<` (header `intEvent.hpp` is
missing); events are ordered by their firing time only. -/
def IntEvent.lt (a b : IntEvent) : Bool := decide (a.dt < b.dt)

/-- Modelled from the spec: `CIntEvent::operator>`, the comparison of firing
times (header `intEvent.hpp` is missing). -/
def IntEvent.gt (a b : IntEvent) : Bool := decide (a.dt > b.dt)

/-- Modelled from the spec: `CIntEvent::invalidate` (header missing); the event
becomes `NONE` at `HUGE_VAL`, the particle pointers are left alone. -/
def IntEvent.invalidate (e : IntEvent) : IntEvent :=
  { e with dt := HUGE_VAL, type := EEventType.NONE }

/-- Modelled from the spec: the one-particle constructor `CIntEvent(part1)`
(header missing): an invalid event with a null second particle. -/
def IntEvent.ofParticle (part1 : Nat) : IntEvent :=
  { particle1 := part1, particle2 := none, dt := HUGE_VAL, type := EEventType.NONE }

/-- Modelled from the spec: the global event record `CGlobEvent` (header
`globEvent.hpp` is missing): the particle, the firing time and the sub-kind. -/
structure CGlobEvent where
  particle : Nat
  dt : Time
  type : EEventType
deriving DecidableEq

/-- Modelled from the spec: `CGlobEvent::operator<` (header missing), the comparison
of firing times. -/
def CGlobEvent.lt (a b : CGlobEvent) : Bool := decide (a.dt < b.dt)

/-- The part of a system event (`System`, systems/system.cpp) the scheduler
looks at: its name, its firing time `dt` and its type. -/
structure System where
  sysName : String
  dt : Time
  type : EEventType
deriving DecidableEq

/-- `System::operator<(const System&)` (system.cpp:46-50). -/
def System.lt (a b : System) : Bool := decide (a.dt < b.dt)

/-- The enumeration `ENextEvent` returned by `nextEventType`. -/
inductive ENextEvent where
  | Interaction
  | Global
  | System
deriving DecidableEq

/-- The algorithm `std::min_element(first, last)`: the first element that no
other element is smaller than, `none` (the iterator `last`) for an empty range.
`lt` is the `operator<` of the element type. -/
def min_element {α : Type} (lt : α → α → Bool) : List α → Option α
  | [] => none
  | x :: xs => some (xs.foldl (fun smallest y => if lt y smallest then y else smallest) x)

/-- The state of `CSFastSingle`: one interaction event per particle and, when
there are globals, one global event per particle. -/
structure CSFastSingle where
  intEventQueue : List IntEvent
  globEventQueue : List CGlobEvent

/-- The iterator `nextIntEvent` as `nextEventType` sets it (fastsingle.cpp:97). -/
def CSFastSingle.nextIntEvent (s : CSFastSingle) : Option IntEvent :=
  min_element IntEvent.lt s.intEventQueue

/-- The iterator `nextGlobEvent` as `nextEventType` sets it (fastsingle.cpp:98). -/
def CSFastSingle.nextGlobEvent (s : CSFastSingle) : Option CGlobEvent :=
  min_element CGlobEvent.lt s.globEventQueue

/-- `CSFastSingle::nextEventType` (fastsingle.cpp:83-120).  `systemEvents` is
`Sim->Dynamics.getSystemEvents()`, whose smart pointers compare by the events
they point to.  The result is `none` when the interaction queue is empty, where
the code dereferences `intEventQueue.end()`. -/
def CSFastSingle.nextEventType (s : CSFastSingle) (systemEvents : List System) :
    Option ENextEvent :=
  let tmpt : Time := HUGE_VAL
  let tmpType : ENextEvent := ENextEvent.Interaction
  -- if (!globEventQueue.empty()) if ((tmpt2 = nextGlobEvent->getdt()) < tmpt)
  let (tmpType, tmpt) :=
    match s.nextGlobEvent with
    | some g => if g.dt < tmpt then (ENextEvent.Global, g.dt) else (tmpType, tmpt)
    | none => (tmpType, tmpt)
  -- if (!getSystemEvents().empty()) if ((tmpt2 = (*min_element(..))->getdt()) < tmpt)
  let (tmpType, tmpt) :=
    match min_element System.lt systemEvents with
    | some x => if x.dt < tmpt then (ENextEvent.System, x.dt) else (tmpType, tmpt)
    | none => (tmpType, tmpt)
  -- if (nextIntEvent->getdt() < tmpt) tmpType = Interaction;
  match s.nextIntEvent with
  | some e => some (if e.dt < tmpt then ENextEvent.Interaction else tmpType)
  | none => none

/-- `CSFastSingle::earliestIntEvent` (fastsingle.cpp:122-126): `*nextIntEvent`. -/
def CSFastSingle.earliestIntEvent (s : CSFastSingle) : Option IntEvent := s.nextIntEvent

/-- `CSFastSingle::earliestGlobEvent` (fastsingle.cpp:128-132): `*nextGlobEvent`. -/
def CSFastSingle.earliestGlobEvent (s : CSFastSingle) : Option CGlobEvent := s.nextGlobEvent

/-- The time `t` is not later than any queued interaction event, any queued
global event and any system event. -/
def NoEarlierEvent (s : CSFastSingle) (systemEvents : List System) (t : Time) : Prop :=
  (∀ e ∈ s.intEventQueue, t ≤ e.dt) ∧ (∀ g ∈ s.globEventQueue, t ≤ g.dt) ∧
    (∀ x ∈ systemEvents, t ≤ x.dt)

instance (s : CSFastSingle) (systemEvents : List System) (t : Time) :
    Decidable (NoEarlierEvent s systemEvents t) := by
  unfold NoEarlierEvent
  infer_instance

/-- What it means for `kind` to be a source holding a global minimum: the event
the scheduler hands out for that source is not later than any event of any
source. -/
def IsGlobalMinimum (s : CSFastSingle) (systemEvents : List System) : ENextEvent → Prop
  | ENextEvent.Interaction =>
      ∃ e, s.earliestIntEvent = some e ∧ e ∈ s.intEventQueue ∧ NoEarlierEvent s systemEvents e.dt
  | ENextEvent.Global =>
      ∃ g, s.earliestGlobEvent = some g ∧ g ∈ s.globEventQueue ∧ NoEarlierEvent s systemEvents g.dt
  | ENextEvent.System =>
      ∃ x, min_element System.lt systemEvents = some x ∧ x ∈ systemEvents ∧
        NoEarlierEvent s systemEvents x.dt

/-- The tie-break of specification section 4.1 restricted to the three sources
of this scheduler, System > Interaction > Global: System if a system event
attains the minimal time `t`, otherwise Interaction if an interaction event
attains it, otherwise Global. -/
def specTieBreak (s : CSFastSingle) (systemEvents : List System) (t : Time) : ENextEvent :=
  if ∃ x ∈ systemEvents, x.dt = t then ENextEvent.System
  else if ∃ e ∈ s.intEventQueue, e.dt = t then ENextEvent.Interaction
  else ENextEvent.Global

/-- The tie-break the code implements, Global > System > Interaction. -/
def codeTieBreak (s : CSFastSingle) (systemEvents : List System) (t : Time) : ENextEvent :=
  if ∃ g ∈ s.globEventQueue, g.dt = t then ENextEvent.Global
  else if ∃ x ∈ systemEvents, x.dt = t then ENextEvent.System
  else ENextEvent.Interaction

/-- Two or more of the three sources have an event at time `t`. -/
def SharedByTwoSources (s : CSFastSingle) (systemEvents : List System) (t : Time) : Prop :=
  ((∃ e ∈ s.intEventQueue, e.dt = t) ∧ (∃ g ∈ s.globEventQueue, g.dt = t)) ∨
  ((∃ e ∈ s.intEventQueue, e.dt = t) ∧ (∃ x ∈ systemEvents, x.dt = t)) ∨
  ((∃ g ∈ s.globEventQueue, g.dt = t) ∧ (∃ x ∈ systemEvents, x.dt = t))

instance (s : CSFastSingle) (systemEvents : List System) (t : Time) :
    Decidable (SharedByTwoSources s systemEvents t) := by
  unfold SharedByTwoSources
  infer_instance

/-- A state in which all three sources have their earliest event at time 1. -/
def tieState : CSFastSingle :=
  { intEventQueue := [{ particle1 := 0, particle2 := some 1, dt := 1, type := EEventType.CORE }],
    globEventQueue := [{ particle := 0, dt := 1, type := EEventType.VIRTUAL }] }

/-- The system events going with `tieState`: one event at time 1. -/
def tieSystems : List System := [{ sysName := "Halt", dt := 1, type := EEventType.NONE }]

/-- What `CSFastSingle` reads from `Sim` (the old `DYNAMO::SimData`): the number
of particles `lN` (the size of `vParticleList`, whose `i`-th particle has ID
`i`), the prediction `Sim->Dynamics.getEvent(p1, p2)` for the particles with
these IDs in their current state, and the scheduler's `getGlobEvent(part)`. -/
structure SchedulerSim where
  lN : Nat
  getEvent : Nat → Nat → IntEvent
  getGlobEvent : Nat → CGlobEvent

/-- `CSFastSingle::rebuildCollision` (fastsingle.cpp:188-202): invalidate the
event, then scan the particles after `coll.getParticle1()` and keep the earliest
predicted event.  The iterator starts at `begin() + (ID + 1)` and runs to
`end()`. -/
def CSFastSingle.rebuildCollision (sim : SchedulerSim) (coll : IntEvent) : IntEvent :=
  let start := coll.particle1 + 1
  (List.range' start (sim.lN - start)).foldl
    (fun coll iPtr =>
      let tmpColl := sim.getEvent coll.particle1 iPtr
      if coll.gt tmpColl then tmpColl else coll)
    coll.invalidate

/-- One pass of the `for` loop of `CSFastSingle::update` (fastsingle.cpp:66-77)
for the index `id`; an index outside the queue leaves the queue alone. -/
def CSFastSingle.updateStep (sim : SchedulerSim) (part : Nat) (queue : List IntEvent)
    (id : Nat) : List IntEvent :=
  match queue[id]? with
  | none => queue
  | some ev =>
    if ev.particle2 = some part then
      queue.set id (CSFastSingle.rebuildCollision sim ev)
    else
      let tmpcoll := sim.getEvent id part
      if tmpcoll.lt ev then queue.set id tmpcoll else queue

/-- `CSFastSingle::update` (fastsingle.cpp:56-81) for the particle with ID
`part`. -/
def CSFastSingle.update (sim : SchedulerSim) (s : CSFastSingle) (part : Nat) : CSFastSingle :=
  -- if (!globEventQueue.empty()) globEventQueue[part.getID()] = getGlobEvent(part);
  let globEventQueue :=
    if !s.globEventQueue.isEmpty then s.globEventQueue.set part (sim.getGlobEvent part)
    else s.globEventQueue
  -- for (size_t id = 0; id < part.getID(); ++id) ...
  let queue := (List.range part).foldl (CSFastSingle.updateStep sim part) s.intEventQueue
  -- rebuildCollision(intEventQueue[part.getID()]);
  let queue :=
    match queue[part]? with
    | none => queue
    | some ev => queue.set part (CSFastSingle.rebuildCollision sim ev)
  { intEventQueue := queue, globEventQueue := globEventQueue }

/-- `CSFastSingle::rebuildList` (fastsingle.cpp:174-186): one freshly rebuilt
event per particle. -/
def CSFastSingle.rebuildList (sim : SchedulerSim) (s : CSFastSingle) : CSFastSingle :=
  -- intEventQueue[Part1.getID()] = CIntEvent(Part1); rebuildCollision(intEventQueue[...]);
  let queue := (List.range sim.lN).map
    (fun id => CSFastSingle.rebuildCollision sim (IntEvent.ofParticle id))
  { intEventQueue := queue, globEventQueue := s.globEventQueue }

/-- The queue entry `ev` of particle `i` holds the minimum of the predicted times
`(E i j).dt` over the later particles `j`: it belongs to particle `i`, no later
particle has an earlier prediction, and its time is `HUGE_VAL` or the predicted
time with the particle `ev.particle2`, a later particle. -/
def EntryHoldsMinimum (N : Nat) (E : Nat → Nat → IntEvent) (i : Nat) (ev : IntEvent) : Prop :=
  ev.particle1 = i ∧ (∀ j, j < N → i < j → ev.dt ≤ (E i j).dt) ∧
    (ev.dt = ⊤ ∨ ∃ j, j < N ∧ i < j ∧ ev.particle2 = some j ∧ (E i j).dt = ev.dt)

/-- Every entry of the interaction queue holds the minimum for its particle. -/
def QueueHoldsMinima (N : Nat) (E : Nat → Nat → IntEvent) (queue : List IntEvent) : Prop :=
  queue.length = N ∧ ∀ i, i < N → ∃ ev, queue[i]? = some ev ∧ EntryHoldsMinimum N E i ev

/-- The events a prediction returns name the two particles it was asked about,
as `CIntEvent(p1, p2, dt, type, *this)` does. -/
def NamesItsParticles (N : Nat) (E : Nat → Nat → IntEvent) : Prop :=
  ∀ i, i < N → ∀ j, j < N → i < j → (E i j).particle1 = i ∧ (E i j).particle2 = some j

/-- Two predictions give the same event time for every pair of particles that
does not contain `part`. -/
def AgreeAwayFrom (N : Nat) (part : Nat) (E E' : Nat → Nat → IntEvent) : Prop :=
  ∀ i, i < N → ∀ j, j < N → i < j ∧ i ≠ part ∧ j ≠ part → (E' i j).dt = (E i j).dt

instance (N : Nat) (E : Nat → Nat → IntEvent) (i : Nat) (ev : IntEvent) :
    Decidable (EntryHoldsMinimum N E i ev) := by
  unfold EntryHoldsMinimum
  infer_instance

instance (N : Nat) (E : Nat → Nat → IntEvent) (queue : List IntEvent) :
    Decidable (QueueHoldsMinima N E queue) := by
  unfold QueueHoldsMinima
  infer_instance

instance (N : Nat) (E : Nat → Nat → IntEvent) : Decidable (NamesItsParticles N E) := by
  unfold NamesItsParticles
  infer_instance

instance (N : Nat) (part : Nat) (E E' : Nat → Nat → IntEvent) :
    Decidable (AgreeAwayFrom N part E E') := by
  unfold AgreeAwayFrom
  infer_instance

/-- Predicted times of three particles before particle 1 changes: the pair
(0,1) at time 2, the pair (0,2) at time 5, the pair (1,2) at time 3. -/
def exampleOld (i j : Nat) : IntEvent :=
  { particle1 := i, particle2 := some j,
    dt := if i = 0 ∧ j = 1 then 2 else if i = 0 ∧ j = 2 then 5 else 3,
    type := EEventType.CORE }

/-- Predicted times after particle 1 has changed: the pair (0,1) now at time 7,
the pair (1,2) at time 4, the pair (0,2) still at time 5. -/
def exampleNew (i j : Nat) : IntEvent :=
  { particle1 := i, particle2 := some j,
    dt := if i = 0 ∧ j = 1 then 7 else if i = 0 ∧ j = 2 then 5 else 4,
    type := EEventType.CORE }

/-- The simulation of the example after particle 1 has changed. -/
def exampleSim : SchedulerSim :=
  { lN := 3, getEvent := exampleNew,
    getGlobEvent := fun p => { particle := p, dt := HUGE_VAL, type := EEventType.NONE } }

/-- The scheduler of the example before `update`: the list built from the old
predictions. -/
def exampleScheduler : CSFastSingle :=
  CSFastSingle.rebuildList { exampleSim with getEvent := exampleOld }
    { intEventQueue := [], globEventQueue := [] }

/-- What one pass of the loop of `update` does to the entry of particle `id`. -/
def CSFastSingle.updateEntry (sim : SchedulerSim) (part id : Nat) (ev : IntEvent) : IntEvent :=
  if ev.particle2 = some part then CSFastSingle.rebuildCollision sim ev
  else if (sim.getEvent id part).lt ev then sim.getEvent id part else ev

/-! ## Capture maps (interactions/captures.hpp, interactions/captures.cpp) -/

/-- The constructor `ICapture::cMapKey(a, b)` (captures.hpp:88-101): the pair
`(min(a,b), max(a,b))`; with `DYNAMO_DEBUG` it throws when `a == b`. -/
def cMapKey (debug : Bool) (a b : Nat) : Except String (Nat × Nat) :=
  if debug && a == b then .error "Particle ID's should not be equal!"
  else .ok (min a b, max a b)

/-- An `ISingleCapture` object: its identity as an `Interaction` (`this`), the
pure virtual `captureTest`, the flag `noXmlLoad` of `ICapture` and the
`std::unordered_set` of keys `captureMap`. -/
structure ISingleCapture where
  addr : Nat
  captureTest : Particle → Particle → Bool
  noXmlLoad : Bool
  captureMap : Finset (Nat × Nat)

/-- The constructor `ISingleCapture(sim, range)`: `ICapture` sets `noXmlLoad(true)`
and the set starts empty (captures.hpp:51, 114). -/
def ISingleCapture.new (addr : Nat) (captureTest : Particle → Particle → Bool) :
    ISingleCapture :=
  { addr := addr, captureTest := captureTest, noXmlLoad := true, captureMap := ∅ }

/-- `ISingleCapture::getTotalCaptureCount` (captures.hpp:116). -/
def ISingleCapture.getTotalCaptureCount (self : ISingleCapture) : Nat := self.captureMap.card

/-- `ISingleCapture::isCaptured(size_t, size_t)` (captures.hpp:120-121):
`captureMap.count(cMapKey(p1, p2))` converted to `bool`. -/
def ISingleCapture.isCaptured (debug : Bool) (self : ISingleCapture) (p1 p2 : Nat) :
    Except String Bool :=
  match cMapKey debug p1 p2 with
  | .error msg => .error msg
  | .ok key => .ok (decide (key ∈ self.captureMap))

/-- `ISingleCapture::clear` (captures.hpp:123). -/
def ISingleCapture.clear (self : ISingleCapture) : ISingleCapture :=
  { self with captureMap := ∅ }

/-- `ICapture::forgetXMLCaptureMap` (captures.hpp:68) on an `ISingleCapture`. -/
def ISingleCapture.forgetXMLCaptureMap (self : ISingleCapture) : ISingleCapture :=
  { self with noXmlLoad := true }

/-- `ISingleCapture::addToCaptureMap` (captures.hpp:158-167); with `DYNAMO_DEBUG`
it throws when the key is already present. -/
def ISingleCapture.addToCaptureMap (debug : Bool) (self : ISingleCapture) (p1 p2 : Particle) :
    Except String ISingleCapture :=
  match cMapKey debug p1.ID p2.ID with
  | .error msg => .error msg
  | .ok key =>
    if debug && decide (key ∈ self.captureMap) then .error "Insert found the pair in the capture map"
    else .ok { self with captureMap := insert key self.captureMap }

/-- `ISingleCapture::removeFromCaptureMap` (captures.hpp:170-178); with
`DYNAMO_DEBUG` it throws when the key is absent. -/
def ISingleCapture.removeFromCaptureMap (debug : Bool) (self : ISingleCapture)
    (p1 p2 : Particle) : Except String ISingleCapture :=
  match cMapKey debug p1.ID p2.ID with
  | .error msg => .error msg
  | .ok key =>
    if debug && decide (key ∉ self.captureMap) then
      .error "Deleting a particle while its already gone!"
    else .ok { self with captureMap := self.captureMap.erase key }

/-- `ISingleCapture::testAddToCaptureMap` (captures.cpp:26-31).  `particles` is
`Sim->particles`; an index outside the store is reported as an error. -/
def ISingleCapture.testAddToCaptureMap (debug : Bool) (particles : List Particle)
    (p1 : Particle) (p2 : Nat) (self : ISingleCapture) : Except String ISingleCapture :=
  match particles[p2]? with
  | none => .error "particle index out of range"
  | some q =>
    if self.captureTest p1 q then self.addToCaptureMap debug p1 q else .ok self

/-- The type `IMultiCapture::captureMapType`, an `std::unordered_map` from keys
to `int`. -/
abbrev captureMapType := AList (fun _ : Nat × Nat => Int)

/-- An `IMultiCapture` object: identity, the pure virtual `captureTest` (an
`int`, zero for "not captured"), the flag `noXmlLoad` and the map. -/
structure IMultiCapture where
  addr : Nat
  captureTest : Particle → Particle → Int
  noXmlLoad : Bool
  captureMap : captureMapType

/-- The constructor `IMultiCapture(sim, range)` (captures.hpp:51, 188). -/
def IMultiCapture.new (addr : Nat) (captureTest : Particle → Particle → Int) : IMultiCapture :=
  { addr := addr, captureTest := captureTest, noXmlLoad := true, captureMap := ∅ }

/-- `IMultiCapture::isCaptured(size_t, size_t)` (captures.hpp:194-195). -/
def IMultiCapture.isCaptured (debug : Bool) (self : IMultiCapture) (p1 p2 : Nat) :
    Except String Bool :=
  match cMapKey debug p1 p2 with
  | .error msg => .error msg
  | .ok key => .ok (decide (key ∈ self.captureMap))

/-- `IMultiCapture::clear` (captures.hpp:197). -/
def IMultiCapture.clear (self : IMultiCapture) : IMultiCapture :=
  { self with captureMap := ∅ }

/-- `ICapture::forgetXMLCaptureMap` (captures.hpp:68) on an `IMultiCapture`. -/
def IMultiCapture.forgetXMLCaptureMap (self : IMultiCapture) : IMultiCapture :=
  { self with noXmlLoad := true }

/-- `IMultiCapture::testAddToCaptureMap` (captures.cpp:84-89):
`captureMap[cMapKey(p1.getID(), p2)] = capval` when `capval` is not zero. -/
def IMultiCapture.testAddToCaptureMap (debug : Bool) (particles : List Particle)
    (p1 : Particle) (p2 : Nat) (self : IMultiCapture) : Except String IMultiCapture :=
  match particles[p2]? with
  | none => .error "particle index out of range"
  | some q =>
    let capval := self.captureTest p1 q
    if capval ≠ 0 then
      match cMapKey debug p1.ID p2 with
      | .error msg => .error msg
      | .ok key => .ok { self with captureMap := self.captureMap.insert key capval }
    else .ok self

/-- The inner loop of `ICapture::initCaptureMap` (captures.cpp:44-48) for a fixed
`*iPtr1`: `rest` are the particles from `iPtr1 + 1` to the end.  `self` is the
address `this`, `testAdd` the virtual `testAddToCaptureMap`. -/
def ICapture.initInner {σ : Type} (testAdd : Particle → Nat → σ → Except String σ)
    (interactions : List Interaction) (self : Nat) (p1 : Particle) :
    List Particle → σ → Except String σ
  | [], st => .ok st
  | p2 :: rest, st =>
    match getInteraction interactions p1 p2 with
    | .error msg => .error msg
    | .ok ptr =>
      if ptr.addr = self then
        match testAdd p1 p2.ID st with
        | .error msg => .error msg
        | .ok st1 => ICapture.initInner testAdd interactions self p1 rest st1
      else ICapture.initInner testAdd interactions self p1 rest st

/-- The outer loop of `ICapture::initCaptureMap` (captures.cpp:42-48). -/
def ICapture.initOuter {σ : Type} (testAdd : Particle → Nat → σ → Except String σ)
    (interactions : List Interaction) (self : Nat) : List Particle → σ → Except String σ
  | [], st => .ok st
  | p1 :: rest, st =>
    match ICapture.initInner testAdd interactions self p1 rest st with
    | .error msg => .error msg
    | .ok st1 => ICapture.initOuter testAdd interactions self rest st1

/-- `ICapture::initCaptureMap` (captures.cpp:34-50) in terms of the virtual
functions `clear` and `testAddToCaptureMap` and of the flag `noXmlLoad`. -/
def ICapture.initCaptureMap {σ : Type} (noXmlLoad : σ → Bool) (clear : σ → σ)
    (testAdd : Particle → Nat → σ → Except String σ)
    (interactions : List Interaction) (self : Nat) (particles : List Particle) (st : σ) :
    Except String σ :=
  if noXmlLoad st then ICapture.initOuter testAdd interactions self particles (clear st)
  else .ok st

/-- `initCaptureMap` called on an `ISingleCapture`. -/
def ISingleCapture.initCaptureMap (debug : Bool) (interactions : List Interaction)
    (particles : List Particle) (self : ISingleCapture) : Except String ISingleCapture :=
  ICapture.initCaptureMap ISingleCapture.noXmlLoad ISingleCapture.clear
    (ISingleCapture.testAddToCaptureMap debug particles) interactions self.addr particles self

/-- `initCaptureMap` called on an `IMultiCapture`. -/
def IMultiCapture.initCaptureMap (debug : Bool) (interactions : List Interaction)
    (particles : List Particle) (self : IMultiCapture) : Except String IMultiCapture :=
  ICapture.initCaptureMap IMultiCapture.noXmlLoad IMultiCapture.clear
    (IMultiCapture.testAddToCaptureMap debug particles) interactions self.addr particles self

/-- The part of an XML node `loadCaptureMap` reads: the `Pair` children (with
their attributes `ID1`, `ID2` and, for multi-captures, `val`) of the
`CaptureMap` child; `none` when `XML.hasNode("CaptureMap")` is false. -/
structure CaptureXML where
  captureMapNode : Option (List (Nat × Nat × Nat))

/-- The loop of `ISingleCapture::loadCaptureMap` (captures.cpp:60-63). -/
def ISingleCapture.loadPairs (debug : Bool) :
    List (Nat × Nat × Nat) → Finset (Nat × Nat) → Except String (Finset (Nat × Nat))
  | [], m => .ok m
  | (id1, id2, _) :: rest, m =>
    match cMapKey debug id1 id2 with
    | .error msg => .error msg
    | .ok key => ISingleCapture.loadPairs debug rest (insert key m)

/-- `ISingleCapture::loadCaptureMap` (captures.cpp:52-65). -/
def ISingleCapture.loadCaptureMap (debug : Bool) (self : ISingleCapture) (XML : CaptureXML) :
    Except String ISingleCapture :=
  match XML.captureMapNode with
  | none => .ok self
  | some pairs =>
    match ISingleCapture.loadPairs debug pairs ∅ with
    | .error msg => .error msg
    | .ok m => .ok { self with noXmlLoad := false, captureMap := m }

/-- The conversion of a `size_t` to `int` (two's complement, 32 bits). -/
def sizeToInt (v : Nat) : Int :=
  if v % 2 ^ 32 < 2 ^ 31 then ((v % 2 ^ 32 : Nat) : Int) else ((v % 2 ^ 32 : Nat) : Int) - 2 ^ 32

/-- The loop of `IMultiCapture::loadCaptureMap` (captures.cpp:99-103). -/
def IMultiCapture.loadPairs (debug : Bool) :
    List (Nat × Nat × Nat) → captureMapType → Except String captureMapType
  | [], m => .ok m
  | (id1, id2, val) :: rest, m =>
    match cMapKey debug id1 id2 with
    | .error msg => .error msg
    | .ok key => IMultiCapture.loadPairs debug rest (m.insert key (sizeToInt val))

/-- `IMultiCapture::loadCaptureMap` (captures.cpp:91-105). -/
def IMultiCapture.loadCaptureMap (debug : Bool) (self : IMultiCapture) (XML : CaptureXML) :
    Except String IMultiCapture :=
  match XML.captureMapNode with
  | none => .ok self
  | some pairs =>
    match IMultiCapture.loadPairs debug pairs ∅ with
    | .error msg => .error msg
    | .ok m => .ok { self with noXmlLoad := false, captureMap := m }

/-- The particle store is well formed: the particle at index `i` has ID `i`. -/
def StoreIndexedByID (particles : List Particle) : Prop :=
  particles.map Particle.ID = List.range particles.length

instance (particles : List Particle) : Decidable (StoreIndexedByID particles) := by
  unfold StoreIndexedByID
  infer_instance

/-- Three particles at rest on the x axis, with IDs 0, 1, 2. -/
def exampleParticles : List Particle :=
  [{ ID := 0, pos := (0, 0, 0), vel := (0, 0, 0) },
   { ID := 1, pos := (1, 0, 0), vel := (0, 0, 0) },
   { ID := 2, pos := (5, 0, 0), vel := (0, 0, 0) }]

/-- The particle with ID `n` at the origin. -/
def particleAt (n : Nat) : Particle := { ID := n, pos := (0, 0, 0), vel := (0, 0, 0) }

/-- The authoritative interaction of the pair `(p1, p2)` is the object at address
`self`: `Sim->getInteraction(p1, p2).get() == this`. -/
def OwnedBy (interactions : List Interaction) (self : Nat) (p1 p2 : Particle) : Prop :=
  ∃ ptr, getInteraction interactions p1 p2 = .ok ptr ∧ ptr.addr = self

/-- The particle `p1` stands before the particle `p2` in the list: the pairs
`(*iPtr1, *iPtr2)` the double loop of `initCaptureMap` visits. -/
def OrderedPair (p1 p2 : Particle) : List Particle → Prop
  | [] => False
  | x :: xs => (x = p1 ∧ p2 ∈ xs) ∨ OrderedPair p1 p2 xs

/-- A square-well-like capture test on the x axis: the particles are captured
when their x coordinates differ by less than 2 (squared distance below 4). -/
def exampleCaptureTest (p1 p2 : Particle) : Bool :=
  decide ((p1.pos.1 - p2.pos.1) * (p1.pos.1 - p2.pos.1) < 4)

/-- Two interactions: the object at address 10 takes the pairs that contain
particle 2, the capture interaction at address 11 takes every other pair. -/
def exampleInteractions : List Interaction :=
  [{ addr := 10, isInteraction := fun p q => decide (p.ID = 2 ∨ q.ID = 2),
     getEvent := fun p q => { particle1 := p.ID, particle2 := some q.ID, dt := HUGE_VAL,
                              type := EEventType.NONE },
     maxIntDist := 1 },
   { addr := 11, isInteraction := fun _ _ => true,
     getEvent := fun p q => { particle1 := p.ID, particle2 := some q.ID, dt := HUGE_VAL,
                              type := EEventType.NONE },
     maxIntDist := 2 }]

/-- An XML node with a `CaptureMap` child listing the pairs (0,2) and (2,1). -/
def exampleXML : CaptureXML := { captureMapNode := some [(0, 2, 1), (2, 1, 1)] }

/-! ## `Simulation::initialise` (simulation.cpp:80-199) -/

/-- The number of dimensions `NDIM`. -/
def NDIM : Nat := 3

/-- A three-component vector of the simulation (`primaryCellSize`), indexed by
`operator[]`. -/
structure Vector where
  x : ℚ
  y : ℚ
  z : ℚ
deriving DecidableEq

/-- The indexing `v[i]` of a `Vector`. -/
def Vector.get (v : Vector) (i : Nat) : ℚ :=
  match i with
  | 0 => v.x
  | 1 => v.y
  | _ => v.z

/-- Modelled from the spec: the boundary condition classes (their headers are
missing); `BCPeriodic` is the periodic boundary condition, the other classes do
not derive from it. -/
inductive BoundaryCondition where
  | BCNone
  | BCPeriodic
  | BCLeesEdwards
deriving DecidableEq

/-- The test `std::dynamic_pointer_cast<BCPeriodic>(BCs)` for a non-null result. -/
def BoundaryCondition.isBCPeriodic : BoundaryCondition → Bool
  | BoundaryCondition.BCPeriodic => true
  | _ => false

/-- `Simulation::getLongestInteraction` (simulation.cpp:222-232). -/
def getLongestInteraction (interactions : List Interaction) : ℚ :=
  interactions.foldl
    (fun maxval ptr => if ptr.maxIntDist > maxval then ptr.maxIntDist else maxval) 0

/-- The loop `for (size_t i(0); i < NDIM; ++i)` of the primary-cell size check
(simulation.cpp:152-159) over the remaining indices. -/
def primaryCellSizeLoop (primaryCellSize : Vector) (max_interaction_dist : ℚ) :
    List Nat → Except String Unit
  | [] => .ok ()
  | i :: rest =>
    if primaryCellSize.get i ≤ 2 * max_interaction_dist then
      .error "When using periodic boundary conditions, the size of the primary image must be at least 2x the maximum interaction distance in all dimensions, otherwise one particle can interact with multiple periodic images of another particle."
    else primaryCellSizeLoop primaryCellSize max_interaction_dist rest

/-- The primary-cell size check of `Simulation::initialise`
(simulation.cpp:146-160). -/
def primaryCellSizeCheck (BCs : BoundaryCondition) (primaryCellSize : Vector)
    (interactions : List Interaction) : Except String Unit :=
  if BCs.isBCPeriodic then
    let max_interaction_dist := getLongestInteraction interactions
    primaryCellSizeLoop primaryCellSize max_interaction_dist (List.range NDIM)
  else .ok ()

/-- A hard-sphere-like interaction of range 1 accepting every pair. -/
def unitInteraction : Interaction :=
  { addr := 1, isInteraction := fun _ _ => true,
    getEvent := fun p q => { particle1 := p.ID, particle2 := some q.ID, dt := HUGE_VAL,
                             type := EEventType.NONE },
    maxIntDist := 1 }

/-- Modelled from the spec: a species (class `Species`, header missing) as the
specification describes it, a name, a mass and the finite set of the IDs of its
particles. -/
structure Species where
  name : String
  mass : ℚ
  range : Finset Nat

/-- Modelled from the spec: `Species::isSpecies`, membership of the particle's ID
in the set of the species (class `Species` is missing). -/
def Species.isSpecies (sp : Species) (part : Particle) : Bool := decide (part.ID ∈ sp.range)

/-- Modelled from the spec: `Species::getCount`, the size of the set of the
species (class `Species` is missing), an `unsigned long`. -/
def Species.getCount (sp : Species) : Nat := sp.range.card % 2 ^ 64

/-- The inner loop of the species validation with its `break`
(simulation.cpp:109-110); `count` is an `unsigned int`. -/
def speciesCountLoop (part : Particle) : List Species → Nat → Nat
  | [], count => count
  | ptr :: rest, count =>
    if ptr.isSpecies part then (count + 1) % 2 ^ 32 else speciesCountLoop part rest count

/-- The loop over the particles of the species validation
(simulation.cpp:105-118). -/
def particleSpeciesLoop (species : List Species) : List Particle → Nat → Except String Unit
  | [], _ => .ok ()
  | part :: rest, count =>
    let count := speciesCountLoop part species count
    if count < 1 then .error "Particle has no species"
    else if count > 1 then .error "Particle has more than one species"
    else particleSpeciesLoop species rest 0

/-- The species validation at the start of `Simulation::initialise`
(simulation.cpp:102-136; `SimData::initialise`, is_simdata.cpp:66-100, is the
same code): every particle needs a species and the species counts must add up
to `N`.  `tot` is an `unsigned long`. -/
def speciesValidation (particles : List Particle) (N : Nat) (species : List Species) :
    Except String Unit :=
  match particleSpeciesLoop species particles 0 with
  | .error msg => .error msg
  | .ok () =>
    let tot := species.foldl (fun tot ptr => (tot + ptr.getCount) % 2 ^ 64) 0
    if tot < N then
      .error "The particle count according to the species definition is too low"
    else if tot > N then
      .error "The particle count according to the species definition is too high"
    else .ok ()

/-- The number of species a particle belongs to. -/
def speciesOf (species : List Species) (part : Particle) : Nat :=
  (species.filter (fun sp => sp.isSpecies part)).length

/-- Two species over three particles: IDs 0 and 1, and ID 2. -/
def exampleSpecies : List Species :=
  [{ name := "A", mass := 1, range := {0, 1} }, { name := "B", mass := 2, range := {2} }]

/-- What the double loop of `initCaptureMap` needs from a capture interaction
with state `σ`: `mem` is the membership of a key in its map, `fields` are the
members other than the map, `test` tells whether `captureTest` captures a pair.
A successful `testAddToCaptureMap(p1, p2)` on a pair in store order adds the key
of the pair exactly when the test captures it and changes nothing else, and the
call succeeds when the key is not yet in the map. -/
structure CaptureSpec {σ τ : Type} (P : List Particle) (mem : σ → Nat × Nat → Prop)
    (fields : σ → τ) (test : τ → Particle → Particle → Bool)
    (testAdd : Particle → Nat → σ → Except String σ) : Prop where
  char : ∀ (p1 p2 : Particle) (st st1 : σ), P[p2.ID]? = some p2 → p1.ID < p2.ID →
    testAdd p1 p2.ID st = .ok st1 →
    fields st1 = fields st ∧
      ∀ key, mem st1 key ↔ mem st key ∨ (test (fields st) p1 p2 = true ∧ key = (p1.ID, p2.ID))
  total : ∀ (p1 p2 : Particle) (st : σ), P[p2.ID]? = some p2 → p1.ID < p2.ID →
    ¬ mem st (p1.ID, p2.ID) →
    ∃ st1, testAdd p1 p2.ID st = .ok st1

/-- The members of an `ISingleCapture` other than its map. -/
def ISingleCapture.fields (self : ISingleCapture) :
    Nat × (Particle → Particle → Bool) × Bool :=
  (self.addr, self.captureTest, self.noXmlLoad)

/-- The members of an `IMultiCapture` other than its map. -/
def IMultiCapture.fields (self : IMultiCapture) :
    Nat × (Particle → Particle → Int) × Bool :=
  (self.addr, self.captureTest, self.noXmlLoad)

/-- A stepped capture test on the x axis: step 2 below distance 1 (squared
distance below 1), step 1 below distance 2, otherwise 0 (not captured). -/
def exampleStepTest (p1 p2 : Particle) : Int :=
  if (p1.pos.1 - p2.pos.1) * (p1.pos.1 - p2.pos.1) < 1 then 2
  else if (p1.pos.1 - p2.pos.1) * (p1.pos.1 - p2.pos.1) < 4 then 1 else 0

/-- The capture map is in sync with the capture test: for the particles of the
store `P`, the interactions `ints` and the capture interaction at address `A`,
with `test` telling whether `captureTest` captures a pair and `isCaptured` the
query on the map,
* for every pair of particles (lower ID first, the order in which
  `initCaptureMap` visits it) whose authoritative interaction is `A`,
  `isCaptured`, asked in either order, is the outcome of the capture test;
* every captured pair consists of two distinct particles of the store, is owned
  by `A` and passes the capture test, so no pair owned by another interaction is
  in the map;
* when `isInteraction` and the capture test do not depend on the argument order,
  the first statement holds for the pair in any order. -/
def CaptureInSync (P : List Particle) (ints : List Interaction) (A : Nat)
    (test : Particle → Particle → Bool) (isCaptured : Nat → Nat → Except String Bool) : Prop :=
  (∀ p1 ∈ P, ∀ p2 ∈ P, p1.ID < p2.ID → OwnedBy ints A p1 p2 →
    isCaptured p1.ID p2.ID = .ok (test p1 p2) ∧ isCaptured p2.ID p1.ID = .ok (test p1 p2)) ∧
  (∀ a b, isCaptured a b = .ok true →
    ∃ p1 ∈ P, ∃ p2 ∈ P, p1.ID = min a b ∧ p2.ID = max a b ∧ p1.ID < p2.ID ∧
      OwnedBy ints A p1 p2 ∧ test p1 p2 = true) ∧
  ((∀ x ∈ ints, ∀ a b, x.isInteraction a b = x.isInteraction b a) →
    (∀ a b, test a b = test b a) →
    ∀ p1 ∈ P, ∀ p2 ∈ P, p1.ID ≠ p2.ID → OwnedBy ints A p1 p2 →
      isCaptured p1.ID p2.ID = .ok (test p1 p2))

/-! ## The umbrella potential `SysUmbrella` (systems/umbrella.cpp)

The scalar type `K` stands for `double` with exact arithmetic: any linearly
ordered field, the rationals for evaluation.  The function `sqrt` of `<cmath>`
is a parameter.  An `int` is an integer; signed overflow is undefined
behaviour and outside the model. -/

/-- The simulation clock a system event advances: `Sim->systemTime` and
`Sim->eventCount`. -/
structure SimClock (K : Type) where
  systemTime : WithTop K
  eventCount : Nat

/-- The dynamics as `SysUmbrella` uses it for its two particle ranges in their
current state: `Sim->dynamics->SphereSphereInRoot(*range1, *range2, R)`,
`SphereSphereOutRoot` (the time of the next crossing of the shell of radius `R`,
`HUGE_VAL` when there is none) and the event type `multibdyWellEvent(*range1,
*range2, 0.0, deltaKE, etype)` reports for an energy change `deltaKE`. -/
structure UmbrellaDynamics (K : Type) where
  SphereSphereInRoot : K → WithTop K
  SphereSphereOutRoot : K → WithTop K
  multibdyWellEvent : K → EEventType

/-- The members of `SysUmbrella` (umbrella.hpp:44-47) and of its base `System`
that the event code reads and writes. -/
structure SysUmbrella (K : Type) where
  a : K
  b : K
  delU : K
  ulevelcenter : Int
  ulevel : Int
  ulevelset : Bool
  dt : WithTop K
  type : EEventType
  sysName : String

/-- The constructor `SysUmbrella(nSim, na, nb, ndelu, nName, r1, r2)`
(umbrella.cpp:53-67); `System(nSim)` sets `dt(HUGE_VAL)`. -/
def SysUmbrella.new {K : Type} (na nb ndelu : K) (nName : String) : SysUmbrella K :=
  { a := na, b := nb, delU := ndelu, ulevelcenter := 0, ulevel := -1, ulevelset := false,
    dt := ⊤, type := EEventType.UMBRELLA, sysName := nName }

/-- The flag `kedown` of `SysUmbrella::runEvent` (umbrella.cpp:94-116): will the
kinetic energy go down? -/
def SysUmbrella.kedown {K : Type} (self : SysUmbrella K) : Bool :=
  if self.ulevel = 0 then true
  else if self.type = EEventType.STEP_OUT then decide (self.ulevel > 0)
  else decide (self.ulevel < 0)

/-- The candidate level `newulevel` of `SysUmbrella::runEvent`
(umbrella.cpp:96-116). -/
def SysUmbrella.newulevel {K : Type} (self : SysUmbrella K) : Int :=
  if self.ulevel = 0 then
    if self.type = EEventType.STEP_OUT then 1 else -1
  else if self.type = EEventType.STEP_OUT then self.ulevel + 1
  else self.ulevel - 1

/-- The energy change `(kedown) ? -delU : delU` handed to `multibdyWellEvent`
(umbrella.cpp:121). -/
def SysUmbrella.deltaKE {K : Type} [LinearOrderedField K] (self : SysUmbrella K) : K :=
  if self.kedown then -self.delU else self.delU

/-- The outer shell radius `R_max` of `SysUmbrella::recalculateTime`
(umbrella.cpp:184-187, 204, 209, 215). -/
def SysUmbrella.R_max {K : Type} [LinearOrderedField K] (sqrt : K → K) (self : SysUmbrella K) :
    K :=
  if self.ulevel = self.ulevelcenter then
    if self.b = 0 then self.b + sqrt (((self.ulevel : K) + 1 * self.delU) / self.a)
    else self.b - sqrt (((self.ulevel : K) * self.delU) / self.a)
  else if self.ulevel = 0 then self.b + sqrt ((1 * self.delU) / self.a)
  else if self.ulevel < 0 then self.b - sqrt (((-self.ulevel : Int) : K) * self.delU / self.a)
  else self.b + sqrt (((((self.ulevel + 1 : Int) : K)) * self.delU) / self.a)

/-- The inner shell radius `R_min` of `SysUmbrella::recalculateTime`
(umbrella.cpp:205, 210, 214); it is not set when `ulevel == ulevelcenter`. -/
def SysUmbrella.R_min {K : Type} [LinearOrderedField K] (sqrt : K → K) (self : SysUmbrella K) :
    Option K :=
  if self.ulevel = self.ulevelcenter then none
  else if self.ulevel = 0 then some (self.b - sqrt ((1 * self.delU) / self.a))
  else if self.ulevel < 0 then
    some (self.b - sqrt ((((-self.ulevel + 1 : Int)) : K) * self.delU / self.a))
  else some (self.b + sqrt (((self.ulevel : K) * self.delU) / self.a))

/-- `SysUmbrella::recalculateTime` (umbrella.cpp:168-233); the particle updates
of lines 171-175 are part of the state `dyn` describes. -/
def SysUmbrella.recalculateTime {K : Type} [LinearOrderedField K] (sqrt : K → K)
    (dyn : UmbrellaDynamics K) (self : SysUmbrella K) : SysUmbrella K :=
  -- dt = HUGE_VAL; type = NONE;
  let self := { self with dt := ⊤, type := EEventType.NONE }
  match self.R_min sqrt with
  | none =>
    -- if (ulevel == ulevelcenter) { ...; return; }
    let dt := dyn.SphereSphereOutRoot (self.R_max sqrt)
    if dt ≠ ⊤ then { self with dt := dt, type := EEventType.STEP_OUT }
    else { self with dt := dt }
  | some R_min =>
    let dt := dyn.SphereSphereInRoot R_min
    if dt ≠ ⊤ then { self with dt := dt, type := EEventType.STEP_IN }
    else
      let dt := dyn.SphereSphereOutRoot (self.R_max sqrt)
      if dt ≠ ⊤ then { self with dt := dt, type := EEventType.STEP_OUT }
      else { self with dt := dt }

/-- Modelled from the spec: `System::stream(ndt)` (header `system.hpp` is
missing), `dt -= ndt`, which `Simulation::stream` (simulation.cpp:210-219) calls
on every system event.  `HUGE_VAL` less a finite time is `HUGE_VAL`; an infinite
`ndt` gives minus infinity or a NaN, which lie outside the model, and is read as
leaving `HUGE_VAL`. -/
def streamTime {K : Type} [LinearOrderedField K] (dt ndt : WithTop K) : WithTop K :=
  match dt, ndt with
  | some t, some n => ((t - n : K) : WithTop K)
  | _, _ => ⊤

/-- `SysUmbrella::runEvent` (umbrella.cpp:69-134) on the umbrella and the clock.
`Sim->stream(locdt)` streams every system event, this one included.  `dyn` is
the dynamics when the event fires; the signal `_sigParticleUpdate`, to which
`initialise` connects `particlesUpdated` (umbrella.cpp:165, 235-257), calls
`recalculateTime` when the event data names a particle of one of the two ranges
(`notified`), on the dynamics `after` the event.  The scheduler updates and the
output plugins (lines 128-133) act on other objects and are left out. -/
def SysUmbrella.runEvent {K : Type} [LinearOrderedField K] (sqrt : K → K)
    (dyn after : UmbrellaDynamics K) (notified : Bool)
    (self : SysUmbrella K) (Sim : SimClock K) : SysUmbrella K × SimClock K :=
  let locdt := self.dt
  -- Sim->systemTime += locdt;
  let Sim := { Sim with systemTime := Sim.systemTime + locdt }
  -- Sim->stream(locdt);
  let self1 := { self with dt := streamTime self.dt locdt }
  -- ++Sim->eventCount;
  let Sim := { Sim with eventCount := Sim.eventCount + 1 }
  let newulevel := self1.newulevel
  let etype := dyn.multibdyWellEvent self1.deltaKE
  -- if (etype != BOUNCE) ulevel = newulevel;
  let self2 := if etype ≠ EEventType.BOUNCE then { self1 with ulevel := newulevel } else self1
  -- (*Sim->_sigParticleUpdate)(SDat);
  let self3 := if notified then self2.recalculateTime sqrt after else self2
  (self3, Sim)

/-! ## The halt and snapshot system events (dynamics/systems/tHalt.cpp,
systems/snapshot.cpp) -/

/-- The members of the old `DYNAMO::SimData` that `CStHalt::runEvent` writes: the
clock `dSysTime`, the event count `lNColl`, the termination threshold
`lMaxNColl` and `lPrintLimiter`. -/
structure SimDataClock where
  dSysTime : Time
  lNColl : Nat
  lMaxNColl : Nat
  lPrintLimiter : Nat
deriving DecidableEq

/-- The members of `CStHalt` and of its base `CSystem` that the event code
uses. -/
structure CStHalt where
  dt : Time
  sysName : String
deriving DecidableEq

/-- The constructor `CStHalt(nSim, ndt, nName)` (tHalt.cpp:24-33); `unitTime` is
`Sim->Dynamics.units().unitTime()`. -/
def CStHalt.new (unitTime : ℚ) (ndt : ℚ) (nName : String) : CStHalt :=
  { dt := ((ndt * unitTime : ℚ) : Time), sysName := nName }

/-- `CStHalt::runEvent` (tHalt.cpp:35-56) on the clock of the simulation; the
streaming of the scheduler and of the dynamics and the output plugins act on
other objects. -/
def CStHalt.runEvent (self : CStHalt) (Sim : SimDataClock) : SimDataClock :=
  let locdt := self.dt
  -- Sim->dSysTime += locdt;
  -- Sim->lPrintLimiter = Sim->lMaxNColl = Sim->lNColl;
  { Sim with dSysTime := Sim.dSysTime + locdt, lMaxNColl := Sim.lNColl,
             lPrintLimiter := Sim.lNColl }

/-- Modelled from the spec: `magnet::string::search_replace` (header
`magnet/string/searchreplace.hpp` is missing) on character lists: every
occurrence of the non-empty `pattern`, found from left to right, is replaced by
`replacement`, and the replacement is not searched again.  `skip` counts the
characters of a matched pattern still to be dropped. -/
def search_replace_go (pattern replacement : List Char) : Nat → List Char → List Char
  | _, [] => []
  | skip + 1, _ :: cs => search_replace_go pattern replacement skip cs
  | 0, c :: cs =>
    if pattern.isPrefixOf (c :: cs) then
      replacement ++ search_replace_go pattern replacement (pattern.length - 1) cs
    else c :: search_replace_go pattern replacement 0 cs

/-- Modelled from the spec: `magnet::string::search_replace(in, from, to)` (header
missing), see `search_replace_go`. -/
def search_replace (text pattern replacement : String) : String :=
  String.mk (search_replace_go pattern.data replacement.data 0 text.data)

/-- The conversion `boost::lexical_cast<std::string>(n)` of an unsigned counter:
its decimal digits. -/
def lexical_cast (n : Nat) : String := Nat.repr n

/-- Modelled from the spec: the members of `SSnapshot` (header `snapshot.hpp` is
missing) and of its base `System` that the event code uses; the counter
`_saveCounter` is a natural number. -/
structure SSnapshot where
  _applyBC : Bool
  _saveCounter : Nat
  dt : Time
  _period : ℚ
  sysName : String
deriving DecidableEq

/-- The constructor `SSnapshot(nSim, nPeriod, nName, applyBC)`
(snapshot.cpp:32-50); `unitTime` is `Sim->units.unitTime()`. -/
def SSnapshot.new (unitTime : ℚ) (nPeriod : ℚ) (nName : String) (applyBC : Bool) : SSnapshot :=
  let nPeriod := if nPeriod ≤ 0 then 1 else nPeriod
  let nPeriod := nPeriod * unitTime
  { _applyBC := applyBC, _saveCounter := 0, dt := (nPeriod : Time), _period := nPeriod,
    sysName := nName }

/-- The two files one firing of `SSnapshot::runEvent` writes: the configuration
(`Sim->writeXMLfile(filename, _applyBC)`) and the observables
(`Sim->outputData(filename)`). -/
structure SnapshotFiles where
  configuration : String
  observables : String
deriving DecidableEq

/-- `SSnapshot::runEvent` (snapshot.cpp:52-83): the snapshot after the firing,
the clock, and the names of the two files written.  `Sim->stream(locdt)`
streams every system event, the snapshot included; the streaming of the
scheduler and of the dynamics, the particle update and the output plugins act
on other objects. -/
def SSnapshot.runEvent (self : SSnapshot) (Sim : SimClock ℚ) :
    SSnapshot × SimClock ℚ × SnapshotFiles :=
  let locdt := self.dt
  -- Sim->systemTime += locdt;
  let Sim := { Sim with systemTime := Sim.systemTime + locdt }
  -- Sim->stream(locdt);
  let self := { self with dt := streamTime self.dt locdt }
  -- dt += _period;
  let self := { self with dt := self.dt + (self._period : Time) }
  let filename := search_replace "Snapshot.%i.xml.bz2" "%i" (lexical_cast self._saveCounter)
  -- the second name is built with `_saveCounter++`
  let filename2 :=
    search_replace "Snapshot.output.%i.xml.bz2" "%i" (lexical_cast self._saveCounter)
  let self := { self with _saveCounter := self._saveCounter + 1 }
  (self, Sim, { configuration := filename, observables := filename2 })

/-- The snapshot and the clock after `k` firings. -/
def SSnapshot.firings : Nat → SSnapshot × SimClock ℚ → SSnapshot × SimClock ℚ
  | 0, st => st
  | k + 1, st =>
    let st := SSnapshot.firings k st
    ((st.1.runEvent st.2).1, (st.1.runEvent st.2).2.1)

/-! ## Running and stopping the simulation (simulation.cpp:760-794) -/

/-- Modelled from the spec: the enumeration `ESimulationStatus` (its header is
missing), in the order the comparisons `status < INITIALISED` and
`status >= INITIALISED` of the sources rely on. -/
inductive ESimulationStatus where
  | START
  | CONFIG_LOADED
  | INITIALISED
  | PRODUCTION
  | ERROR
deriving DecidableEq

/-- The integer value of an `ESimulationStatus`. -/
def ESimulationStatus.toNat : ESimulationStatus → Nat
  | ESimulationStatus.START => 0
  | ESimulationStatus.CONFIG_LOADED => 1
  | ESimulationStatus.INITIALISED => 2
  | ESimulationStatus.PRODUCTION => 3
  | ESimulationStatus.ERROR => 4

/-- The members of `Simulation` that `simShutdown` and `runSimulationStep` read
or write; `outputPlugins` is the number of output plugins and `others` stands
for every other member of the simulation. -/
structure SimulationRun (σ : Type) where
  status : ESimulationStatus
  eventCount : Nat
  endEventCount : Nat
  eventPrintInterval : Nat
  nextPrintEvent : Nat
  _nextPrint : Nat
  outputPlugins : Nat
  others : σ

/-- `Simulation::simShutdown` (simulation.cpp:760-762):
`nextPrintEvent = endEventCount = eventCount;`. -/
def SimulationRun.simShutdown {σ : Type} (s : SimulationRun σ) : SimulationRun σ :=
  let s := { s with endEventCount := s.eventCount }
  { s with nextPrintEvent := s.endEventCount }

/-- `Simulation::runSimulationStep` (simulation.cpp:764-794).  `runNextEvent` is
`ptrScheduler->runNextEvent()`, which may throw; the screen output of the
periodic work is left out.  The result is the value returned and the state
after the call. -/
def SimulationRun.runSimulationStep {σ : Type}
    (runNextEvent : SimulationRun σ → Except String (SimulationRun σ))
    (silentMode : Bool) (s : SimulationRun σ) : Except String (Bool × SimulationRun σ) :=
  if s.status ≠ ESimulationStatus.INITIALISED ∧ s.status ≠ ESimulationStatus.PRODUCTION then
    .error "Bad state for runSimulation()"
  else
    let s := { s with status := ESimulationStatus.PRODUCTION }
    match runNextEvent s with
    | .error _ => .error "Exception caught while executing event"
    | .ok s =>
      let s :=
        if decide (s.eventCount ≥ s._nextPrint) && !silentMode && decide (s.outputPlugins ≠ 0) then
          { s with _nextPrint := (s.eventCount + s.eventPrintInterval) % 2 ^ 64 }
        else s
      .ok (decide (s.eventCount < s.endEventCount), s)

/-- Executing an event never decreases `eventCount`. -/
def NeverDecreasesEventCount {σ : Type}
    (runNextEvent : SimulationRun σ → Except String (SimulationRun σ)) : Prop :=
  ∀ s s1, runNextEvent s = .ok s1 → s.eventCount ≤ s1.eventCount

/-- Executing an event leaves the termination threshold `endEventCount` alone
or, as a halt event does, sets it to the event count. -/
def KeepsOrHalts {σ : Type}
    (runNextEvent : SimulationRun σ → Except String (SimulationRun σ)) : Prop :=
  ∀ s s1, runNextEvent s = .ok s1 →
    s1.endEventCount = s.endEventCount ∨ s1.endEventCount = s1.eventCount

/-- An event that counts one event and changes nothing else. -/
def countingEvent (s : SimulationRun Unit) : Except String (SimulationRun Unit) :=
  .ok { s with eventCount := s.eventCount + 1 }

/-- A simulation in production after 120 of 100000 events. -/
def exampleRun : SimulationRun Unit :=
  { status := ESimulationStatus.PRODUCTION, eventCount := 120, endEventCount := 100000,
    eventPrintInterval := 50000, nextPrintEvent := 0, _nextPrint := 50000, outputPlugins := 1,
    others := () }

/-! ## Rescaling the queued event times (schedulers/fastsingle.cpp:43-53) -/

/-- The product `dt * scale` of a `double` time with a `double` scale, for a
finite scale.  A finite time gives the exact product; `HUGE_VAL` stays `HUGE_VAL`
for a positive scale, and gives a value that lies outside the model (`none`:
minus infinity or a NaN) for a scale that is not positive. -/
def scaleTime {K : Type} [LinearOrderedField K] (scale : K) (dt : WithTop K) :
    Option (WithTop K) :=
  match dt with
  | none => if 0 < scale then some ⊤ else none
  | some t => some ((t * scale : K) : WithTop K)

/-- Modelled from the spec: `CIntEvent::scaleTime(scale)` (header missing),
`dt *= scale`. -/
def IntEvent.scaleTime (scale : ℚ) (e : IntEvent) : Option IntEvent :=
  (DynamO.scaleTime scale e.dt).map (fun t => { e with dt := t })

/-- Modelled from the spec: `CGlobEvent::scaleTime(scale)` (header missing),
`dt *= scale`. -/
def CGlobEvent.scaleTime (scale : ℚ) (e : CGlobEvent) : Option CGlobEvent :=
  (DynamO.scaleTime scale e.dt).map (fun t => { e with dt := t })

/-- A `BOOST_FOREACH` loop that updates every element of a container in place
with `f`; the result is `none` when an update leaves the model. -/
def forEach {α : Type} (f : α → Option α) : List α → Option (List α)
  | [] => some []
  | e :: rest =>
    match f e with
    | none => none
    | some e1 =>
      match forEach f rest with
      | none => none
      | some rest1 => some (e1 :: rest1)

/-- `CSFastSingle::rescaleTimes(scale)` (fastsingle.cpp:43-53). -/
def CSFastSingle.rescaleTimes (scale : ℚ) (s : CSFastSingle) : Option CSFastSingle :=
  -- if (!globEventQueue.empty()) BOOST_FOREACH(CGlobEvent& event, globEventQueue) ...
  let globEventQueue :=
    if !s.globEventQueue.isEmpty then forEach (CGlobEvent.scaleTime scale) s.globEventQueue
    else some s.globEventQueue
  match globEventQueue with
  | none => none
  | some globEventQueue =>
    -- BOOST_FOREACH(CIntEvent& PDat, intEventQueue) PDat.scaleTime(scale);
    match forEach (IntEvent.scaleTime scale) s.intEventQueue with
    | none => none
    | some intEventQueue =>
      some { intEventQueue := intEventQueue, globEventQueue := globEventQueue }

/-! ## The neighbour-list signals (globals/neighbourList.hpp:88-159, 218-228) -/

/-- One signal of a neighbour list: the `size_t` counter (`sig...NotifyCount`)
and the vector of slots (`sig...Notify`), each slot a handle paired with a
callback of type `F`. -/
structure Signal (F : Type) where
  count : Nat
  slots : List (Nat × F)

/-- The signal as the constructor `GNeighbourList(a, b)` leaves it
(neighbourList.hpp:88-94): the vector is empty and the counter, which has no
initialiser, holds whatever value `count` it happens to hold. -/
def Signal.new {F : Type} (count : Nat) : Signal F := { count := count, slots := [] }

/-- The body shared by `ConnectSigCellChangeNotify`, `ConnectSigNewNeighbourNotify`
and `ConnectSigReInitNotify`: `sig.push_back(slot(++sigCount, func)); return sigCount;`. -/
def Signal.Connect {F : Type} (s : Signal F) (func : F) : Nat × Signal F :=
  let count := (s.count + 1) % 2 ^ 64
  (count, { count := count, slots := s.slots ++ [(count, func)] })

/-- The body shared by the three `DisconnectSig...Notify` functions:
`sig.erase(std::remove_if(sig.begin(), sig.end(), eraser(id)), sig.end());`
where the eraser accepts the slots with `nbs.first == id`. -/
def Signal.Disconnect {F : Type} (s : Signal F) (id : Nat) : Signal F :=
  { s with slots := s.slots.filter (fun nbs => !(nbs.1 == id)) }

/-- The three signals of `GNeighbourList`; `F` is `nbHoodFunc` and `G` is
`initFunc`. -/
structure GNeighbourList (F G : Type) where
  sigCellChangeNotify : Signal F
  sigNewNeighbourNotify : Signal F
  sigReInitNotify : Signal G

/-- `GNeighbourList::ConnectSigCellChangeNotify` (neighbourList.hpp:99-108). -/
def GNeighbourList.ConnectSigCellChangeNotify {F G : Type} (self : GNeighbourList F G)
    (func : F) : Nat × GNeighbourList F G :=
  let r := self.sigCellChangeNotify.Connect func
  (r.1, { self with sigCellChangeNotify := r.2 })

/-- `GNeighbourList::DisconnectSigCellChangeNotify` (neighbourList.hpp:110-118). -/
def GNeighbourList.DisconnectSigCellChangeNotify {F G : Type} (self : GNeighbourList F G)
    (id : Nat) : GNeighbourList F G :=
  { self with sigCellChangeNotify := self.sigCellChangeNotify.Disconnect id }

/-- `GNeighbourList::ConnectSigNewNeighbourNotify` (neighbourList.hpp:120-129). -/
def GNeighbourList.ConnectSigNewNeighbourNotify {F G : Type} (self : GNeighbourList F G)
    (func : F) : Nat × GNeighbourList F G :=
  let r := self.sigNewNeighbourNotify.Connect func
  (r.1, { self with sigNewNeighbourNotify := r.2 })

/-- `GNeighbourList::DisconnectSigNewNeighbourNotify` (neighbourList.hpp:131-139). -/
def GNeighbourList.DisconnectSigNewNeighbourNotify {F G : Type} (self : GNeighbourList F G)
    (id : Nat) : GNeighbourList F G :=
  { self with sigNewNeighbourNotify := self.sigNewNeighbourNotify.Disconnect id }

/-- `GNeighbourList::ConnectSigReInitNotify` (neighbourList.hpp:141-149). -/
def GNeighbourList.ConnectSigReInitNotify {F G : Type} (self : GNeighbourList F G)
    (func : G) : Nat × GNeighbourList F G :=
  let r := self.sigReInitNotify.Connect func
  (r.1, { self with sigReInitNotify := r.2 })

/-- `GNeighbourList::DisconnectSigReInitNotify` (neighbourList.hpp:151-159). -/
def GNeighbourList.DisconnectSigReInitNotify {F G : Type} (self : GNeighbourList F G)
    (id : Nat) : GNeighbourList F G :=
  { self with sigReInitNotify := self.sigReInitNotify.Disconnect id }

/-- A call on one signal: `Connect(func)` or `Disconnect(id)`. -/
inductive SigOp (F : Type) where
  | Connect (func : F)
  | Disconnect (id : Nat)

/-- The call is `Disconnect(h)`. -/
def SigOp.isDisconnectOf {F : Type} (h : Nat) : SigOp F → Bool
  | SigOp.Connect _ => false
  | SigOp.Disconnect id => id == h

/-- The call is a `Connect`. -/
def SigOp.isConnect {F : Type} : SigOp F → Bool
  | SigOp.Connect _ => true
  | SigOp.Disconnect _ => false

/-- The calls `ops` made in order on the signal `s`: the signal afterwards and
the handles the `Connect` calls returned, in order. -/
def Signal.run {F : Type} : Signal F → List (SigOp F) → Signal F × List Nat
  | s, [] => (s, [])
  | s, SigOp.Connect func :: ops =>
    let r := s.Connect func
    let rest := Signal.run r.2 ops
    (rest.1, r.1 :: rest.2)
  | s, SigOp.Disconnect id :: ops => Signal.run (s.Disconnect id) ops

/-- The subscriptions that a sequence of calls leaves connected, in their
registration order: each `Connect` call contributes its slot, with the handle it
was given (the counter plus one), unless a later call disconnects that handle.
`count` is the counter before the calls. -/
def liveSubscriptions {F : Type} : Nat → List (SigOp F) → List (Nat × F)
  | _, [] => []
  | count, SigOp.Connect func :: ops =>
    let h := (count + 1) % 2 ^ 64
    if ops.any (SigOp.isDisconnectOf h) then liveSubscriptions h ops
    else (h, func) :: liveSubscriptions h ops
  | count, SigOp.Disconnect _ :: ops => liveSubscriptions count ops

/-- Three calls on a signal whose counter starts at 7: two subscriptions, the
first of them disconnected again. -/
def exampleSigOps : List (SigOp String) :=
  [SigOp.Connect "scheduler", SigOp.Connect "plugin", SigOp.Disconnect 8]

/-! ## Writing the configuration file (simulation.cpp:410-445, is_simdata.cpp:308-343) -/

/-- The constant `std::numeric_limits<double>::digits10` of an IEEE-754 binary64
`double`. -/
def digits10 : Int := 15

/-- The floating-point format of the output stream: whether `std::scientific`
is set and the value given to `std::setprecision`. -/
structure StreamFormat where
  scientific : Bool
  precision : Int
deriving DecidableEq

/-- `Simulation::writeXMLfile(fileName, applyBC, round)` (simulation.cpp:410-445;
`SimData::writeXMLfile` of is_simdata.cpp:308-343 is the same code) up to the
manipulators it sends to the XML stream: the state check, then `std::scientific`
and `std::setprecision(std::numeric_limits<double>::digits10 - 1 - round)`, the
`bool` promoted to `int`.  The result is the format every floating-point value
of the file is written with. -/
def writeXMLfile (status : ESimulationStatus) (round : Bool) : Except String StreamFormat :=
  if status.toNat < ESimulationStatus.INITIALISED.toNat ∨ status = ESimulationStatus.ERROR then
    .error "Cannot write out configuration in this state"
  else
    .ok { scientific := true, precision := digits10 - 1 - (if round then 1 else 0) }

/-! ## Replica exchange (simulation.cpp:532-603, is_simdata.cpp:428-501)

The scalar type `K` stands for `double` in exact arithmetic and `sqrt` for the
library function of that name, so that the swap can be evaluated on rational
data and reasoned about on the reals. -/

/-- A particle of a simulation as the swap sees it: its ID and its velocity at
the current time, the state `updateAllParticles` brings every particle to. -/
structure ParticleK (K : Type) where
  ID : Nat
  vel : K × K × K

/-- The operator `Vector::operator*=(scale)` on the velocity of a particle:
`part.getVelocity() *= scale`. -/
def ParticleK.scaleVelocity {K : Type} [LinearOrderedField K] (scale : K) (part : ParticleK K) :
    ParticleK K :=
  { part with vel := (part.vel.1 * scale, part.vel.2.1 * scale, part.vel.2.2 * scale) }

/-- A system event held by a simulation through a `shared_ptr<System>`: the
simulation it points back to (`Sim`, the address of the owner), its name, its
firing time and its type. -/
structure SystemEvent (K : Type) where
  Sim : Nat
  sysName : String
  dt : WithTop K
  type : EEventType

/-- Modelled from the spec: `System::changeSystem(Simulation*)` (its header is
missing), which re-targets the back-pointer of the event. -/
def SystemEvent.changeSystem {K : Type} (ptr : Nat) (e : SystemEvent K) : SystemEvent K :=
  { e with Sim := ptr }

/-- The members of `Simulation` that `replexerSwap` reads or writes, leaving out
the particle-update signal and the output plugins: `addr` is the address of the
object (`this`), `ensemble` holds the three `EnsembleVals`, and `ptrScheduler` is
the state of the scheduler, of a type `Sch`. -/
structure Simulation (K Sch : Type) where
  addr : Nat
  systemTime : K
  eventCount : Nat
  systems : List (SystemEvent K)
  ensemble : K × K × K
  particles : List (ParticleK K)
  ptrScheduler : Sch

/-- The entry `ensemble->getEnsembleVals()[2]`, the temperature of the
ensemble. -/
def Simulation.temperature {K Sch : Type} (s : Simulation K Sch) : K := s.ensemble.2.2

/-- `Simulation::replexerSwap(other)` (simulation.cpp:532-603) on the pair
`(*this, other)`.  `rescaleTimes` is `Scheduler::rescaleTimes`, whose result is
`none` when a rescaled time leaves the model; `Ensemble::swap` exchanges the
ensemble values. -/
def Simulation.replexerSwap {K Sch : Type} [LinearOrderedField K] (sqrt : K → K)
    (rescaleTimes : K → Sch → Option Sch) (self other : Simulation K Sch) :
    Option (Simulation K Sch × Simulation K Sch) :=
  -- std::swap(systemTime, other.systemTime); std::swap(eventCount, other.eventCount);
  let systemTime := other.systemTime
  let otherSystemTime := self.systemTime
  let eventCount := other.eventCount
  let otherEventCount := self.eventCount
  -- systems.swap(other.systems); aPtr->changeSystem(this); aPtr->changeSystem(&other);
  let systems := other.systems.map (SystemEvent.changeSystem self.addr)
  let otherSystems := self.systems.map (SystemEvent.changeSystem other.addr)
  -- double scale1(sqrt(other.ensemble->getEnsembleVals()[2] / ensemble->getEnsembleVals()[2]));
  let scale1 := sqrt (other.temperature / self.temperature)
  -- for (Particle& part : particles) part.getVelocity() *= scale1;
  let particles := self.particles.map (ParticleK.scaleVelocity scale1)
  -- other.ptrScheduler->rescaleTimes(scale1);
  match rescaleTimes scale1 other.ptrScheduler with
  | none => none
  | some otherScheduler =>
    -- double scale2(1.0 / scale1);
    let scale2 := 1 / scale1
    -- for (Particle& part : other.particles) part.getVelocity() *= scale2;
    let otherParticles := other.particles.map (ParticleK.scaleVelocity scale2)
    -- ptrScheduler->rescaleTimes(scale2);
    match rescaleTimes scale2 self.ptrScheduler with
    | none => none
    | some ptrScheduler =>
      -- ensemble->swap(*other.ensemble);
      some
        ({ addr := self.addr, systemTime := systemTime, eventCount := eventCount,
           systems := systems, ensemble := other.ensemble, particles := particles,
           ptrScheduler := ptrScheduler },
         { addr := other.addr, systemTime := otherSystemTime, eventCount := otherEventCount,
           systems := otherSystems, ensemble := self.ensemble, particles := otherParticles,
           ptrScheduler := otherScheduler })

/-- On the argument `x` the function `sqrt` returns the non-negative square root. -/
def IsSqrtAt {K : Type} [LinearOrderedField K] (sqrt : K → K) (x : K) : Prop :=
  0 ≤ sqrt x ∧ sqrt x * sqrt x = x

/-- The scheduler returns from `rescaleTimes` for every positive scale. -/
def RescaleReturns {K Sch : Type} [LinearOrderedField K]
    (rescaleTimes : K → Sch → Option Sch) : Prop :=
  ∀ (scale : K) (q : Sch), 0 < scale → ∃ q1, rescaleTimes scale q = some q1

/-- For a positive scale, `rescaleTimes(1/scale)` undoes `rescaleTimes(scale)`. -/
def RescaleUndoes {K Sch : Type} [LinearOrderedField K]
    (rescaleTimes : K → Sch → Option Sch) : Prop :=
  ∀ (scale : K) (q q1 : Sch), 0 < scale → rescaleTimes scale q = some q1 →
    rescaleTimes (1 / scale) q1 = some q

/-- Every system event of the simulation points back to it. -/
def OwnsSystems {K Sch : Type} (s : Simulation K Sch) : Prop :=
  ∀ e ∈ s.systems, e.Sim = s.addr

/-- A square-root function on the rationals that is exact on the arguments
`1/4`, `1` and `4`. -/
def sqrtTable (x : ℚ) : ℚ :=
  if x = 4 then 2 else if x = 1 / 4 then 1 / 2 else if x = 1 then 1 else 0

/-- A two-particle simulation at temperature 1 held at address 1. -/
def exampleReplica1 : Simulation ℚ CSFastSingle :=
  { addr := 1, systemTime := 3, eventCount := 10,
    systems := [{ Sim := 1, sysName := "Halt", dt := (5 : ℚ), type := EEventType.NONE }],
    ensemble := (2, 8, 1),
    particles := [{ ID := 0, vel := (1, 0, -1) }, { ID := 1, vel := (-1, 0, 1) }],
    ptrScheduler :=
      { intEventQueue := [{ particle1 := 0, particle2 := some 1, dt := (2 : ℚ),
                            type := EEventType.CORE }, IntEvent.ofParticle 1],
        globEventQueue := [] } }

/-- A two-particle simulation at temperature 4 held at address 2. -/
def exampleReplica2 : Simulation ℚ CSFastSingle :=
  { addr := 2, systemTime := 7, eventCount := 25,
    systems := [],
    ensemble := (2, 8, 4),
    particles := [{ ID := 0, vel := (2, 2, 0) }, { ID := 1, vel := (-2, -2, 0) }],
    ptrScheduler :=
      { intEventQueue := [{ particle1 := 0, particle2 := some 1, dt := (6 : ℚ),
                            type := EEventType.CORE }, IntEvent.ofParticle 1],
        globEventQueue := [{ particle := 0, dt := (1 : ℚ), type := EEventType.VIRTUAL }] } }

/-- Modelled from the spec: the enumeration `magnet::units::Units::Dimension`
(header `magnet/units.hpp` is missing), the units `(L)ength, (T)ime, (M)ass`
named by the comment of `Property::rescaleUnit`. -/
inductive Dimension where
  | L
  | T
  | M
deriving DecidableEq

/-- Modelled from the spec: `magnet::units::Units` (header missing), the power of
each dimension in the units of a property; the powers are integers. -/
structure Units where
  L : Int
  T : Int
  M : Int
deriving DecidableEq

/-- Modelled from the spec: `Units::getUnitsPower(dim)` (header missing). -/
def Units.getUnitsPower (u : Units) : Dimension → Int
  | Dimension.L => u.L
  | Dimension.T => u.T
  | Dimension.M => u.M

/-- The exact power `x ^ n`, the value of `std::pow(x, n)` where no rounding,
underflow or overflow occurs. -/
def exactPow (x : ℚ) (n : Int) : ℚ := x ^ n

/-- A `std::pow` with underflow: the exact power, flushed to zero when it is
smaller in magnitude than `2^-1075`, half the least positive `double`. -/
def flushPow (x : ℚ) (n : Int) : ℚ :=
  if |x ^ n| < (2 : ℚ) ^ (-1075 : Int) then 0 else x ^ n

/-- The class `NumericProperty` (property.hpp:94-122): its units and its single
value. -/
structure NumericProperty where
  _units : Units
  _val : ℚ
deriving DecidableEq

/-- `NumericProperty::rescaleUnit(dim, rescale)` (property.hpp:110-112):
`_val *= std::pow(rescale, _units.getUnitsPower(dim));`.  The parameter `pow` is
`std::pow` on a `double` and a power, with whatever rounding or underflow it
has; an infinite or NaN result lies outside the model. -/
def NumericProperty.rescaleUnit (pow : ℚ → Int → ℚ) (dim : Dimension) (rescale : ℚ)
    (self : NumericProperty) : NumericProperty :=
  { self with _val := self._val * pow rescale (self._units.getUnitsPower dim) }

/-- The class `ParticleProperty` (property.hpp:129-205): its units, its name
and one value for each particle. -/
structure ParticleProperty where
  _units : Units
  _name : String
  _values : List ℚ
deriving DecidableEq

/-- The constructor `ParticleProperty(N, units, name, initalval)`
(property.hpp:132-137). -/
def ParticleProperty.new (N : Nat) (units : Units) (name : String) (initalval : ℚ) :
    ParticleProperty :=
  { _units := units, _name := name, _values := List.replicate N initalval }

/-- `ParticleProperty::rescaleUnit(dim, rescale)` (property.hpp:176-183); `pow` is
`std::pow`, as for `NumericProperty::rescaleUnit`. -/
def ParticleProperty.rescaleUnit (pow : ℚ → Int → ℚ) (dim : Dimension) (rescale : ℚ)
    (self : ParticleProperty) : ParticleProperty :=
  -- double factor = std::pow(rescale, _units.getUnitsPower(dim));
  let factor := pow rescale (self._units.getUnitsPower dim)
  -- if (factor) for (it = _values.begin(); it != _values.end(); ++it) *it *= factor;
  if factor ≠ 0 then { self with _values := self._values.map (fun v => v * factor) }
  else self

/-- Units of length: the powers `(1, 0, 0)`. -/
def unitsOfLength : Units := { L := 1, T := 0, M := 0 }

/-- Units of area: the powers `(2, 0, 0)`. -/
def unitsOfArea : Units := { L := 2, T := 0, M := 0 }

/-! ## The 4x4 matrix `GLMatrix` (magnet/GL/matrix.hpp)

The scalar type `K` stands for `GLfloat` in exact arithmetic: any field with
decidable equality. -/

/-- The class `GLMatrix`, a `std::array<GLfloat, 4 * 4>`. -/
abbrev GLMatrix (K : Type) := Fin 16 → K

/-- `GLMatrix::identity()` (matrix.hpp:70-77). -/
def GLMatrix.identity {K : Type} [Field K] : GLMatrix K :=
  ![1, 0, 0, 0,
    0, 1, 0, 0,
    0, 0, 1, 0,
    0, 0, 0, 1]

/-- The element `m[n]` for an index computed at run time; an index past the end
reads as 0 (none is computed by the code below). -/
def GLMatrix.at {K : Type} [Field K] (m : GLMatrix K) (n : Nat) : K :=
  if h : n < 16 then m ⟨n, h⟩ else 0

/-- `GLMatrix::operator*(const GLMatrix& om)` (matrix.hpp:183-195): the element
`retval[i * 4 + j]` is the sum over `k` of `(*this)[k * 4 + j] * om[i * 4 + k]`. -/
def GLMatrix.mul {K : Type} [Field K] (self om : GLMatrix K) : GLMatrix K :=
  fun idx =>
    let i := idx.val / 4
    let j := idx.val % 4
    (List.range 4).foldl (fun sum k => sum + self.at (k * 4 + j) * om.at (i * 4 + k)) 0

/-- `GLMatrix::transpose()` (matrix.hpp:212-217): the elements `[4*i+j]` and
`[4*j+i]` change places. -/
def GLMatrix.transpose {K : Type} [Field K] (self : GLMatrix K) : GLMatrix K :=
  fun idx => self.at (4 * (idx.val % 4) + idx.val / 4)

/-- The cofactors `result[0..15]` that `GLMatrix::inverse` computes before it
divides (matrix.hpp:226-274). -/
def GLMatrix.cofactors {K : Type} [Field K] (self : GLMatrix K) : GLMatrix K :=
  -- calculate pairs for first 8 elements (cofactors)
  let tmp0 := self 10 * self 15
  let tmp1 := self 11 * self 14
  let tmp2 := self 9 * self 15
  let tmp3 := self 11 * self 13
  let tmp4 := self 9 * self 14
  let tmp5 := self 10 * self 13
  let tmp6 := self 8 * self 15
  let tmp7 := self 11 * self 12
  let tmp8 := self 8 * self 14
  let tmp9 := self 10 * self 12
  let tmp10 := self 8 * self 13
  let tmp11 := self 9 * self 12
  -- calculate first 8 elements (cofactors)
  let result0 := tmp0 * self 5 + tmp3 * self 6 + tmp4 * self 7 - tmp1 * self 5
    - tmp2 * self 6 - tmp5 * self 7
  let result1 := tmp1 * self 4 + tmp6 * self 6 + tmp9 * self 7 - tmp0 * self 4
    - tmp7 * self 6 - tmp8 * self 7
  let result2 := tmp2 * self 4 + tmp7 * self 5 + tmp10 * self 7 - tmp3 * self 4
    - tmp6 * self 5 - tmp11 * self 7
  let result3 := tmp5 * self 4 + tmp8 * self 5 + tmp11 * self 6 - tmp4 * self 4
    - tmp9 * self 5 - tmp10 * self 6
  let result4 := tmp1 * self 1 + tmp2 * self 2 + tmp5 * self 3 - tmp0 * self 1
    - tmp3 * self 2 - tmp4 * self 3
  let result5 := tmp0 * self 0 + tmp7 * self 2 + tmp8 * self 3 - tmp1 * self 0
    - tmp6 * self 2 - tmp9 * self 3
  let result6 := tmp3 * self 0 + tmp6 * self 1 + tmp11 * self 3 - tmp2 * self 0
    - tmp7 * self 1 - tmp10 * self 3
  let result7 := tmp4 * self 0 + tmp9 * self 1 + tmp10 * self 2 - tmp5 * self 0
    - tmp8 * self 1 - tmp11 * self 2
  -- calculate pairs for second 8 elements (cofactors)
  let tmp0 := self 2 * self 7
  let tmp1 := self 3 * self 6
  let tmp2 := self 1 * self 7
  let tmp3 := self 3 * self 5
  let tmp4 := self 1 * self 6
  let tmp5 := self 2 * self 5
  let tmp6 := self 0 * self 7
  let tmp7 := self 3 * self 4
  let tmp8 := self 0 * self 6
  let tmp9 := self 2 * self 4
  let tmp10 := self 0 * self 5
  let tmp11 := self 1 * self 4
  -- calculate second 8 elements (cofactors)
  let result8 := tmp0 * self 13 + tmp3 * self 14 + tmp4 * self 15 - tmp1 * self 13
    - tmp2 * self 14 - tmp5 * self 15
  let result9 := tmp1 * self 12 + tmp6 * self 14 + tmp9 * self 15 - tmp0 * self 12
    - tmp7 * self 14 - tmp8 * self 15
  let result10 := tmp2 * self 12 + tmp7 * self 13 + tmp10 * self 15 - tmp3 * self 12
    - tmp6 * self 13 - tmp11 * self 15
  let result11 := tmp5 * self 12 + tmp8 * self 13 + tmp11 * self 14 - tmp4 * self 12
    - tmp9 * self 13 - tmp10 * self 14
  let result12 := tmp2 * self 10 + tmp5 * self 11 + tmp1 * self 9 - tmp4 * self 11
    - tmp0 * self 9 - tmp3 * self 10
  let result13 := tmp8 * self 11 + tmp0 * self 8 + tmp7 * self 10 - tmp6 * self 10
    - tmp9 * self 11 - tmp1 * self 8
  let result14 := tmp6 * self 9 + tmp11 * self 11 + tmp3 * self 8 - tmp10 * self 11
    - tmp2 * self 8 - tmp7 * self 9
  let result15 := tmp10 * self 10 + tmp4 * self 8 + tmp9 * self 9 - tmp8 * self 9
    - tmp11 * self 10 - tmp5 * self 8
  ![result0, result1, result2, result3, result4, result5, result6, result7,
    result8, result9, result10, result11, result12, result13, result14, result15]

/-- The value `det` of `GLMatrix::inverse` (matrix.hpp:277-278), computed from
the first row of cofactors. -/
def GLMatrix.det {K : Type} [Field K] (self : GLMatrix K) : K :=
  self 0 * self.cofactors 0 + self 1 * self.cofactors 1 + self 2 * self.cofactors 2
    + self 3 * self.cofactors 3

/-- `GLMatrix::inverse()` (matrix.hpp:222-291): the cofactors divided by `det`,
replaced by the identity when `det == 0.0f`, and transposed on the way out. -/
def GLMatrix.inverse {K : Type} [Field K] [DecidableEq K] (self : GLMatrix K) : GLMatrix K :=
  let det := self.det
  -- for (size_t i(0); i < 4*4; ++i) result[i] /= det;
  let result : GLMatrix K := fun i => self.cofactors i / det
  -- if (det == 0.0f) ... result[4*i+j] = (i==j) ? 1 : 0;
  let result : GLMatrix K :=
    if det = 0 then fun idx => if idx.val / 4 = idx.val % 4 then 1 else 0 else result
  -- result.transpose();
  result.transpose

/-- The conversion `operator math::Matrix()` (matrix.hpp:46-53) extended to all
four rows and columns: the entry of row `i` and column `j` is `(*this)[4 * j + i]`. -/
def GLMatrix.toMatrix {K : Type} [Field K] (self : GLMatrix K) : Matrix (Fin 4) (Fin 4) K :=
  fun i j => self.at (4 * j.val + i.val)

/-- A matrix of determinant 8 that mixes rows: a scaling by 2 followed by a
translation and a shear. -/
def exampleGLMatrix : GLMatrix ℚ :=
  ![2, 0, 0, 0,
    1, 2, 0, 0,
    0, 0, 2, 0,
    3, 4, 5, 1]

/-! ## Pair ranges of chain groups (ranges/IDPairRangeChainGroups.hpp)

A `size_t` is a natural number below `2^64`; sums and differences wrap, and the
remainder of a division by zero is undefined behaviour (`none`). -/

/-- The sum `a + b` of two `size_t`. -/
def size_t_add (a b : Nat) : Nat := (a + b) % 2 ^ 64

/-- The difference `a - b` of two `size_t`. -/
def size_t_sub (a b : Nat) : Nat := (a + 2 ^ 64 - b) % 2 ^ 64

/-- The remainder `a % b` of two `size_t`: undefined for `b = 0`. -/
def size_t_mod (a b : Nat) : Option Nat := if b = 0 then none else some (a % b)

/-- The members of `IDPairRangeChainGroups` (IDPairRangeChainGroups.hpp:75-77). -/
structure IDPairRangeChainGroups where
  range1 : Nat
  range2 : Nat
  length : Nat
deriving DecidableEq

/-- The constructor `IDPairRangeChainGroups(r1, r2, l)`
(IDPairRangeChainGroups.hpp:41-47). -/
def IDPairRangeChainGroups.new (r1 r2 l : Nat) : IDPairRangeChainGroups :=
  -- if (range1 > range2) std::swap(range1, range2);
  if r1 > r2 then { range1 := r2, range2 := r1, length := l }
  else { range1 := r1, range2 := r2, length := l }

/-- The test shared by the two branches of `isInRange`, for the particle ID `lo`
checked against the start `ra` and the ID `hi` checked against the start `rb`:
`(((lo >= ra) && (lo < ra + length)) && ((hi >= rb) && (hi < rb + length)))
&& (((lo - ra) % length) == ((hi - rb) % length))`.  The operator `&&` evaluates
its right operand only when the left one is true. -/
def IDPairRangeChainGroups.bothInGroup (self : IDPairRangeChainGroups) (lo ra hi rb : Nat) :
    Option Bool :=
  if (decide (lo ≥ ra) && decide (lo < size_t_add ra self.length))
      && (decide (hi ≥ rb) && decide (hi < size_t_add rb self.length)) then
    match size_t_mod (size_t_sub lo ra) self.length,
      size_t_mod (size_t_sub hi rb) self.length with
    | some x, some y => some (x == y)
    | _, _ => none
  else some false

/-- `IDPairRangeChainGroups::isInRange(p1, p2)` (IDPairRangeChainGroups.hpp:49-61);
the result is `none` when the call has undefined behaviour. -/
def IDPairRangeChainGroups.isInRange (self : IDPairRangeChainGroups) (p1 p2 : Particle) :
    Option Bool :=
  if p1.ID > p2.ID then
    self.bothInGroup p1.ID self.range2 p2.ID self.range1
  else
    self.bothInGroup p1.ID self.range1 p2.ID self.range2

/-! ## The centre-of-mass velocity (simulation.cpp:616-640) -/

/-- The product `vel * mass` of a `Vector` with a scalar. -/
def vecScale (v : ℚ × ℚ × ℚ) (s : ℚ) : ℚ × ℚ × ℚ := (v.1 * s, v.2.1 * s, v.2.2 * s)

/-- The quotient `sumMV /= sumMass` of a `Vector` by a scalar. -/
def vecDiv (v : ℚ × ℚ × ℚ) (s : ℚ) : ℚ × ℚ × ℚ := (v.1 / s, v.2.1 / s, v.2.2 / s)

/-- The first loop of `Simulation::setCOMVelocity` (simulation.cpp:624-632): the
pair `(sumMV, sumMass)` after the particles of the list.  `applyBC` is
`BCs->applyBC(pos, vel)` on copies of the position and the velocity, `getMass`
is `species[Part]->getMass(Part.getID())`. -/
def sumMomentum (applyBC : ℚ × ℚ × ℚ → ℚ × ℚ × ℚ → (ℚ × ℚ × ℚ) × (ℚ × ℚ × ℚ))
    (getMass : Nat → ℚ) (particles : List Particle) (init : (ℚ × ℚ × ℚ) × ℚ) :
    (ℚ × ℚ × ℚ) × ℚ :=
  particles.foldl
    (fun acc Part =>
      let posvel := applyBC Part.pos Part.vel
      let vel := posvel.2
      let mass := getMass Part.ID
      -- sumMV -= vel * mass; sumMass += mass;
      (acc.1 - vecScale vel mass, acc.2 + mass))
    init

/-- `Simulation::setCOMVelocity(COMVelocity)` (simulation.cpp:616-640): the
particles after the call. -/
def setCOMVelocity (applyBC : ℚ × ℚ × ℚ → ℚ × ℚ × ℚ → (ℚ × ℚ × ℚ) × (ℚ × ℚ × ℚ))
    (getMass : Nat → ℚ) (COMVelocity : ℚ × ℚ × ℚ) (particles : List Particle) :
    List Particle :=
  -- Vector sumMV(0,0,0); long double sumMass(0);
  let sums := sumMomentum applyBC getMass particles ((0, 0, 0), 0)
  -- sumMV /= sumMass;
  let sumMV := vecDiv sums.1 sums.2
  -- sumMV += COMVelocity;
  let sumMV := sumMV + COMVelocity
  -- for (Particle & Part : particles) Part.getVelocity() = Part.getVelocity() + sumMV;
  particles.map (fun Part => { Part with vel := Part.vel + sumMV })

/-- The total mass of the particles. -/
def totalMass (getMass : Nat → ℚ) (particles : List Particle) : ℚ :=
  (particles.map (fun Part => getMass Part.ID)).sum

/-- The total momentum of the particles, the sum of `m_i v_i`. -/
def totalMomentum (getMass : Nat → ℚ) (particles : List Particle) : ℚ × ℚ × ℚ :=
  (particles.map (fun Part => vecScale Part.vel (getMass Part.ID))).sum

/-- The mass-weighted mean velocity: the sum of `m_i v_i` divided by the sum of
the `m_i`. -/
def meanVelocity (getMass : Nat → ℚ) (particles : List Particle) : ℚ × ℚ × ℚ :=
  vecDiv (totalMomentum getMass particles) (totalMass getMass particles)

/-- Two particles of the masses 1 and 3 with the velocities `(1,0,0)` and
`(5,4,0)`. -/
def movingParticles : List Particle :=
  [{ ID := 0, pos := (0, 0, 0), vel := (1, 0, 0) },
   { ID := 1, pos := (1, 0, 0), vel := (5, 4, 0) }]

/-- The mass of the particle `ID` in the example: 1 for particle 0, 3 for the
others. -/
def exampleMass (ID : Nat) : ℚ := if ID = 0 then 1 else 3

/-! ## Initialising the umbrella potential (systems/umbrella.cpp:136-166) -/

/-- The conversion `int(x)` of a `double`: truncation toward zero.  A value
outside the range of `int` is undefined behaviour and outside the model. -/
def truncToInt {K : Type} [LinearOrderedField K] [FloorRing K] (x : K) : Int :=
  if 0 ≤ x then ⌊x⌋ else ⌈x⌉

/-- `SysUmbrella::initialise(nID)` (umbrella.cpp:136-166) on the members of the
umbrella.  `r` is the norm of the separation of the two centres of mass
(lines 149-154); the member `ID` and the signal connection are left out. -/
def SysUmbrella.initialise {K : Type} [LinearOrderedField K] [FloorRing K] (sqrt : K → K)
    (dyn : UmbrellaDynamics K) (r : K) (self : SysUmbrella K) : SysUmbrella K :=
  -- ulevelcenter = int( - a * b * b / delU);
  let self := { self with ulevelcenter := truncToInt (-self.a * self.b * self.b / self.delU) }
  let self :=
    if !self.ulevelset then
      -- ulevel = int(a * (r - b) * (r - b) / delU);
      let ulevel := truncToInt (self.a * (r - self.b) * (r - self.b) / self.delU)
      -- if (r < b) ulevel *= -1;
      let ulevel := if r < self.b then ulevel * -1 else ulevel
      { self with ulevel := ulevel, ulevelset := true }
    else self
  self.recalculateTime sqrt dyn

/-- The arguments of the calls of `sqrt` in `SysUmbrella::recalculateTime`
(umbrella.cpp:184-215), in the order of the calls. -/
def SysUmbrella.sqrtArguments {K : Type} [LinearOrderedField K] (self : SysUmbrella K) :
    List K :=
  if self.ulevel = self.ulevelcenter then
    -- R_max = b - sqrt((ulevel * delU) / a);
    -- if (b==0) R_max = b + sqrt((ulevel + 1 * delU) / a);
    ((self.ulevel : K) * self.delU) / self.a ::
      (if self.b = 0 then [((self.ulevel : K) + 1 * self.delU) / self.a] else [])
  else if self.ulevel = 0 then
    [(1 * self.delU) / self.a, (1 * self.delU) / self.a]
  else if self.ulevel < 0 then
    [((-self.ulevel : Int) : K) * self.delU / self.a,
     (((-self.ulevel + 1 : Int)) : K) * self.delU / self.a]
  else
    [((self.ulevel : K) * self.delU) / self.a,
     ((((self.ulevel + 1 : Int) : K)) * self.delU) / self.a]

/-- A dynamics in which the two groups never cross a shell. -/
def noCrossing : UmbrellaDynamics ℚ :=
  { SphereSphereInRoot := fun _ => ⊤, SphereSphereOutRoot := fun _ => ⊤,
    multibdyWellEvent := fun _ => EEventType.NONE }

/-- The umbrella potential with `a = 1`, `b = 2`, `delU = 1`, as constructed. -/
def exampleUmbrella : SysUmbrella ℚ := SysUmbrella.new 1 2 1 "Umbrella"

/-- The string `std::string(fileName.end() - n, fileName.end())`: the last `n`
characters of the name.  For a name shorter than `n` the iterator
`fileName.end() - n` lies before `fileName.begin()`, and the construction reads
outside the string: undefined behaviour (`none`). -/
def lastChars (n : Nat) (fileName : String) : Option String :=
  if n ≤ fileName.length then
    some (String.mk (fileName.data.drop (fileName.length - n)))
  else none

/-- The start of `Simulation::loadXMLfile(fileName)` (simulation.cpp:273-300), up
to the choice of the input filter: the result is `ok true` when the bzip2
decompressor is pushed, `ok false` when the file is read as plain XML, an error
when the function throws, and `none` when the call has undefined behaviour.
`fileExists` is `boost::filesystem::exists(fileName)`. -/
def loadXMLfile (status : ESimulationStatus) (fileExists : Bool) (fileName : String) :
    Option (Except String Bool) :=
  if status ≠ ESimulationStatus.START then
    some (.error "Loading config at wrong time")
  else if !fileExists then
    some (.error "Could not find the XML file")
  else
    -- if (std::string(fileName.end()-8, fileName.end()) == ".xml.bz2")
    match lastChars 8 fileName with
    | none => none
    | some ext8 =>
      if ext8 = ".xml.bz2" then some (.ok true)
      else
        -- else if (!(std::string(fileName.end()-4, fileName.end()) == ".xml"))
        match lastChars 4 fileName with
        | none => none
        | some ext4 =>
          if ¬ (ext4 = ".xml") then some (.error "Unrecognized extension for xml file")
          else some (.ok false)

/-- A finite `double`, the number `m * 2^e`; the results of the operations below
have `m = 0` and `e = 0`, or `2^52 ≤ |m| < 2^53`. -/
structure Double where
  m : Int
  e : Int
deriving DecidableEq

/-- The rational number a `double` stands for. -/
def Double.toRat (x : Double) : ℚ := (x.m : ℚ) * (2 : ℚ) ^ x.e

/-- The loop of `floorLog2`: the number of halvings that bring `n` below 2, at
most `fuel` of them. -/
def floorLog2Aux : Nat → Nat → Nat
  | 0, _ => 0
  | fuel + 1, n => if n < 2 then 0 else floorLog2Aux fuel (n / 2) + 1

/-- The position of the highest set bit of `n`, 0 for `n = 0`; `n` halvings
always suffice. -/
def floorLog2 (n : Nat) : Nat := floorLog2Aux n n

/-- The `double` nearest to `m * 2^e`, ties to even; `sticky` says that the
number to round lies strictly between `|m| * 2^e` and `(|m| + 1) * 2^e` in
magnitude. -/
def Double.round (m e : Int) (sticky : Bool) : Double :=
  if m = 0 then { m := 0, e := 0 }
  else
    let n := m.natAbs
    let b := floorLog2 n
    if b ≤ 52 then { m := m * 2 ^ (52 - b), e := e - ((52 - b : Nat) : Int) }
    else
      let k := b - 52
      let q := n / 2 ^ k
      let r := n % 2 ^ k
      let half := 2 ^ (k - 1)
      let up := decide (r > half) || (decide (r = half) && (sticky || decide (q % 2 = 1)))
      let q := if up then q + 1 else q
      let k := if q = 2 ^ 53 then k + 1 else k
      let q := if q = 2 ^ 53 then 2 ^ 52 else q
      { m := if m < 0 then -(q : Int) else (q : Int), e := e + (k : Int) }

/-- The conversion of an integer to `double`. -/
def Double.ofInt (n : Int) : Double := Double.round n 0 false

/-- The negation `-x`. -/
def Double.neg (x : Double) : Double := { m := -x.m, e := x.e }

/-- The sum `x + y` of two `double`. -/
def Double.add (x y : Double) : Double :=
  let e := min x.e y.e
  Double.round (x.m * 2 ^ (x.e - e).toNat + y.m * 2 ^ (y.e - e).toNat) e false

/-- The difference `x - y` of two `double`. -/
def Double.sub (x y : Double) : Double := x.add y.neg

/-- The product `x * y` of two `double`. -/
def Double.mul (x y : Double) : Double := Double.round (x.m * y.m) (x.e + y.e) false

/-- The quotient `x / y` of two `double`; a division by zero lies outside the
model and is read as 0. -/
def Double.div (x y : Double) : Double :=
  if y.m = 0 then { m := 0, e := 0 }
  else
    let N := x.m.natAbs * 2 ^ 64
    let q := N / y.m.natAbs
    let rem := N % y.m.natAbs
    let sign : Int := if (decide (x.m < 0)) != (decide (y.m < 0)) then -1 else 1
    Double.round (sign * (q : Int)) (x.e - y.e - 64) (decide (rem ≠ 0))

/-- A vector of three `double`. -/
abbrev VectorDouble := Double × Double × Double

/-- A particle with `double` coordinates. -/
structure ParticleDouble where
  ID : Nat
  pos : VectorDouble
  vel : VectorDouble
deriving DecidableEq

/-- The particle as a particle with rational coordinates. -/
def ParticleDouble.toParticle (p : ParticleDouble) : Particle :=
  { ID := p.ID, pos := (p.pos.1.toRat, p.pos.2.1.toRat, p.pos.2.2.toRat),
    vel := (p.vel.1.toRat, p.vel.2.1.toRat, p.vel.2.2.toRat) }

/-- The first loop of `Simulation::setCOMVelocity` (simulation.cpp:624-632) in
`double` arithmetic; the `long double` sum of the masses is kept in a `double`. -/
def sumMomentumDouble (applyBC : VectorDouble → VectorDouble → VectorDouble × VectorDouble)
    (getMass : Nat → Double) (particles : List ParticleDouble) (init : VectorDouble × Double) :
    VectorDouble × Double :=
  particles.foldl
    (fun acc Part =>
      let posvel := applyBC Part.pos Part.vel
      let vel := posvel.2
      let mass := getMass Part.ID
      -- sumMV -= vel * mass; sumMass += mass;
      ((acc.1.1.sub (vel.1.mul mass), acc.1.2.1.sub (vel.2.1.mul mass),
        acc.1.2.2.sub (vel.2.2.mul mass)), acc.2.add mass))
    init

/-- `Simulation::setCOMVelocity(COMVelocity)` (simulation.cpp:616-640) in `double`
arithmetic: the particles after the call. -/
def setCOMVelocityDouble (applyBC : VectorDouble → VectorDouble → VectorDouble × VectorDouble)
    (getMass : Nat → Double) (COMVelocity : VectorDouble) (particles : List ParticleDouble) :
    List ParticleDouble :=
  -- Vector sumMV(0,0,0); long double sumMass(0);
  let sums := sumMomentumDouble applyBC getMass particles
    ((Double.ofInt 0, Double.ofInt 0, Double.ofInt 0), Double.ofInt 0)
  -- sumMV /= sumMass;
  let sumMV : VectorDouble :=
    (sums.1.1.div sums.2, sums.1.2.1.div sums.2, sums.1.2.2.div sums.2)
  -- sumMV += COMVelocity;
  let sumMV : VectorDouble :=
    (sumMV.1.add COMVelocity.1, sumMV.2.1.add COMVelocity.2.1, sumMV.2.2.add COMVelocity.2.2)
  -- for (Particle & Part : particles) Part.getVelocity() = Part.getVelocity() + sumMV;
  particles.map (fun Part =>
    { Part with vel := (Part.vel.1.add sumMV.1, Part.vel.2.1.add sumMV.2.1,
                        Part.vel.2.2.add sumMV.2.2) })

/-- Two particles of mass 1 at the origin with the velocities `(0.1, 0, 0)` and
`(0.2, 0, 0)`, the literals `0.1` and `0.2` being the `double` nearest to `1/10`
and `2/10`. -/
def tenthParticles : List ParticleDouble :=
  [{ ID := 0, pos := (Double.ofInt 0, Double.ofInt 0, Double.ofInt 0),
     vel := ((Double.ofInt 1).div (Double.ofInt 10), Double.ofInt 0, Double.ofInt 0) },
   { ID := 1, pos := (Double.ofInt 0, Double.ofInt 0, Double.ofInt 0),
     vel := ((Double.ofInt 2).div (Double.ofInt 10), Double.ofInt 0, Double.ofInt 0) }]

/-! ## Theorems -/

/-- Decomposition of the interaction list around the value returned by
`getInteraction`: everything before it rejects the pair and it accepts it. -/
theorem getInteraction_ok_iff (l : List Interaction) (p1 p2 : Particle) (i : Interaction) :
    getInteraction l p1 p2 = .ok i ↔
      ∃ pre post, l = pre ++ i :: post ∧ (∀ j ∈ pre, j.isInteraction p1 p2 = false) ∧
        i.isInteraction p1 p2 = true := by
  induction l with
  | nil => simp [getInteraction]
  | cons a rest ih =>
    unfold getInteraction
    by_cases ha : a.isInteraction p1 p2 = true
    · simp only [ha, if_true]
      constructor
      · intro h
        injection h with h
        subst h
        exact ⟨[], rest, rfl, by simp, ha⟩
      · rintro ⟨pre, post, hl, hpre, hi⟩
        cases pre with
        | nil =>
          simp only [List.nil_append, List.cons.injEq] at hl
          rw [hl.1]
        | cons b pre =>
          simp only [List.cons_append, List.cons.injEq] at hl
          have hb := hpre b (List.mem_cons_self _ _)
          rw [← hl.1, ha] at hb
          exact absurd hb (by simp)
    · simp only [ha, Bool.false_eq_true, if_false]
      rw [ih]
      constructor
      · rintro ⟨pre, post, hl, hpre, hi⟩
        refine ⟨a :: pre, post, by simp [hl], ?_, hi⟩
        intro j hj
        rcases List.mem_cons.mp hj with rfl | hj
        · simpa using ha
        · exact hpre j hj
      · rintro ⟨pre, post, hl, hpre, hi⟩
        cases pre with
        | nil =>
          simp only [List.nil_append, List.cons.injEq] at hl
          rw [hl.1] at ha
          exact absurd hi ha
        | cons b pre =>
          simp only [List.cons_append, List.cons.injEq] at hl
          exact ⟨pre, post, hl.2, fun j hj => hpre j (List.mem_cons_of_mem _ hj), hi⟩

theorem getInteraction_isError (l : List Interaction) (p1 p2 : Particle) :
    isError (getInteraction l p1 p2) = true ↔ ∀ j ∈ l, j.isInteraction p1 p2 = false := by
  induction l with
  | nil => simp [getInteraction, isError]
  | cons a rest ih =>
    unfold getInteraction
    by_cases ha : a.isInteraction p1 p2 = true
    · simp [ha, isError]
    · simp only [ha, Bool.false_eq_true, if_false]
      rw [ih]
      simp only [Bool.not_eq_true] at ha
      simp [ha]

theorem getEvent_eq (l : List Interaction) (p1 p2 : Particle) :
    getEvent l p1 p2 =
      match getInteraction l p1 p2 with
      | .ok i => .ok (i.getEvent p1 p2)
      | .error _ => .error "Could not find the right interaction to test for" := by
  induction l with
  | nil => simp [getInteraction, getEvent]
  | cons a rest ih =>
    unfold getInteraction getEvent
    by_cases ha : a.isInteraction p1 p2 = true
    · simp [ha]
    · simp only [ha, Bool.false_eq_true, if_false]
      exact ih

/-- C1: `Simulation::getInteraction` returns exactly the first interaction, in
list order, whose `isInteraction(p1,p2)` is true; `Simulation::getEvent` returns
the event predicted by that same interaction; and each of them throws exactly
when no interaction of the list accepts the pair. -/
theorem C1_first_accepting_interaction (l : List Interaction) (p1 p2 : Particle)
    (i : Interaction) :
    (getInteraction l p1 p2 = .ok i ↔
      ∃ pre post, l = pre ++ i :: post ∧ (∀ j ∈ pre, j.isInteraction p1 p2 = false) ∧
        i.isInteraction p1 p2 = true) ∧
    (getEvent l p1 p2 =
      match getInteraction l p1 p2 with
      | .ok i => .ok (i.getEvent p1 p2)
      | .error _ => .error "Could not find the right interaction to test for") ∧
    (isError (getInteraction l p1 p2) = true ↔ ∀ j ∈ l, j.isInteraction p1 p2 = false) ∧
    (isError (getEvent l p1 p2) = true ↔ ∀ j ∈ l, j.isInteraction p1 p2 = false) := by
  refine ⟨getInteraction_ok_iff l p1 p2 i, getEvent_eq l p1 p2,
    getInteraction_isError l p1 p2, ?_⟩
  rw [← getInteraction_isError l p1 p2, getEvent_eq]
  cases getInteraction l p1 p2 <;> simp [isError]

/-! ### `std::min_element` -/

theorem min_element_foldl_spec {α : Type} (key : α → Time) (xs : List α) (x : α) :
    let m := xs.foldl (fun smallest y => if decide (key y < key smallest) then y else smallest) x
    m ∈ x :: xs ∧ key m ≤ key x ∧ ∀ y ∈ xs, key m ≤ key y := by
  induction xs generalizing x with
  | nil => simp
  | cons a rest ih =>
    simp only [List.foldl_cons]
    by_cases h : key a < key x
    · simp only [h, decide_True, if_true]
      obtain ⟨hm, hle, hall⟩ := ih a
      refine ⟨List.mem_cons_of_mem _ hm, le_trans hle (le_of_lt h), ?_⟩
      intro y hy
      rcases List.mem_cons.mp hy with rfl | hy
      · exact hle
      · exact hall y hy
    · simp only [h, decide_False, Bool.false_eq_true, if_false]
      obtain ⟨hm, hle, hall⟩ := ih x
      refine ⟨?_, hle, ?_⟩
      · rcases List.mem_cons.mp hm with hm | hm
        · rw [hm]; exact List.mem_cons_self _ _
        · exact List.mem_cons_of_mem _ (List.mem_cons_of_mem _ hm)
      · intro y hy
        rcases List.mem_cons.mp hy with rfl | hy
        · exact le_trans hle (not_lt.mp h)
        · exact hall y hy

/-- The element `std::min_element` returns belongs to the range and nothing in
the range is smaller. -/
theorem min_element_spec {α : Type} (key : α → Time) (l : List α) (m : α)
    (h : min_element (fun a b => decide (key a < key b)) l = some m) :
    m ∈ l ∧ ∀ y ∈ l, key m ≤ key y := by
  cases l with
  | nil => simp [min_element] at h
  | cons x xs =>
    simp only [min_element, Option.some.injEq] at h
    obtain ⟨hm, hle, hall⟩ := min_element_foldl_spec key xs x
    rw [h] at hm hle hall
    refine ⟨hm, ?_⟩
    intro y hy
    rcases List.mem_cons.mp hy with rfl | hy
    · exact hle
    · exact hall y hy

theorem min_element_isSome {α : Type} (lt : α → α → Bool) (l : List α) (h : l ≠ []) :
    ∃ m, min_element lt l = some m := by
  cases l with
  | nil => exact absurd rfl h
  | cons x xs => exact ⟨_, rfl⟩

theorem min_element_eq_none {α : Type} (lt : α → α → Bool) (l : List α) :
    min_element lt l = none ↔ l = [] := by
  cases l <;> simp [min_element]

theorem nextIntEvent_spec (s : CSFastSingle) (e : IntEvent) (h : s.nextIntEvent = some e) :
    e ∈ s.intEventQueue ∧ ∀ y ∈ s.intEventQueue, e.dt ≤ y.dt :=
  min_element_spec IntEvent.dt s.intEventQueue e h

theorem nextGlobEvent_spec (s : CSFastSingle) (g : CGlobEvent) (h : s.nextGlobEvent = some g) :
    g ∈ s.globEventQueue ∧ ∀ y ∈ s.globEventQueue, g.dt ≤ y.dt :=
  min_element_spec CGlobEvent.dt s.globEventQueue g h

theorem nextSystem_spec (l : List System) (x : System) (h : min_element System.lt l = some x) :
    x ∈ l ∧ ∀ y ∈ l, x.dt ≤ y.dt :=
  min_element_spec System.dt l x h

/-! ### `CSFastSingle::nextEventType` -/

/-- The decision table of `nextEventType` in terms of the three earliest events. -/
theorem nextEventType_eq (s : CSFastSingle) (systemEvents : List System) (e : IntEvent)
    (he : s.nextIntEvent = some e) :
    s.nextEventType systemEvents = some
      (match s.nextGlobEvent, min_element System.lt systemEvents with
       | none, none => ENextEvent.Interaction
       | none, some x =>
          if x.dt < ⊤ then (if e.dt < x.dt then ENextEvent.Interaction else ENextEvent.System)
          else ENextEvent.Interaction
       | some g, none =>
          if g.dt < ⊤ then (if e.dt < g.dt then ENextEvent.Interaction else ENextEvent.Global)
          else ENextEvent.Interaction
       | some g, some x =>
          if g.dt < ⊤ then
            (if x.dt < g.dt then (if e.dt < x.dt then ENextEvent.Interaction else ENextEvent.System)
             else (if e.dt < g.dt then ENextEvent.Interaction else ENextEvent.Global))
          else if x.dt < ⊤ then
            (if e.dt < x.dt then ENextEvent.Interaction else ENextEvent.System)
          else ENextEvent.Interaction) := by
  unfold CSFastSingle.nextEventType
  rw [he]
  cases s.nextGlobEvent <;> cases min_element System.lt systemEvents <;>
    simp only [HUGE_VAL] <;> split_ifs <;> simp_all

theorem noEarlierEvent_of_le (s : CSFastSingle) (systemEvents : List System) (e : IntEvent)
    (he : s.nextIntEvent = some e) (t : Time) (hi : t ≤ e.dt)
    (hg : ∀ g, s.nextGlobEvent = some g → t ≤ g.dt)
    (hx : ∀ x, min_element System.lt systemEvents = some x → t ≤ x.dt) :
    NoEarlierEvent s systemEvents t := by
  refine ⟨?_, ?_, ?_⟩
  · intro y hy
    exact le_trans hi ((nextIntEvent_spec s e he).2 y hy)
  · intro y hy
    obtain ⟨g, hgs⟩ := min_element_isSome CGlobEvent.lt s.globEventQueue
      (List.ne_nil_of_mem hy)
    exact le_trans (hg g hgs) ((nextGlobEvent_spec s g hgs).2 y hy)
  · intro y hy
    obtain ⟨x, hxs⟩ := min_element_isSome System.lt systemEvents (List.ne_nil_of_mem hy)
    exact le_trans (hx x hxs) ((nextSystem_spec systemEvents x hxs).2 y hy)

/-- C2: with a non-empty interaction queue `CSFastSingle::nextEventType` returns
a source kind, and the earliest event of that source (the one the scheduler
hands out: `earliestIntEvent`, `earliestGlobEvent`, the minimal system event) is
not later than any queued interaction event, any queued global event and any
system event. -/
theorem C2_nextEventType_global_minimum (s : CSFastSingle) (systemEvents : List System)
    (h : s.intEventQueue ≠ []) :
    ∃ kind, s.nextEventType systemEvents = some kind ∧ IsGlobalMinimum s systemEvents kind := by
  obtain ⟨e, he⟩ := min_element_isSome IntEvent.lt s.intEventQueue h
  have he' : s.nextIntEvent = some e := he
  have hmem := (nextIntEvent_spec s e he').1
  refine ⟨_, nextEventType_eq s systemEvents e he', ?_⟩
  have key := noEarlierEvent_of_le s systemEvents e he'
  have keyI : (∀ g, s.nextGlobEvent = some g → e.dt ≤ g.dt) →
      (∀ x, min_element System.lt systemEvents = some x → e.dt ≤ x.dt) →
      IsGlobalMinimum s systemEvents ENextEvent.Interaction := fun h1 h2 =>
    ⟨e, he', hmem, key e.dt le_rfl h1 h2⟩
  have topI : ∀ {u : Time}, ¬ u < ⊤ → e.dt ≤ u := fun hu => by
    rw [not_lt_top_iff.mp hu]; exact le_top
  cases hg : s.nextGlobEvent with
  | none =>
    have G0 : ∀ {t : Time} (y : CGlobEvent), s.nextGlobEvent = some y → t ≤ y.dt := by
      simp [hg]
    cases hx : min_element System.lt systemEvents with
    | none =>
      exact keyI G0 (by simp [hx])
    | some x =>
      have hxm := (nextSystem_spec systemEvents x hx).1
      have X : ∀ {t : Time}, t ≤ x.dt →
          ∀ y, min_element System.lt systemEvents = some y → t ≤ y.dt := by
        intro t ht y hy; rw [hx] at hy; cases hy; exact ht
      simp only
      split_ifs with h1 h2
      · exact keyI G0 (X (le_of_lt h2))
      · exact ⟨x, hx, hxm, key x.dt (not_lt.mp h2) G0 (X le_rfl)⟩
      · exact keyI G0 (X (topI h1))
  | some g =>
    have hgm := (nextGlobEvent_spec s g hg).1
    have G : ∀ {t : Time}, t ≤ g.dt → ∀ y, s.nextGlobEvent = some y → t ≤ y.dt := by
      intro t ht y hy; rw [hg] at hy; cases hy; exact ht
    cases hx : min_element System.lt systemEvents with
    | none =>
      have X0 : ∀ {t : Time} (y : System),
          min_element System.lt systemEvents = some y → t ≤ y.dt := by
        simp [hx]
      simp only
      split_ifs with h1 h2
      · exact keyI (G (le_of_lt h2)) X0
      · exact ⟨g, hg, hgm, key g.dt (not_lt.mp h2) (G le_rfl) X0⟩
      · exact keyI (G (topI h1)) X0
    | some x =>
      have hxm := (nextSystem_spec systemEvents x hx).1
      have X : ∀ {t : Time}, t ≤ x.dt →
          ∀ y, min_element System.lt systemEvents = some y → t ≤ y.dt := by
        intro t ht y hy; rw [hx] at hy; cases hy; exact ht
      simp only
      split_ifs with h1 h2 h3 h4 h5 h6
      · exact keyI (G (le_of_lt (lt_trans h3 h2))) (X (le_of_lt h3))
      · exact ⟨x, hx, hxm, key x.dt (not_lt.mp h3) (G (le_of_lt h2)) (X le_rfl)⟩
      · exact keyI (G (le_of_lt h4)) (X (le_trans (le_of_lt h4) (not_lt.mp h2)))
      · exact ⟨g, hg, hgm, key g.dt (not_lt.mp h4) (G le_rfl) (X (not_lt.mp h2))⟩
      · exact keyI (G (topI h1)) (X (le_of_lt h6))
      · exact ⟨x, hx, hxm, key x.dt (not_lt.mp h6)
          (G (by rw [not_lt_top_iff.mp h1]; exact le_top)) (X le_rfl)⟩
      · exact keyI (G (topI h1)) (X (topI h5))

/-- A state with a non-empty interaction queue to which C2 applies. -/
theorem C2_nextEventType_global_minimum_witness :
    tieState.intEventQueue ≠ [] ∧
    ∃ kind, tieState.nextEventType tieSystems = some kind ∧
      IsGlobalMinimum tieState tieSystems kind :=
  ⟨by decide, C2_nextEventType_global_minimum tieState tieSystems (by decide)⟩

theorem nextEventType_global (s : CSFastSingle) (systemEvents : List System) (e : IntEvent)
    (g : CGlobEvent) (he : s.nextIntEvent = some e) (hg : s.nextGlobEvent = some g)
    (hfin : g.dt < ⊤) (hge : g.dt ≤ e.dt)
    (hgx : ∀ x, min_element System.lt systemEvents = some x → g.dt ≤ x.dt) :
    s.nextEventType systemEvents = some ENextEvent.Global := by
  rw [nextEventType_eq s systemEvents e he, hg]
  cases hx : min_element System.lt systemEvents with
  | none => simp only [if_pos hfin, if_neg (not_lt.mpr hge)]
  | some x =>
    simp only [if_pos hfin, if_neg (not_lt.mpr hge), if_neg (not_lt.mpr (hgx x hx))]

theorem nextEventType_system (s : CSFastSingle) (systemEvents : List System) (e : IntEvent)
    (x : System) (he : s.nextIntEvent = some e)
    (hx : min_element System.lt systemEvents = some x)
    (hfin : x.dt < ⊤) (hxe : x.dt ≤ e.dt)
    (hxg : ∀ g, s.nextGlobEvent = some g → x.dt < g.dt) :
    s.nextEventType systemEvents = some ENextEvent.System := by
  rw [nextEventType_eq s systemEvents e he, hx]
  cases hg : s.nextGlobEvent with
  | none => simp only [if_pos hfin, if_neg (not_lt.mpr hxe)]
  | some g =>
    simp only [if_pos hfin, if_neg (not_lt.mpr hxe), if_pos (hxg g hg), ite_self]

theorem nextEventType_interaction (s : CSFastSingle) (systemEvents : List System)
    (e : IntEvent) (he : s.nextIntEvent = some e)
    (heg : ∀ g, s.nextGlobEvent = some g → e.dt < g.dt)
    (hex : ∀ x, min_element System.lt systemEvents = some x → e.dt < x.dt) :
    s.nextEventType systemEvents = some ENextEvent.Interaction := by
  rw [nextEventType_eq s systemEvents e he]
  cases hg : s.nextGlobEvent with
  | none =>
    cases hx : min_element System.lt systemEvents with
    | none => rfl
    | some x => simp only [if_pos (hex x hx), ite_self]
  | some g =>
    cases hx : min_element System.lt systemEvents with
    | none => simp only [if_pos (heg g hg), ite_self]
    | some x => simp only [if_pos (heg g hg), if_pos (hex x hx), ite_self]

/-- The tie-break the code implements: when the minimal event time `t` is finite
and attained, `nextEventType` returns Global if a global event attains it,
otherwise System if a system event attains it, otherwise Interaction. -/
theorem nextEventType_codeTieBreak (s : CSFastSingle) (systemEvents : List System) (t : Time)
    (hne : s.intEventQueue ≠ []) (hfin : t ≠ ⊤) (hmin : NoEarlierEvent s systemEvents t)
    (hatt : (∃ e ∈ s.intEventQueue, e.dt = t) ∨ (∃ g ∈ s.globEventQueue, g.dt = t) ∨
      (∃ x ∈ systemEvents, x.dt = t)) :
    s.nextEventType systemEvents = some (codeTieBreak s systemEvents t) := by
  obtain ⟨e, he⟩ := min_element_isSome IntEvent.lt s.intEventQueue hne
  have he' : s.nextIntEvent = some e := he
  obtain ⟨hem, hemin⟩ := nextIntEvent_spec s e he'
  obtain ⟨hI, hG, hX⟩ := hmin
  have hte : t ≤ e.dt := hI e hem
  have htop : t < ⊤ := lt_top_iff_ne_top.mpr hfin
  unfold codeTieBreak
  by_cases cg : ∃ g ∈ s.globEventQueue, g.dt = t
  · rw [if_pos cg]
    obtain ⟨g1, hg1, hg1t⟩ := cg
    obtain ⟨g, hg⟩ := min_element_isSome CGlobEvent.lt s.globEventQueue (List.ne_nil_of_mem hg1)
    obtain ⟨hgm, hgmin⟩ := nextGlobEvent_spec s g hg
    have hgt : g.dt = t := le_antisymm (hg1t ▸ hgmin g1 hg1) (hG g hgm)
    refine nextEventType_global s systemEvents e g he' hg (hgt ▸ htop) (hgt ▸ hte) ?_
    intro x hx
    rw [hgt]
    exact hX x (nextSystem_spec systemEvents x hx).1
  · rw [if_neg cg]
    have hgl : ∀ g, s.nextGlobEvent = some g → t < g.dt := by
      intro g hg
      have hgm := (nextGlobEvent_spec s g hg).1
      exact lt_of_le_of_ne (hG g hgm) (fun h => cg ⟨g, hgm, h.symm⟩)
    by_cases cx : ∃ x ∈ systemEvents, x.dt = t
    · rw [if_pos cx]
      obtain ⟨x1, hx1, hx1t⟩ := cx
      obtain ⟨x, hx⟩ := min_element_isSome System.lt systemEvents (List.ne_nil_of_mem hx1)
      obtain ⟨hxm, hxmin⟩ := nextSystem_spec systemEvents x hx
      have hxt : x.dt = t := le_antisymm (hx1t ▸ hxmin x1 hx1) (hX x hxm)
      refine nextEventType_system s systemEvents e x he' hx (hxt ▸ htop) (hxt ▸ hte) ?_
      intro g hg
      rw [hxt]
      exact hgl g hg
    · rw [if_neg cx]
      have hxl : ∀ x, min_element System.lt systemEvents = some x → t < x.dt := by
        intro x hx
        have hxm := (nextSystem_spec systemEvents x hx).1
        exact lt_of_le_of_ne (hX x hxm) (fun h => cx ⟨x, hxm, h.symm⟩)
      have het : e.dt = t := by
        rcases hatt with ⟨e1, he1, he1t⟩ | h | h
        · exact le_antisymm (he1t ▸ hemin e1 he1) hte
        · exact absurd h cg
        · exact absurd h cx
      exact nextEventType_interaction s systemEvents e he'
        (fun g hg => het ▸ hgl g hg) (fun x hx => het ▸ hxl x hx)

/-- C3 (as stated, refuted): in `tieState` all three sources have their earliest
event at the finite minimal time 1; the priority System > Interaction > Global
asks for System, and `nextEventType` returns Global. -/
theorem C3_tie_break_counterexample :
    tieState.intEventQueue ≠ [] ∧ NoEarlierEvent tieState tieSystems 1 ∧
    SharedByTwoSources tieState tieSystems 1 ∧
    specTieBreak tieState tieSystems 1 = ENextEvent.System ∧
    tieState.nextEventType tieSystems = some ENextEvent.Global ∧
    tieState.nextEventType tieSystems ≠ some (specTieBreak tieState tieSystems 1) := by
  decide

/-- C3 (amended): whenever two or more sources share the same minimal finite
event time `t`, `CSFastSingle::nextEventType` resolves the tie by the priority
Global > System > Interaction: it returns Global if a global event attains the
minimum, otherwise System if a system event attains it, otherwise Interaction. -/
theorem C3_tie_break_global_system_interaction (s : CSFastSingle)
    (systemEvents : List System) (t : Time)
    (hne : s.intEventQueue ≠ []) (hfin : t ≠ ⊤) (hmin : NoEarlierEvent s systemEvents t)
    (hshared : SharedByTwoSources s systemEvents t) :
    s.nextEventType systemEvents = some (codeTieBreak s systemEvents t) := by
  apply nextEventType_codeTieBreak s systemEvents t hne hfin hmin
  rcases hshared with ⟨h, _⟩ | ⟨h, _⟩ | ⟨h, _⟩
  · exact Or.inl h
  · exact Or.inl h
  · exact Or.inr (Or.inl h)

/-- The amended tie-break at `tieState`: the result is Global. -/
theorem C3_tie_break_global_system_interaction_witness :
    tieState.intEventQueue ≠ [] ∧ (1 : Time) ≠ ⊤ ∧ NoEarlierEvent tieState tieSystems 1 ∧
    SharedByTwoSources tieState tieSystems 1 ∧
    tieState.nextEventType tieSystems = some (codeTieBreak tieState tieSystems 1) :=
  ⟨by decide, by decide, by decide, by decide,
    C3_tie_break_global_system_interaction tieState tieSystems 1 (by decide) (by decide)
      (by decide) (by decide)⟩

/-! ### `CSFastSingle::rebuildCollision` and `CSFastSingle::update` -/

theorem rebuildCollision_fold (E : Nat → Nat → IntEvent) (i : Nat) (L : List Nat)
    (hL : ∀ j ∈ L, (E i j).particle1 = i) (c : IntEvent) (hc : c.particle1 = i) :
    let r := L.foldl (fun coll iPtr =>
      let tmpColl := E coll.particle1 iPtr
      if coll.gt tmpColl then tmpColl else coll) c
    r.particle1 = i ∧ r.dt ≤ c.dt ∧ (∀ j ∈ L, r.dt ≤ (E i j).dt) ∧
      (r = c ∨ ∃ j ∈ L, r = E i j) := by
  induction L generalizing c with
  | nil => simp [hc]
  | cons a rest ih =>
    have hrest : ∀ j ∈ rest, (E i j).particle1 = i := fun j hj => hL j (List.mem_cons_of_mem _ hj)
    simp only [List.foldl_cons, hc]
    by_cases h : c.dt > (E i a).dt
    · have hgt : c.gt (E i a) = true := by simp [IntEvent.gt, h]
      simp only [hgt, if_true]
      obtain ⟨h1, h2, h3, h4⟩ := ih hrest (E i a) (hL a (List.mem_cons_self _ _))
      refine ⟨h1, le_trans h2 (le_of_lt h), ?_, ?_⟩
      · intro j hj
        rcases List.mem_cons.mp hj with rfl | hj
        · exact h2
        · exact h3 j hj
      · rcases h4 with h4 | ⟨j, hj, h4⟩
        · exact Or.inr ⟨a, List.mem_cons_self _ _, h4⟩
        · exact Or.inr ⟨j, List.mem_cons_of_mem _ hj, h4⟩
    · have hgt : c.gt (E i a) = false := by simp [IntEvent.gt, h]
      simp only [hgt, Bool.false_eq_true, if_false]
      obtain ⟨h1, h2, h3, h4⟩ := ih hrest c hc
      refine ⟨h1, h2, ?_, ?_⟩
      · intro j hj
        rcases List.mem_cons.mp hj with rfl | hj
        · exact le_trans h2 (not_lt.mp h)
        · exact h3 j hj
      · rcases h4 with h4 | ⟨j, hj, h4⟩
        · exact Or.inl h4
        · exact Or.inr ⟨j, List.mem_cons_of_mem _ hj, h4⟩

/-- After `rebuildCollision` the event of particle `i` holds the minimum of the
predictions with the later particles. -/
theorem rebuildCollision_holdsMinimum (sim : SchedulerSim)
    (hwf : NamesItsParticles sim.lN sim.getEvent) (i : Nat) (hi : i < sim.lN)
    (c : IntEvent) (hc : c.particle1 = i) :
    EntryHoldsMinimum sim.lN sim.getEvent i (CSFastSingle.rebuildCollision sim c) := by
  have hmem : ∀ j, j ∈ List.range' (i + 1) (sim.lN - (i + 1)) ↔ (j < sim.lN ∧ i < j) := by
    intro j
    rw [List.mem_range'_1]
    omega
  have hL : ∀ j ∈ List.range' (i + 1) (sim.lN - (i + 1)), (sim.getEvent i j).particle1 = i := by
    intro j hj
    obtain ⟨h1, h2⟩ := (hmem j).mp hj
    exact (hwf i hi j h1 h2).1
  have hci : c.invalidate.particle1 = i := by simp [IntEvent.invalidate, hc]
  obtain ⟨h1, h2, h3, h4⟩ := rebuildCollision_fold sim.getEvent i _ hL c.invalidate hci
  unfold CSFastSingle.rebuildCollision
  simp only [hc]
  refine ⟨h1, ?_, ?_⟩
  · intro j hj hij
    exact h3 j ((hmem j).mpr ⟨hj, hij⟩)
  · rcases h4 with h4 | ⟨j, hj, h4⟩
    · left
      rw [h4]
      rfl
    · right
      obtain ⟨hj1, hj2⟩ := (hmem j).mp hj
      refine ⟨j, hj1, hj2, ?_, ?_⟩
      · rw [h4]; exact (hwf i hi j hj1 hj2).2
      · rw [h4]

theorem updateStep_length (sim : SchedulerSim) (part : Nat) (q : List IntEvent) (id : Nat) :
    (CSFastSingle.updateStep sim part q id).length = q.length := by
  unfold CSFastSingle.updateStep
  cases q[id]? with
  | none => rfl
  | some ev =>
    simp only
    split_ifs <;> simp

theorem updateStep_getElem? (sim : SchedulerSim) (part : Nat) (q : List IntEvent)
    (id k : Nat) :
    (CSFastSingle.updateStep sim part q id)[k]? =
      if k = id then (q[id]?).map (CSFastSingle.updateEntry sim part id) else q[k]? := by
  unfold CSFastSingle.updateStep CSFastSingle.updateEntry
  cases hq : q[id]? with
  | none =>
    by_cases hk : k = id
    · subst hk; simp [hq]
    · simp [hk]
  | some ev =>
    have hlt : id < q.length := by
      obtain ⟨h, _⟩ := List.getElem?_eq_some.mp hq
      exact h
    by_cases hk : k = id
    · subst hk
      simp only [if_true, Option.map_some']
      split_ifs <;> simp [List.getElem?_set, hlt, hq]
    · have hk' : ¬ id = k := fun h => hk h.symm
      simp only [hk, if_false]
      split_ifs <;> simp [List.getElem?_set, hk']

theorem updateLoop_length (sim : SchedulerSim) (part : Nat) (q : List IntEvent) (n : Nat) :
    ((List.range n).foldl (CSFastSingle.updateStep sim part) q).length = q.length := by
  induction n with
  | zero => simp
  | succ n ih =>
    rw [List.range_succ, List.foldl_append]
    simp only [List.foldl_cons, List.foldl_nil]
    rw [updateStep_length, ih]

theorem updateLoop_getElem? (sim : SchedulerSim) (part : Nat) (q : List IntEvent) (n k : Nat) :
    ((List.range n).foldl (CSFastSingle.updateStep sim part) q)[k]? =
      if k < n then (q[k]?).map (CSFastSingle.updateEntry sim part k) else q[k]? := by
  induction n with
  | zero => simp
  | succ n ih =>
    rw [List.range_succ, List.foldl_append]
    simp only [List.foldl_cons, List.foldl_nil]
    rw [updateStep_getElem?]
    by_cases hk : k = n
    · subst hk
      simp [ih]
    · simp only [hk, if_false, ih]
      by_cases hlt : k < n
      · simp [hlt, Nat.lt_succ_of_lt hlt]
      · have : ¬ k < n + 1 := by omega
        simp [hlt, this]

theorem update_length (sim : SchedulerSim) (s : CSFastSingle) (part : Nat) :
    (CSFastSingle.update sim s part).intEventQueue.length = s.intEventQueue.length := by
  unfold CSFastSingle.update
  simp only
  cases ((List.range part).foldl (CSFastSingle.updateStep sim part) s.intEventQueue)[part]? with
  | none => simp [updateLoop_length]
  | some ev => simp [updateLoop_length]

/-- The entries of the interaction queue after `update(part)`: the entry of
`part` is rebuilt, the entries before it go through the loop body, the entries
after it are untouched. -/
theorem update_getElem? (sim : SchedulerSim) (s : CSFastSingle) (part k : Nat) :
    (CSFastSingle.update sim s part).intEventQueue[k]? =
      if k = part then (s.intEventQueue[k]?).map (CSFastSingle.rebuildCollision sim)
      else if k < part then (s.intEventQueue[k]?).map (CSFastSingle.updateEntry sim part k)
      else s.intEventQueue[k]? := by
  have hpart : ((List.range part).foldl (CSFastSingle.updateStep sim part)
      s.intEventQueue)[part]? = s.intEventQueue[part]? := by
    rw [updateLoop_getElem?]; simp
  unfold CSFastSingle.update
  simp only
  rw [hpart]
  cases hq : s.intEventQueue[part]? with
  | none =>
    simp only
    rw [updateLoop_getElem?]
    by_cases hk : k = part
    · subst hk; simp [hq]
    · simp [hk]
  | some ev =>
    have hlen : part < ((List.range part).foldl (CSFastSingle.updateStep sim part)
        s.intEventQueue).length := by
      rw [updateLoop_length]
      exact (List.getElem?_eq_some.mp hq).1
    simp only
    rw [List.getElem?_set, updateLoop_getElem?]
    by_cases hk : k = part
    · subst hk; simp [hq, hlen]
    · have hk' : ¬ part = k := fun h => hk h.symm
      simp [hk, hk']

theorem updateEntry_holdsMinimum (sim : SchedulerSim) (part : Nat) (Eold : Nat → Nat → IntEvent)
    (hwf : NamesItsParticles sim.lN sim.getEvent) (hpart : part < sim.lN)
    (hagree : AgreeAwayFrom sim.lN part Eold sim.getEvent)
    (i : Nat) (hi : i < part) (ev : IntEvent) (hev : EntryHoldsMinimum sim.lN Eold i ev) :
    EntryHoldsMinimum sim.lN sim.getEvent i (CSFastSingle.updateEntry sim part i ev) := by
  have hiN : i < sim.lN := lt_trans hi hpart
  have hip : i ≠ part := Nat.ne_of_lt hi
  obtain ⟨h1, h2, h3⟩ := hev
  unfold CSFastSingle.updateEntry
  by_cases hp2 : ev.particle2 = some part
  · rw [if_pos hp2]
    exact rebuildCollision_holdsMinimum sim hwf i hiN ev h1
  · rw [if_neg hp2]
    by_cases hlt : (sim.getEvent i part).dt < ev.dt
    · have hb : (sim.getEvent i part).lt ev = true := by simp [IntEvent.lt, hlt]
      rw [if_pos hb]
      refine ⟨(hwf i hiN part hpart hi).1, ?_, ?_⟩
      · intro j hj hij
        by_cases hjp : j = part
        · rw [hjp]
        · rw [hagree i hiN j hj ⟨hij, hip, hjp⟩]
          exact le_trans (le_of_lt hlt) (h2 j hj hij)
      · exact Or.inr ⟨part, hpart, hi, (hwf i hiN part hpart hi).2, rfl⟩
    · have hb : ¬ ((sim.getEvent i part).lt ev = true) := by simp [IntEvent.lt, hlt]
      rw [if_neg hb]
      refine ⟨h1, ?_, ?_⟩
      · intro j hj hij
        by_cases hjp : j = part
        · rw [hjp]; exact not_lt.mp hlt
        · rw [hagree i hiN j hj ⟨hij, hip, hjp⟩]
          exact h2 j hj hij
      · rcases h3 with h3 | ⟨j, hj, hij, hj2, hjdt⟩
        · exact Or.inl h3
        · have hjp : j ≠ part := by
            intro h
            rw [h] at hj2
            exact hp2 hj2
          exact Or.inr ⟨j, hj, hij, hj2, by rw [hagree i hiN j hj ⟨hij, hip, hjp⟩]; exact hjdt⟩

theorem laterEntry_holdsMinimum (N part : Nat) (Eold Enew : Nat → Nat → IntEvent)
    (hagree : AgreeAwayFrom N part Eold Enew)
    (i : Nat) (hiN : i < N) (hi : part < i) (ev : IntEvent)
    (hev : EntryHoldsMinimum N Eold i ev) :
    EntryHoldsMinimum N Enew i ev := by
  have hip : i ≠ part := Nat.ne_of_gt hi
  obtain ⟨h1, h2, h3⟩ := hev
  refine ⟨h1, ?_, ?_⟩
  · intro j hj hij
    have hjp : j ≠ part := Nat.ne_of_gt (lt_trans hi hij)
    rw [hagree i hiN j hj ⟨hij, hip, hjp⟩]
    exact h2 j hj hij
  · rcases h3 with h3 | ⟨j, hj, hij, hj2, hjdt⟩
    · exact Or.inl h3
    · have hjp : j ≠ part := Nat.ne_of_gt (lt_trans hi hij)
      exact Or.inr ⟨j, hj, hij, hj2, by rw [hagree i hiN j hj ⟨hij, hip, hjp⟩]; exact hjdt⟩

/-- C4: let the interaction queue hold, for every particle `i`, the minimum of
the old predicted times `Eold i j` over the later particles `j` (with
`particle2` attaining a finite minimum), and let the predictions after the
change of particle `part`, `sim.getEvent`, have the same times as `Eold` on the
pairs that do not contain `part`.  Then after `CSFastSingle::update(part)` every
queue entry `i` holds the minimum of the new predicted times over all `j > i`,
and the head of the queue (`nextIntEvent`) is not later than the predicted event
of any pair. -/
theorem C4_update_keeps_queue_minima (sim : SchedulerSim) (s : CSFastSingle) (part : Nat)
    (Eold : Nat → Nat → IntEvent)
    (hwf : NamesItsParticles sim.lN sim.getEvent) (hpart : part < sim.lN)
    (hinv : QueueHoldsMinima sim.lN Eold s.intEventQueue)
    (hagree : AgreeAwayFrom sim.lN part Eold sim.getEvent) :
    QueueHoldsMinima sim.lN sim.getEvent (CSFastSingle.update sim s part).intEventQueue ∧
    ∃ head, (CSFastSingle.update sim s part).nextIntEvent = some head ∧
      ∀ i, i < sim.lN → ∀ j, j < sim.lN → i < j → head.dt ≤ (sim.getEvent i j).dt := by
  obtain ⟨hlen, hent⟩ := hinv
  have hQ : QueueHoldsMinima sim.lN sim.getEvent
      (CSFastSingle.update sim s part).intEventQueue := by
    refine ⟨by rw [update_length, hlen], ?_⟩
    intro i hi
    obtain ⟨ev, hq, hev⟩ := hent i hi
    rw [update_getElem?, hq]
    by_cases h1 : i = part
    · rw [if_pos h1]
      exact ⟨_, rfl, rebuildCollision_holdsMinimum sim hwf i hi ev hev.1⟩
    · rw [if_neg h1]
      by_cases h2 : i < part
      · rw [if_pos h2]
        exact ⟨_, rfl, updateEntry_holdsMinimum sim part Eold hwf hpart hagree i h2 ev hev⟩
      · rw [if_neg h2]
        exact ⟨ev, rfl, laterEntry_holdsMinimum sim.lN part Eold sim.getEvent hagree i hi
          (by omega) ev hev⟩
  refine ⟨hQ, ?_⟩
  have hne : (CSFastSingle.update sim s part).intEventQueue ≠ [] := by
    intro h
    have := hQ.1
    rw [h] at this
    simp at this
    omega
  obtain ⟨head, hhead⟩ := min_element_isSome IntEvent.lt _ hne
  refine ⟨head, hhead, ?_⟩
  intro i hi j hj hij
  obtain ⟨ev, hq, hev⟩ := hQ.2 i hi
  have hmem : ev ∈ (CSFastSingle.update sim s part).intEventQueue :=
    List.getElem?_mem hq
  exact le_trans ((nextIntEvent_spec _ head hhead).2 ev hmem) (hev.2.1 j hj hij)

/-- C4 at three particles: the pair (0,1) moves from time 2 to time 7 and the
pair (1,2) from time 3 to time 4 when particle 1 changes. -/
theorem C4_update_keeps_queue_minima_witness :
    NamesItsParticles exampleSim.lN exampleSim.getEvent ∧ 1 < exampleSim.lN ∧
    QueueHoldsMinima exampleSim.lN exampleOld exampleScheduler.intEventQueue ∧
    AgreeAwayFrom exampleSim.lN 1 exampleOld exampleSim.getEvent ∧
    QueueHoldsMinima exampleSim.lN exampleSim.getEvent
      (CSFastSingle.update exampleSim exampleScheduler 1).intEventQueue ∧
    ∃ head, (CSFastSingle.update exampleSim exampleScheduler 1).nextIntEvent = some head ∧
      ∀ i, i < exampleSim.lN → ∀ j, j < exampleSim.lN → i < j →
        head.dt ≤ (exampleSim.getEvent i j).dt :=
  ⟨by decide, by decide, by decide, by decide,
    C4_update_keeps_queue_minima exampleSim exampleScheduler 1 exampleOld
      (by decide) (by decide) (by decide) (by decide)⟩

/-! ### Capture maps -/

theorem cMapKey_comm (debug : Bool) (a b : Nat) : cMapKey debug a b = cMapKey debug b a := by
  unfold cMapKey
  by_cases h : a = b
  · subst h; rfl
  · have h' : ¬ b = a := fun e => h e.symm
    simp [h, h', min_comm a b, max_comm a b]

theorem cMapKey_ok (debug : Bool) (a b : Nat) (h : debug = false ∨ a ≠ b) :
    cMapKey debug a b = .ok (min a b, max a b) := by
  unfold cMapKey
  rcases h with h | h
  · simp [h]
  · simp [h]

theorem cMapKey_eq_ok (debug : Bool) (a b : Nat) (key : Nat × Nat)
    (h : cMapKey debug a b = .ok key) : key = (min a b, max a b) := by
  unfold cMapKey at h
  split_ifs at h
  injection h with h
  exact h.symm

/-- C5: `cMapKey(a,b)` equals `cMapKey(b,a)`; the key it builds is
`(min(a,b), max(a,b))` (it is built for all `a`, `b` in a release build, and for
all `a ≠ b` under `DYNAMO_DEBUG`); hence for every state of the capture map
`isCaptured(a,b) = isCaptured(b,a)`, for `ISingleCapture` and for
`IMultiCapture`. -/
theorem C5_cMapKey_symmetric (debug : Bool) (a b : Nat) :
    cMapKey debug a b = cMapKey debug b a ∧
    (∀ key, cMapKey debug a b = .ok key ↔
      ((debug = false ∨ a ≠ b) ∧ key = (min a b, max a b))) ∧
    cMapKey false a b = .ok (min a b, max a b) ∧
    (∀ s : ISingleCapture, s.isCaptured debug a b = s.isCaptured debug b a) ∧
    (∀ m : IMultiCapture, m.isCaptured debug a b = m.isCaptured debug b a) := by
  refine ⟨cMapKey_comm debug a b, ?_, cMapKey_ok false a b (Or.inl rfl), ?_, ?_⟩
  · intro key
    constructor
    · intro h
      refine ⟨?_, cMapKey_eq_ok debug a b key h⟩
      by_contra hc
      push_neg at hc
      obtain ⟨hd, hab⟩ := hc
      have hd' : debug = true := by simpa using hd
      simp [cMapKey, hd', hab] at h
    · rintro ⟨h, rfl⟩
      exact cMapKey_ok debug a b h
  · intro s
    unfold ISingleCapture.isCaptured
    rw [cMapKey_comm debug a b]
  · intro m
    unfold IMultiCapture.isCaptured
    rw [cMapKey_comm debug a b]

theorem isCaptured_eq_ok (debug : Bool) (s : ISingleCapture) (a b : Nat)
    (h : debug = false ∨ a ≠ b) :
    s.isCaptured debug a b = .ok (decide ((min a b, max a b) ∈ s.captureMap)) := by
  unfold ISingleCapture.isCaptured
  rw [cMapKey_ok debug a b h]

/-- C6: for an `ISingleCapture` map and two distinct particles whose pair is not
in the map, `addToCaptureMap(p1,p2)` succeeds; afterwards the pair is captured
when queried in either order and the capture count is one larger; a following
`removeFromCaptureMap` with the pair in either argument order gives back exactly
the original object; and every other pair has the same membership before and
after each of the two operations. -/
theorem C6_add_then_remove (debug : Bool) (self : ISingleCapture) (p1 p2 : Particle)
    (hne : p1.ID ≠ p2.ID) (hnot : self.isCaptured debug p1.ID p2.ID = .ok false) :
    ∃ s1, self.addToCaptureMap debug p1 p2 = .ok s1 ∧
      s1.isCaptured debug p1.ID p2.ID = .ok true ∧
      s1.isCaptured debug p2.ID p1.ID = .ok true ∧
      s1.getTotalCaptureCount = self.getTotalCaptureCount + 1 ∧
      s1.removeFromCaptureMap debug p1 p2 = .ok self ∧
      s1.removeFromCaptureMap debug p2 p1 = .ok self ∧
      (∀ a b, (min a b, max a b) ≠ (min p1.ID p2.ID, max p1.ID p2.ID) →
        s1.isCaptured debug a b = self.isCaptured debug a b) := by
  have hkey := cMapKey_ok debug p1.ID p2.ID (Or.inr hne)
  have hkey' := cMapKey_ok debug p2.ID p1.ID (Or.inr (Ne.symm hne))
  rw [min_comm, max_comm] at hkey'
  have hmem : (min p1.ID p2.ID, max p1.ID p2.ID) ∉ self.captureMap := by
    rw [isCaptured_eq_ok debug self _ _ (Or.inr hne)] at hnot
    injection hnot with hnot
    simpa using hnot
  refine ⟨{ self with captureMap := insert (min p1.ID p2.ID, max p1.ID p2.ID) self.captureMap },
    ?_, ?_, ?_, ?_, ?_, ?_, ?_⟩
  · unfold ISingleCapture.addToCaptureMap
    rw [hkey]
    simp [hmem]
  · rw [isCaptured_eq_ok debug _ _ _ (Or.inr hne)]
    simp
  · rw [isCaptured_eq_ok debug _ _ _ (Or.inr (Ne.symm hne)), min_comm, max_comm]
    simp
  · unfold ISingleCapture.getTotalCaptureCount
    exact Finset.card_insert_of_not_mem hmem
  · unfold ISingleCapture.removeFromCaptureMap
    rw [hkey]
    simp [Finset.erase_insert hmem]
  · unfold ISingleCapture.removeFromCaptureMap
    rw [hkey']
    simp [Finset.erase_insert hmem]
  · intro a b hab
    unfold ISingleCapture.isCaptured
    cases hk : cMapKey debug a b with
    | error msg => rfl
    | ok key =>
      have := cMapKey_eq_ok debug a b key hk
      subst this
      simp [Finset.mem_insert, hab]

/-- C6 on the empty map of a fresh interaction, particles 0 and 1, debug build. -/
theorem C6_add_then_remove_witness :
    (particleAt 0).ID ≠ (particleAt 1).ID ∧
    (ISingleCapture.new 7 (fun _ _ => true)).isCaptured true (particleAt 0).ID
      (particleAt 1).ID = .ok false ∧
    ∃ s1, (ISingleCapture.new 7 (fun _ _ => true)).addToCaptureMap true
        (particleAt 0) (particleAt 1) = .ok s1 ∧
      s1.isCaptured true (particleAt 0).ID (particleAt 1).ID = .ok true ∧
      s1.isCaptured true (particleAt 1).ID (particleAt 0).ID = .ok true ∧
      s1.getTotalCaptureCount = (ISingleCapture.new 7 (fun _ _ => true)).getTotalCaptureCount + 1 ∧
      s1.removeFromCaptureMap true (particleAt 0) (particleAt 1) =
        .ok (ISingleCapture.new 7 (fun _ _ => true)) ∧
      s1.removeFromCaptureMap true (particleAt 1) (particleAt 0) =
        .ok (ISingleCapture.new 7 (fun _ _ => true)) ∧
      (∀ a b, (min a b, max a b) ≠ (min (particleAt 0).ID (particleAt 1).ID,
          max (particleAt 0).ID (particleAt 1).ID) →
        s1.isCaptured true a b = (ISingleCapture.new 7 (fun _ _ => true)).isCaptured true a b) :=
  ⟨by decide, rfl,
    C6_add_then_remove true (ISingleCapture.new 7 (fun _ _ => true)) (particleAt 0)
      (particleAt 1) (by decide) rfl⟩

/-! ### `ICapture::initCaptureMap` -/

theorem storeIndexed_getElem? (P : List Particle) (h : StoreIndexedByID P) (i : Nat)
    (p : Particle) (hp : P[i]? = some p) : p.ID = i := by
  unfold StoreIndexedByID at h
  have h1 : (P.map Particle.ID)[i]? = some p.ID := by
    rw [List.getElem?_map, hp]; rfl
  rw [h] at h1
  obtain ⟨hlt, h2⟩ := List.getElem?_eq_some.mp h1
  rw [List.getElem_range] at h2
  exact h2.symm

theorem storeIndexed_mem (P : List Particle) (h : StoreIndexedByID P) (p : Particle)
    (hp : p ∈ P) : P[p.ID]? = some p := by
  obtain ⟨i, hi⟩ := List.mem_iff_getElem?.mp hp
  rw [storeIndexed_getElem? P h i p hi]
  exact hi

theorem storeIndexed_pairwise (P : List Particle) (h : StoreIndexedByID P) :
    P.Pairwise (fun p q => p.ID < q.ID) := by
  unfold StoreIndexedByID at h
  have h1 : (P.map Particle.ID).Pairwise (· < ·) := by
    rw [h]; exact List.pairwise_lt_range _
  exact (List.pairwise_map.mp h1)

theorem storeIndexed_inj (P : List Particle) (hstore : StoreIndexedByID P) (p q : Particle)
    (hp : p ∈ P) (hq : q ∈ P) (h : p.ID = q.ID) : p = q := by
  have h1 := storeIndexed_mem P hstore p hp
  have h2 := storeIndexed_mem P hstore q hq
  rw [h, h2] at h1
  injection h1 with h1
  exact h1.symm

theorem orderedPair_iff (P : List Particle) (hsorted : P.Pairwise (fun p q => p.ID < q.ID))
    (p1 p2 : Particle) : OrderedPair p1 p2 P ↔ p1 ∈ P ∧ p2 ∈ P ∧ p1.ID < p2.ID := by
  induction P with
  | nil => simp [OrderedPair]
  | cons x xs ih =>
    obtain ⟨hhead, hsorted'⟩ := List.pairwise_cons.mp hsorted
    simp only [OrderedPair, ih hsorted', List.mem_cons]
    constructor
    · rintro (⟨rfl, h2⟩ | ⟨h1, h2, h3⟩)
      · exact ⟨Or.inl rfl, Or.inr h2, hhead p2 h2⟩
      · exact ⟨Or.inr h1, Or.inr h2, h3⟩
    · rintro ⟨h1 | h1, h2 | h2, h3⟩
      · subst h1; subst h2; exact absurd h3 (lt_irrefl _)
      · subst h1; exact Or.inl ⟨rfl, h2⟩
      · subst h2
        have := hhead p1 h1
        omega
      · exact Or.inr ⟨h1, h2, h3⟩

theorem getInteraction_symm (ints : List Interaction)
    (hsym : ∀ x ∈ ints, ∀ a b, x.isInteraction a b = x.isInteraction b a) (p1 p2 : Particle) :
    getInteraction ints p1 p2 = getInteraction ints p2 p1 := by
  induction ints with
  | nil => rfl
  | cons x rest ih =>
    unfold getInteraction
    rw [hsym x (List.mem_cons_self _ _) p1 p2,
      ih (fun y hy => hsym y (List.mem_cons_of_mem _ hy))]

/-- `ISingleCapture::testAddToCaptureMap` meets `CaptureSpec`. -/
theorem single_captureSpec (debug : Bool) (P : List Particle) :
    CaptureSpec P (fun (st : ISingleCapture) key => key ∈ st.captureMap)
      ISingleCapture.fields (fun f => f.2.1) (ISingleCapture.testAddToCaptureMap debug P) := by
  constructor
  · intro p1 p2 st st1 hp2 hlt h
    unfold ISingleCapture.testAddToCaptureMap at h
    rw [hp2] at h
    simp only at h
    simp only [ISingleCapture.fields]
    by_cases hct : st.captureTest p1 p2 = true
    · rw [if_pos hct] at h
      unfold ISingleCapture.addToCaptureMap at h
      rw [cMapKey_ok debug p1.ID p2.ID (Or.inr (Nat.ne_of_lt hlt))] at h
      simp only at h
      split_ifs at h
      injection h with h
      subst h
      refine ⟨rfl, ?_⟩
      intro key
      simp only [Finset.mem_insert, hct, true_and]
      rw [min_eq_left (le_of_lt hlt), max_eq_right (le_of_lt hlt)]
      tauto
    · rw [if_neg hct] at h
      injection h with h
      subst h
      refine ⟨rfl, ?_⟩
      intro key
      simp [hct]
  · intro p1 p2 st hp2 hlt hfresh
    unfold ISingleCapture.testAddToCaptureMap
    rw [hp2]
    simp only
    by_cases hct : st.captureTest p1 p2 = true
    · rw [if_pos hct]
      unfold ISingleCapture.addToCaptureMap
      rw [cMapKey_ok debug p1.ID p2.ID (Or.inr (Nat.ne_of_lt hlt))]
      simp only
      rw [min_eq_left (le_of_lt hlt), max_eq_right (le_of_lt hlt)]
      simp [hfresh]
    · rw [if_neg hct]
      exact ⟨st, rfl⟩

/-- `IMultiCapture::testAddToCaptureMap` meets `CaptureSpec`. -/
theorem multi_captureSpec (debug : Bool) (P : List Particle) :
    CaptureSpec P (fun (st : IMultiCapture) key => key ∈ st.captureMap)
      IMultiCapture.fields (fun f p q => decide (f.2.1 p q ≠ 0))
      (IMultiCapture.testAddToCaptureMap debug P) := by
  constructor
  · intro p1 p2 st st1 hp2 hlt h
    unfold IMultiCapture.testAddToCaptureMap at h
    rw [hp2] at h
    simp only at h
    simp only [IMultiCapture.fields]
    by_cases hct : st.captureTest p1 p2 ≠ 0
    · rw [if_pos hct, cMapKey_ok debug p1.ID p2.ID (Or.inr (Nat.ne_of_lt hlt))] at h
      simp only at h
      injection h with h
      subst h
      refine ⟨rfl, ?_⟩
      intro key
      have hd : decide (st.captureTest p1 p2 ≠ 0) = true := decide_eq_true hct
      simp only [AList.mem_insert, hd, true_and]
      rw [min_eq_left (le_of_lt hlt), max_eq_right (le_of_lt hlt)]
      tauto
    · rw [if_neg hct] at h
      injection h with h
      subst h
      refine ⟨rfl, ?_⟩
      intro key
      simp [hct]
  · intro p1 p2 st hp2 hlt _
    unfold IMultiCapture.testAddToCaptureMap
    rw [hp2]
    simp only
    by_cases hct : st.captureTest p1 p2 ≠ 0
    · rw [if_pos hct, cMapKey_ok debug p1.ID p2.ID (Or.inr (Nat.ne_of_lt hlt))]
      exact ⟨_, rfl⟩
    · rw [if_neg hct]
      exact ⟨st, rfl⟩

theorem initInner_char {σ τ : Type} {P : List Particle} {mem : σ → Nat × Nat → Prop}
    {fields : σ → τ} {test : τ → Particle → Particle → Bool}
    {testAdd : Particle → Nat → σ → Except String σ}
    (spec : CaptureSpec P mem fields test testAdd)
    (ints : List Interaction) (A : Nat) (p1 : Particle) (rest : List Particle)
    (hP : ∀ p ∈ rest, P[p.ID]? = some p) (hlt : ∀ p ∈ rest, p1.ID < p.ID)
    (st st1 : σ) (h : ICapture.initInner testAdd ints A p1 rest st = .ok st1) :
    fields st1 = fields st ∧
    ∀ key, mem st1 key ↔
      mem st key ∨
        ∃ p2 ∈ rest, OwnedBy ints A p1 p2 ∧ test (fields st) p1 p2 = true ∧
          key = (p1.ID, p2.ID) := by
  induction rest generalizing st with
  | nil =>
    simp only [ICapture.initInner] at h
    injection h with h
    subst h
    simp
  | cons p2 rest ih =>
    have hP' : ∀ p ∈ rest, P[p.ID]? = some p := fun p hp => hP p (List.mem_cons_of_mem _ hp)
    have hlt' : ∀ p ∈ rest, p1.ID < p.ID := fun p hp => hlt p (List.mem_cons_of_mem _ hp)
    unfold ICapture.initInner at h
    cases hg : getInteraction ints p1 p2 with
    | error msg => rw [hg] at h; simp at h
    | ok ptr =>
      rw [hg] at h
      simp only at h
      by_cases hA : ptr.addr = A
      · rw [if_pos hA] at h
        cases ht : testAdd p1 p2.ID st with
        | error msg => rw [ht] at h; simp at h
        | ok st2 =>
          rw [ht] at h
          simp only at h
          obtain ⟨a1, a4⟩ := spec.char p1 p2 st st2
            (hP p2 (List.mem_cons_self _ _)) (hlt p2 (List.mem_cons_self _ _)) ht
          obtain ⟨b1, b4⟩ := ih hP' hlt' st2 h
          refine ⟨b1.trans a1, ?_⟩
          intro key
          rw [b4, a4, a1]
          constructor
          · rintro ((hk | ⟨hc, hk⟩) | ⟨q, hq, ho, hc, hk⟩)
            · exact Or.inl hk
            · exact Or.inr ⟨p2, List.mem_cons_self _ _, ⟨ptr, hg, hA⟩, hc, hk⟩
            · exact Or.inr ⟨q, List.mem_cons_of_mem _ hq, ho, hc, hk⟩
          · rintro (hk | ⟨q, hq, ho, hc, hk⟩)
            · exact Or.inl (Or.inl hk)
            · rcases List.mem_cons.mp hq with rfl | hq
              · exact Or.inl (Or.inr ⟨hc, hk⟩)
              · exact Or.inr ⟨q, hq, ho, hc, hk⟩
      · rw [if_neg hA] at h
        obtain ⟨b1, b4⟩ := ih hP' hlt' st h
        refine ⟨b1, ?_⟩
        intro key
        rw [b4]
        constructor
        · rintro (hk | ⟨q, hq, ho, hc, hk⟩)
          · exact Or.inl hk
          · exact Or.inr ⟨q, List.mem_cons_of_mem _ hq, ho, hc, hk⟩
        · rintro (hk | ⟨q, hq, ho, hc, hk⟩)
          · exact Or.inl hk
          · rcases List.mem_cons.mp hq with rfl | hq
            · obtain ⟨ptr', hg', hA'⟩ := ho
              rw [hg] at hg'
              injection hg' with hg'
              rw [hg'] at hA
              exact absurd hA' hA
            · exact Or.inr ⟨q, hq, ho, hc, hk⟩

theorem initInner_total {σ τ : Type} {P : List Particle} {mem : σ → Nat × Nat → Prop}
    {fields : σ → τ} {test : τ → Particle → Particle → Bool}
    {testAdd : Particle → Nat → σ → Except String σ}
    (spec : CaptureSpec P mem fields test testAdd)
    (ints : List Interaction) (A : Nat) (p1 : Particle) (rest : List Particle)
    (hP : ∀ p ∈ rest, P[p.ID]? = some p) (hlt : ∀ p ∈ rest, p1.ID < p.ID)
    (hsorted : rest.Pairwise (fun p q => p.ID < q.ID))
    (hdef : ∀ p ∈ rest, ∃ ptr, getInteraction ints p1 p = .ok ptr)
    (st : σ) (hfresh : ∀ p ∈ rest, ¬ mem st (p1.ID, p.ID)) :
    ∃ st1, ICapture.initInner testAdd ints A p1 rest st = .ok st1 := by
  induction rest generalizing st with
  | nil => exact ⟨st, rfl⟩
  | cons p2 rest ih =>
    have hP' : ∀ p ∈ rest, P[p.ID]? = some p := fun p hp => hP p (List.mem_cons_of_mem _ hp)
    have hlt' : ∀ p ∈ rest, p1.ID < p.ID := fun p hp => hlt p (List.mem_cons_of_mem _ hp)
    have hdef' : ∀ p ∈ rest, ∃ ptr, getInteraction ints p1 p = .ok ptr :=
      fun p hp => hdef p (List.mem_cons_of_mem _ hp)
    obtain ⟨hhead, hsorted'⟩ := List.pairwise_cons.mp hsorted
    obtain ⟨ptr, hg⟩ := hdef p2 (List.mem_cons_self _ _)
    unfold ICapture.initInner
    rw [hg]
    simp only
    by_cases hA : ptr.addr = A
    · rw [if_pos hA]
      obtain ⟨st2, ht⟩ := spec.total p1 p2 st (hP p2 (List.mem_cons_self _ _))
        (hlt p2 (List.mem_cons_self _ _)) (hfresh p2 (List.mem_cons_self _ _))
      rw [ht]
      simp only
      obtain ⟨_, a4⟩ := spec.char p1 p2 st st2
        (hP p2 (List.mem_cons_self _ _)) (hlt p2 (List.mem_cons_self _ _)) ht
      apply ih hP' hlt' hsorted' hdef' st2
      intro q hq hmem
      rcases (a4 _).mp hmem with hk | ⟨_, hk⟩
      · exact hfresh q (List.mem_cons_of_mem _ hq) hk
      · have := hhead q hq
        simp only [Prod.mk.injEq, true_and] at hk
        omega
    · rw [if_neg hA]
      exact ih hP' hlt' hsorted' hdef' st (fun q hq => hfresh q (List.mem_cons_of_mem _ hq))

theorem initOuter_char {σ τ : Type} {P : List Particle} {mem : σ → Nat × Nat → Prop}
    {fields : σ → τ} {test : τ → Particle → Particle → Bool}
    {testAdd : Particle → Nat → σ → Except String σ}
    (spec : CaptureSpec P mem fields test testAdd)
    (ints : List Interaction) (A : Nat) (L : List Particle)
    (hP : ∀ p ∈ L, P[p.ID]? = some p) (hsorted : L.Pairwise (fun p q => p.ID < q.ID))
    (st st1 : σ) (h : ICapture.initOuter testAdd ints A L st = .ok st1) :
    fields st1 = fields st ∧
    ∀ key, mem st1 key ↔
      mem st key ∨
        ∃ p1 p2, OrderedPair p1 p2 L ∧ OwnedBy ints A p1 p2 ∧ test (fields st) p1 p2 = true ∧
          key = (p1.ID, p2.ID) := by
  induction L generalizing st with
  | nil =>
    simp only [ICapture.initOuter] at h
    injection h with h
    subst h
    simp [OrderedPair]
  | cons p1 rest ih =>
    have hP' : ∀ p ∈ rest, P[p.ID]? = some p := fun p hp => hP p (List.mem_cons_of_mem _ hp)
    obtain ⟨hhead, hsorted'⟩ := List.pairwise_cons.mp hsorted
    unfold ICapture.initOuter at h
    cases hi : ICapture.initInner testAdd ints A p1 rest st with
    | error msg => rw [hi] at h; simp at h
    | ok st2 =>
      rw [hi] at h
      simp only at h
      obtain ⟨a1, a4⟩ := initInner_char spec ints A p1 rest hP' hhead st st2 hi
      obtain ⟨b1, b4⟩ := ih hP' hsorted' st2 h
      refine ⟨b1.trans a1, ?_⟩
      intro key
      rw [b4, a4, a1]
      simp only [OrderedPair]
      constructor
      · rintro ((hk | ⟨q, hq, ho, hc, hk⟩) | ⟨q1, q2, hq, ho, hc, hk⟩)
        · exact Or.inl hk
        · exact Or.inr ⟨p1, q, Or.inl ⟨rfl, hq⟩, ho, hc, hk⟩
        · exact Or.inr ⟨q1, q2, Or.inr hq, ho, hc, hk⟩
      · rintro (hk | ⟨q1, q2, (⟨rfl, hq⟩ | hq), ho, hc, hk⟩)
        · exact Or.inl (Or.inl hk)
        · exact Or.inl (Or.inr ⟨q2, hq, ho, hc, hk⟩)
        · exact Or.inr ⟨q1, q2, hq, ho, hc, hk⟩

theorem initOuter_total {σ τ : Type} {P : List Particle} {mem : σ → Nat × Nat → Prop}
    {fields : σ → τ} {test : τ → Particle → Particle → Bool}
    {testAdd : Particle → Nat → σ → Except String σ}
    (spec : CaptureSpec P mem fields test testAdd)
    (ints : List Interaction) (A : Nat) (L : List Particle)
    (hP : ∀ p ∈ L, P[p.ID]? = some p) (hsorted : L.Pairwise (fun p q => p.ID < q.ID))
    (hdef : ∀ p1 p2, OrderedPair p1 p2 L → ∃ ptr, getInteraction ints p1 p2 = .ok ptr)
    (st : σ) (hfresh : ∀ key, mem st key → ∀ p ∈ L, key.1 < p.ID) :
    ∃ st1, ICapture.initOuter testAdd ints A L st = .ok st1 := by
  induction L generalizing st with
  | nil => exact ⟨st, rfl⟩
  | cons p1 rest ih =>
    have hP' : ∀ p ∈ rest, P[p.ID]? = some p := fun p hp => hP p (List.mem_cons_of_mem _ hp)
    obtain ⟨hhead, hsorted'⟩ := List.pairwise_cons.mp hsorted
    have hfr : ∀ p ∈ rest, ¬ mem st (p1.ID, p.ID) := by
      intro p _ hmem
      have := hfresh _ hmem p1 (List.mem_cons_self _ _)
      simp at this
    obtain ⟨st2, hi⟩ := initInner_total spec ints A p1 rest hP' hhead hsorted'
      (fun p hp => hdef p1 p (Or.inl ⟨rfl, hp⟩)) st hfr
    obtain ⟨_, a4⟩ := initInner_char spec ints A p1 rest hP' hhead st st2 hi
    unfold ICapture.initOuter
    rw [hi]
    simp only
    apply ih hP' hsorted' (fun q1 q2 hq => hdef q1 q2 (Or.inr hq)) st2
    intro key hkey p hp
    rcases (a4 key).mp hkey with hk | ⟨q, _, _, _, hk⟩
    · exact hfresh key hk p (List.mem_cons_of_mem _ hp)
    · rw [hk]
      exact hhead p hp

/-- The map after a rebuilding `initCaptureMap`: exactly the keys of the pairs
owned by the interaction that the capture test captures. -/
theorem initCaptureMap_rebuilt {σ τ : Type} {P : List Particle} {mem : σ → Nat × Nat → Prop}
    {fields : σ → τ} {test : τ → Particle → Particle → Bool}
    {testAdd : Particle → Nat → σ → Except String σ}
    (spec : CaptureSpec P mem fields test testAdd)
    (noXmlLoad : σ → Bool) (clear : σ → σ)
    (hclear : ∀ st, fields (clear st) = fields st ∧ ∀ key, ¬ mem (clear st) key)
    (ints : List Interaction) (A : Nat) (hstore : StoreIndexedByID P)
    (st st1 : σ) (hno : noXmlLoad st = true)
    (h : ICapture.initCaptureMap noXmlLoad clear testAdd ints A P st = .ok st1) :
    fields st1 = fields st ∧
    ∀ key, mem st1 key ↔
      ∃ p1 ∈ P, ∃ p2 ∈ P, p1.ID < p2.ID ∧ OwnedBy ints A p1 p2 ∧
        test (fields st) p1 p2 = true ∧ key = (p1.ID, p2.ID) := by
  have hsorted := storeIndexed_pairwise P hstore
  unfold ICapture.initCaptureMap at h
  rw [if_pos hno] at h
  obtain ⟨a1, a4⟩ := initOuter_char spec ints A P (storeIndexed_mem P hstore) hsorted
    (clear st) st1 h
  refine ⟨a1.trans (hclear st).1, ?_⟩
  intro key
  rw [a4, (hclear st).1]
  constructor
  · rintro (hk | ⟨p1, p2, ho, hown, hc, hk⟩)
    · exact absurd hk ((hclear st).2 key)
    · obtain ⟨h1, h2, h3⟩ := (orderedPair_iff P hsorted p1 p2).mp ho
      exact ⟨p1, h1, p2, h2, h3, hown, hc, hk⟩
  · rintro ⟨p1, h1, p2, h2, h3, hown, hc, hk⟩
    exact Or.inr ⟨p1, p2, (orderedPair_iff P hsorted p1 p2).mpr ⟨h1, h2, h3⟩, hown, hc, hk⟩

/-- A rebuilding `initCaptureMap` returns when every pair of the store has an
interaction. -/
theorem initCaptureMap_total {σ τ : Type} {P : List Particle} {mem : σ → Nat × Nat → Prop}
    {fields : σ → τ} {test : τ → Particle → Particle → Bool}
    {testAdd : Particle → Nat → σ → Except String σ}
    (spec : CaptureSpec P mem fields test testAdd)
    (noXmlLoad : σ → Bool) (clear : σ → σ)
    (hclear : ∀ st, fields (clear st) = fields st ∧ ∀ key, ¬ mem (clear st) key)
    (ints : List Interaction) (A : Nat) (hstore : StoreIndexedByID P)
    (st : σ) (hno : noXmlLoad st = true)
    (hdef : ∀ p1 ∈ P, ∀ p2 ∈ P, p1.ID < p2.ID → isError (getInteraction ints p1 p2) = false) :
    ∃ st1, ICapture.initCaptureMap noXmlLoad clear testAdd ints A P st = .ok st1 := by
  have hsorted := storeIndexed_pairwise P hstore
  unfold ICapture.initCaptureMap
  rw [if_pos hno]
  apply initOuter_total spec ints A P (storeIndexed_mem P hstore) hsorted
  · intro p1 p2 ho
    obtain ⟨h1, h2, h3⟩ := (orderedPair_iff P hsorted p1 p2).mp ho
    have := hdef p1 h1 p2 h2 h3
    cases hg : getInteraction ints p1 p2 with
    | error msg => rw [hg] at this; simp [isError] at this
    | ok ptr => exact ⟨ptr, rfl⟩
  · intro key hkey
    exact absurd hkey ((hclear st).2 key)

theorem captureInSync_of_map (P : List Particle) (ints : List Interaction) (A : Nat)
    (test : Particle → Particle → Bool) (isCaptured : Nat → Nat → Except String Bool)
    (mem : Nat × Nat → Prop) (hstore : StoreIndexedByID P)
    (hcapT : ∀ a b, isCaptured a b = .ok true → mem (min a b, max a b))
    (hcapV : ∀ a b, a ≠ b → ∃ r, isCaptured a b = .ok r ∧ (r = true ↔ mem (min a b, max a b)))
    (hmap : ∀ key, mem key ↔
      ∃ p1 ∈ P, ∃ p2 ∈ P, p1.ID < p2.ID ∧ OwnedBy ints A p1 p2 ∧ test p1 p2 = true ∧
        key = (p1.ID, p2.ID)) :
    CaptureInSync P ints A test isCaptured := by
  have hkey : ∀ p1 ∈ P, ∀ p2 ∈ P, p1.ID < p2.ID → OwnedBy ints A p1 p2 →
      (mem (p1.ID, p2.ID) ↔ test p1 p2 = true) := by
    intro p1 h1 p2 h2 hlt hown
    rw [hmap]
    constructor
    · rintro ⟨q1, hq1, q2, hq2, _, _, hc, hk⟩
      simp only [Prod.mk.injEq] at hk
      rw [storeIndexed_inj P hstore p1 q1 h1 hq1 hk.1, storeIndexed_inj P hstore p2 q2 h2 hq2 hk.2]
      exact hc
    · intro hc
      exact ⟨p1, h1, p2, h2, hlt, hown, hc, rfl⟩
  have hsync : ∀ p1 ∈ P, ∀ p2 ∈ P, p1.ID < p2.ID → OwnedBy ints A p1 p2 →
      isCaptured p1.ID p2.ID = .ok (test p1 p2) ∧ isCaptured p2.ID p1.ID = .ok (test p1 p2) := by
    intro p1 h1 p2 h2 hlt hown
    have hk := hkey p1 h1 p2 h2 hlt hown
    obtain ⟨r, hr, hrm⟩ := hcapV p1.ID p2.ID (Nat.ne_of_lt hlt)
    obtain ⟨r', hr', hrm'⟩ := hcapV p2.ID p1.ID (Nat.ne_of_gt hlt)
    rw [min_eq_left (le_of_lt hlt), max_eq_right (le_of_lt hlt)] at hrm
    rw [min_eq_right (le_of_lt hlt), max_eq_left (le_of_lt hlt)] at hrm'
    have e1 : r = test p1 p2 := Bool.eq_iff_iff.mpr (hrm.trans hk)
    have e2 : r' = test p1 p2 := Bool.eq_iff_iff.mpr (hrm'.trans hk)
    rw [hr, hr', e1, e2]
    exact ⟨rfl, rfl⟩
  refine ⟨hsync, ?_, ?_⟩
  · intro a b hcap
    obtain ⟨p1, h1, p2, h2, hlt, hown, hc, hkk⟩ := (hmap _).mp (hcapT a b hcap)
    simp only [Prod.mk.injEq] at hkk
    exact ⟨p1, h1, p2, h2, hkk.1.symm, hkk.2.symm, hlt, hown, hc⟩
  · intro hsymI hsymC p1 h1 p2 h2 hne hown
    rcases Nat.lt_or_gt_of_ne hne with hlt | hgt
    · exact (hsync p1 h1 p2 h2 hlt hown).1
    · have hown' : OwnedBy ints A p2 p1 := by
        obtain ⟨ptr, hg, hA⟩ := hown
        exact ⟨ptr, by rw [getInteraction_symm ints hsymI p2 p1]; exact hg, hA⟩
      rw [hsymC p1 p2]
      exact (hsync p2 h2 p1 h1 hgt hown').2

theorem multi_isCaptured_eq_ok (debug : Bool) (s : IMultiCapture) (a b : Nat)
    (h : debug = false ∨ a ≠ b) :
    s.isCaptured debug a b = .ok (decide ((min a b, max a b) ∈ s.captureMap)) := by
  unfold IMultiCapture.isCaptured
  rw [cMapKey_ok debug a b h]

/-- C7: let the particle store be indexed by ID and let the map not be loaded
from XML (`noXmlLoad` set).  `initCaptureMap` returns whenever every pair of
particles has an interaction, and immediately after it the capture map is in
sync with the capture test (`CaptureInSync`): for every pair of distinct
particles whose authoritative interaction (`getInteraction`) is this capture
interaction, `isCaptured(p1,p2)` holds if and only if `captureTest(p1,p2)` holds
(for `IMultiCapture`: is not zero), and no pair owned by another interaction is
in the map. -/
theorem C7_initCaptureMap_in_sync (debug : Bool) (ints : List Interaction)
    (P : List Particle) (self : ISingleCapture) (multi : IMultiCapture)
    (hstore : StoreIndexedByID P) (hno : self.noXmlLoad = true)
    (hnoM : multi.noXmlLoad = true) :
    (((∀ p1 ∈ P, ∀ p2 ∈ P, p1.ID < p2.ID → isError (getInteraction ints p1 p2) = false) →
        ∃ st1, self.initCaptureMap debug ints P = .ok st1) ∧
      ∀ st1, self.initCaptureMap debug ints P = .ok st1 →
        CaptureInSync P ints self.addr self.captureTest (st1.isCaptured debug)) ∧
    (((∀ p1 ∈ P, ∀ p2 ∈ P, p1.ID < p2.ID → isError (getInteraction ints p1 p2) = false) →
        ∃ mt1, multi.initCaptureMap debug ints P = .ok mt1) ∧
      ∀ mt1, multi.initCaptureMap debug ints P = .ok mt1 →
        CaptureInSync P ints multi.addr (fun p q => decide (multi.captureTest p q ≠ 0))
          (mt1.isCaptured debug)) := by
  have hclearS : ∀ st : ISingleCapture, st.clear.fields = st.fields ∧
      ∀ key, ¬ key ∈ st.clear.captureMap := by
    intro st
    exact ⟨rfl, fun key => by simp [ISingleCapture.clear]⟩
  have hclearM : ∀ st : IMultiCapture, st.clear.fields = st.fields ∧
      ∀ key, ¬ key ∈ st.clear.captureMap := by
    intro st
    exact ⟨rfl, fun key => by simp [IMultiCapture.clear]⟩
  refine ⟨⟨?_, ?_⟩, ⟨?_, ?_⟩⟩
  · intro hdef
    exact initCaptureMap_total (single_captureSpec debug P) ISingleCapture.noXmlLoad
      ISingleCapture.clear hclearS ints self.addr hstore self hno hdef
  · intro st1 h
    obtain ⟨_, hmap⟩ := initCaptureMap_rebuilt (single_captureSpec debug P)
      ISingleCapture.noXmlLoad ISingleCapture.clear hclearS ints self.addr hstore self st1 hno h
    apply captureInSync_of_map P ints self.addr self.captureTest (st1.isCaptured debug)
      (fun key => key ∈ st1.captureMap) hstore
    · intro a b hcap
      unfold ISingleCapture.isCaptured at hcap
      cases hk : cMapKey debug a b with
      | error msg => rw [hk] at hcap; simp at hcap
      | ok key =>
        rw [hk] at hcap
        have hkey := cMapKey_eq_ok debug a b key hk
        simp only [Except.ok.injEq, decide_eq_true_eq] at hcap
        rw [← hkey]
        exact hcap
    · intro a b hab
      exact ⟨_, isCaptured_eq_ok debug st1 a b (Or.inr hab), by simp⟩
    · exact hmap
  · intro hdef
    exact initCaptureMap_total (multi_captureSpec debug P) IMultiCapture.noXmlLoad
      IMultiCapture.clear hclearM ints multi.addr hstore multi hnoM hdef
  · intro mt1 h
    obtain ⟨_, hmap⟩ := initCaptureMap_rebuilt (multi_captureSpec debug P)
      IMultiCapture.noXmlLoad IMultiCapture.clear hclearM ints multi.addr hstore multi mt1 hnoM h
    apply captureInSync_of_map P ints multi.addr (fun p q => decide (multi.captureTest p q ≠ 0))
      (mt1.isCaptured debug) (fun key => key ∈ mt1.captureMap) hstore
    · intro a b hcap
      unfold IMultiCapture.isCaptured at hcap
      cases hk : cMapKey debug a b with
      | error msg => rw [hk] at hcap; simp at hcap
      | ok key =>
        rw [hk] at hcap
        have hkey := cMapKey_eq_ok debug a b key hk
        simp only [Except.ok.injEq, decide_eq_true_eq] at hcap
        rw [← hkey]
        exact hcap
    · intro a b hab
      exact ⟨_, multi_isCaptured_eq_ok debug mt1 a b (Or.inr hab), by simp⟩
    · exact hmap

/-- C7 on three particles: the pair (0,1) is owned by the capture interaction
at address 11 and passes the capture test, the pairs with particle 2 belong to
another interaction; after `initCaptureMap` exactly the pair (0,1) is captured,
in the single-capture and in the multi-capture map. -/
theorem C7_initCaptureMap_in_sync_witness :
    StoreIndexedByID exampleParticles ∧
    (ISingleCapture.new 11 exampleCaptureTest).noXmlLoad = true ∧
    (IMultiCapture.new 11 exampleStepTest).noXmlLoad = true ∧
    (∃ st1, (ISingleCapture.new 11 exampleCaptureTest).initCaptureMap true exampleInteractions
        exampleParticles = .ok st1 ∧
      st1.isCaptured true 0 1 = .ok true ∧ st1.isCaptured true 1 0 = .ok true ∧
      st1.isCaptured true 0 2 ≠ .ok true ∧ st1.isCaptured true 1 2 ≠ .ok true) ∧
    (∃ mt1, (IMultiCapture.new 11 exampleStepTest).initCaptureMap true exampleInteractions
        exampleParticles = .ok mt1 ∧
      mt1.isCaptured true 0 1 = .ok true ∧ mt1.isCaptured true 0 2 ≠ .ok true) := by
  have key := C7_initCaptureMap_in_sync true exampleInteractions exampleParticles
    (ISingleCapture.new 11 exampleCaptureTest) (IMultiCapture.new 11 exampleStepTest)
    (by decide) rfl rfl
  have hown : OwnedBy exampleInteractions 11 (particleAt 0)
      { ID := 1, pos := (1, 0, 0), vel := (0, 0, 0) } := ⟨_, rfl, rfl⟩
  have hforeign : ∀ a (p1 p2 : Particle), a < 2 → p2.ID = max a 2 →
      ¬ OwnedBy exampleInteractions 11 p1 p2 := by
    rintro a p1 p2 ha e2 ⟨ptr, hg, hA⟩
    have e2' : p2.ID = 2 := by rw [e2]; omega
    simp only [getInteraction, exampleInteractions, e2', or_true, decide_True, if_true,
      Except.ok.injEq] at hg
    rw [← hg] at hA
    simp at hA
  refine ⟨by decide, rfl, rfl, ?_, ?_⟩
  · obtain ⟨st1, h⟩ := key.1.1 (by decide)
    obtain ⟨hsync, hfor, _⟩ := key.1.2 st1 h
    have hct : exampleCaptureTest (particleAt 0) { ID := 1, pos := (1, 0, 0), vel := (0, 0, 0) }
        = true := by
      norm_num [exampleCaptureTest, particleAt]
    have h01 := hsync (particleAt 0) (by decide) { ID := 1, pos := (1, 0, 0), vel := (0, 0, 0) }
      (by decide) (by decide) hown
    simp only [ISingleCapture.new, hct] at h01
    refine ⟨st1, h, h01.1, h01.2, ?_, ?_⟩
    · intro hc
      obtain ⟨p1, _, p2, _, _, e2, _, ho, _⟩ := hfor 0 2 hc
      exact hforeign 0 p1 p2 (by decide) e2 ho
    · intro hc
      obtain ⟨p1, _, p2, _, _, e2, _, ho, _⟩ := hfor 1 2 hc
      exact hforeign 1 p1 p2 (by decide) e2 ho
  · obtain ⟨mt1, h⟩ := key.2.1 (by decide)
    obtain ⟨hsync, hfor, _⟩ := key.2.2 mt1 h
    have hct : exampleStepTest (particleAt 0) { ID := 1, pos := (1, 0, 0), vel := (0, 0, 0) }
        = 1 := by
      norm_num [exampleStepTest, particleAt]
    have h01 := hsync (particleAt 0) (by decide) { ID := 1, pos := (1, 0, 0), vel := (0, 0, 0) }
      (by decide) (by decide) hown
    simp only [IMultiCapture.new, hct] at h01
    refine ⟨mt1, h, h01.1, ?_⟩
    intro hc
    obtain ⟨p1, _, p2, _, _, e2, _, ho, _⟩ := hfor 0 2 hc
    exact hforeign 0 p1 p2 (by decide) e2 ho

/-! ### `loadCaptureMap` and `forgetXMLCaptureMap` -/

theorem loadPairs_char (debug : Bool) (pairs : List (Nat × Nat × Nat))
    (m m1 : Finset (Nat × Nat)) (h : ISingleCapture.loadPairs debug pairs m = .ok m1) :
    ∀ key, key ∈ m1 ↔ key ∈ m ∨ ∃ pr ∈ pairs, key = (min pr.1 pr.2.1, max pr.1 pr.2.1) := by
  induction pairs generalizing m with
  | nil =>
    simp only [ISingleCapture.loadPairs] at h
    injection h with h
    subst h
    simp
  | cons pr rest ih =>
    obtain ⟨id1, id2, val⟩ := pr
    unfold ISingleCapture.loadPairs at h
    cases hk : cMapKey debug id1 id2 with
    | error msg => rw [hk] at h; simp at h
    | ok key0 =>
      rw [hk] at h
      simp only at h
      have hkey := cMapKey_eq_ok debug id1 id2 key0 hk
      intro key
      rw [ih (insert key0 m) h, Finset.mem_insert, hkey]
      simp only [List.mem_cons, exists_eq_or_imp]
      tauto

theorem loadPairs_total (debug : Bool) (pairs : List (Nat × Nat × Nat))
    (hok : debug = false ∨ ∀ pr ∈ pairs, pr.1 ≠ pr.2.1) (m : Finset (Nat × Nat)) :
    ∃ m1, ISingleCapture.loadPairs debug pairs m = .ok m1 := by
  induction pairs generalizing m with
  | nil => exact ⟨m, rfl⟩
  | cons pr rest ih =>
    obtain ⟨id1, id2, val⟩ := pr
    unfold ISingleCapture.loadPairs
    have hk : cMapKey debug id1 id2 = .ok (min id1 id2, max id1 id2) := by
      apply cMapKey_ok
      rcases hok with h | h
      · exact Or.inl h
      · exact Or.inr (h (id1, id2, val) (List.mem_cons_self _ _))
    rw [hk]
    simp only
    apply ih
    rcases hok with h | h
    · exact Or.inl h
    · exact Or.inr (fun pr hpr => h pr (List.mem_cons_of_mem _ hpr))

/-- C7, counterexample: a capture map loaded from XML is not rebuilt.  The map
loaded from the pairs (0,2) and (2,1) is left as it is by `initCaptureMap`;
afterwards the pair (0,1), which is owned by this capture interaction and
passes `captureTest`, is not captured, and the pair (0,2), which is owned by
another interaction, is in the map. -/
theorem C7_loaded_map_counterexample :
    ∃ st, (ISingleCapture.new 11 exampleCaptureTest).loadCaptureMap true exampleXML = .ok st ∧
      st.initCaptureMap true exampleInteractions exampleParticles = .ok st ∧
      OwnedBy exampleInteractions 11 (particleAt 0)
        { ID := 1, pos := (1, 0, 0), vel := (0, 0, 0) } ∧
      exampleCaptureTest (particleAt 0) { ID := 1, pos := (1, 0, 0), vel := (0, 0, 0) } = true ∧
      st.isCaptured true 0 1 = .ok false ∧
      ¬ OwnedBy exampleInteractions 11 (particleAt 0)
        { ID := 2, pos := (5, 0, 0), vel := (0, 0, 0) } ∧
      st.isCaptured true 0 2 = .ok true := by
  obtain ⟨m1, hm1⟩ := loadPairs_total true [(0, 2, 1), (2, 1, 1)] (Or.inr (by decide)) ∅
  have hmem := loadPairs_char true _ ∅ m1 hm1
  refine ⟨{ addr := 11, captureTest := exampleCaptureTest, noXmlLoad := false,
            captureMap := m1 }, ?_, rfl, ⟨_, rfl, rfl⟩, ?_, ?_, ?_, ?_⟩
  · unfold ISingleCapture.loadCaptureMap
    simp only [exampleXML, hm1]
    rfl
  · norm_num [exampleCaptureTest, particleAt]
  · rw [isCaptured_eq_ok true _ 0 1 (Or.inr (by decide))]
    apply congrArg Except.ok
    apply decide_eq_false
    intro hin
    have h := (hmem _).mp hin
    simp at h
  · rintro ⟨ptr, hg, hA⟩
    simp only [getInteraction, exampleInteractions, or_true, decide_True, if_true,
      Except.ok.injEq] at hg
    rw [← hg] at hA
    simp at hA
  · rw [isCaptured_eq_ok true _ 0 2 (Or.inr (by decide))]
    exact congrArg Except.ok (decide_eq_true ((hmem _).mpr
      (Or.inr ⟨(0, 2, 1), by decide, by decide⟩)))

theorem single_rebuild (debug : Bool) (ints : List Interaction) (P : List Particle)
    (self : ISingleCapture) (hstore : StoreIndexedByID P) (hno : self.noXmlLoad = true) :
    ((∀ p1 ∈ P, ∀ p2 ∈ P, p1.ID < p2.ID → isError (getInteraction ints p1 p2) = false) →
      ∃ st1, self.initCaptureMap debug ints P = .ok st1) ∧
    ∀ st1, self.initCaptureMap debug ints P = .ok st1 →
      ∀ key, key ∈ st1.captureMap ↔
        ∃ p1 ∈ P, ∃ p2 ∈ P, p1.ID < p2.ID ∧ OwnedBy ints self.addr p1 p2 ∧
          self.captureTest p1 p2 = true ∧ key = (p1.ID, p2.ID) := by
  have hclearS : ∀ st : ISingleCapture, st.clear.fields = st.fields ∧
      ∀ key, ¬ key ∈ st.clear.captureMap := by
    intro st
    exact ⟨rfl, fun key => by simp [ISingleCapture.clear]⟩
  refine ⟨?_, ?_⟩
  · intro hdef
    exact initCaptureMap_total (single_captureSpec debug P) ISingleCapture.noXmlLoad
      ISingleCapture.clear hclearS ints self.addr hstore self hno hdef
  · intro st1 h
    exact (initCaptureMap_rebuilt (single_captureSpec debug P) ISingleCapture.noXmlLoad
      ISingleCapture.clear hclearS ints self.addr hstore self st1 hno h).2

theorem multi_rebuild (debug : Bool) (ints : List Interaction) (P : List Particle)
    (multi : IMultiCapture) (hstore : StoreIndexedByID P) (hno : multi.noXmlLoad = true) :
    ((∀ p1 ∈ P, ∀ p2 ∈ P, p1.ID < p2.ID → isError (getInteraction ints p1 p2) = false) →
      ∃ mt1, multi.initCaptureMap debug ints P = .ok mt1) ∧
    ∀ mt1, multi.initCaptureMap debug ints P = .ok mt1 →
      ∀ key, key ∈ mt1.captureMap ↔
        ∃ p1 ∈ P, ∃ p2 ∈ P, p1.ID < p2.ID ∧ OwnedBy ints multi.addr p1 p2 ∧
          multi.captureTest p1 p2 ≠ 0 ∧ key = (p1.ID, p2.ID) := by
  have hclearM : ∀ st : IMultiCapture, st.clear.fields = st.fields ∧
      ∀ key, ¬ key ∈ st.clear.captureMap := by
    intro st
    exact ⟨rfl, fun key => by simp [IMultiCapture.clear]⟩
  refine ⟨?_, ?_⟩
  · intro hdef
    exact initCaptureMap_total (multi_captureSpec debug P) IMultiCapture.noXmlLoad
      IMultiCapture.clear hclearM ints multi.addr hstore multi hno hdef
  · intro mt1 h key
    have := (initCaptureMap_rebuilt (multi_captureSpec debug P) IMultiCapture.noXmlLoad
      IMultiCapture.clear hclearM ints multi.addr hstore multi mt1 hno h).2 key
    simp only [decide_eq_true_eq] at this
    exact this

/-- C8: (1) when `loadCaptureMap` has loaded a map from a `CaptureMap` XML node
(it does so whenever the node is there, in a release build for any pairs), the
loaded map holds exactly the keys of the listed pairs, `noXmlLoad` is false and
a subsequent `initCaptureMap` returns the object unchanged, whatever
`captureTest` and the interactions are; (2) without a `CaptureMap` node
`loadCaptureMap` changes nothing, and a freshly constructed object has
`noXmlLoad` set; (3) after `forgetXMLCaptureMap`, and whenever `noXmlLoad` is
set, `initCaptureMap` gives the result it gives on a freshly constructed object
with an empty map, so the current contents are discarded; and, for a particle
store indexed by ID, it returns whenever every pair has an interaction, and the
map it returns is rebuilt from `captureTest`: it holds exactly the keys of the
pairs that this interaction owns and that pass `captureTest`.  The same holds
for `IMultiCapture`, a pair passing when `captureTest` is not zero. -/
theorem C8_load_bypasses_rebuild (debug : Bool) (ints : List Interaction)
    (P : List Particle) (self : ISingleCapture) (multi : IMultiCapture) (XML : CaptureXML) :
    (∀ pairs, XML.captureMapNode = some pairs →
      ((debug = false ∨ ∀ pr ∈ pairs, pr.1 ≠ pr.2.1) →
        ∃ st, self.loadCaptureMap debug XML = .ok st) ∧
      ∀ st, self.loadCaptureMap debug XML = .ok st →
        (∀ key, key ∈ st.captureMap ↔
          ∃ pr ∈ pairs, key = (min pr.1 pr.2.1, max pr.1 pr.2.1)) ∧
        st.noXmlLoad = false ∧ st.initCaptureMap debug ints P = .ok st) ∧
    (XML.captureMapNode = none → self.loadCaptureMap debug XML = .ok self) ∧
    (ISingleCapture.new self.addr self.captureTest).noXmlLoad = true ∧
    self.forgetXMLCaptureMap.initCaptureMap debug ints P =
      (ISingleCapture.new self.addr self.captureTest).initCaptureMap debug ints P ∧
    (self.noXmlLoad = true → self.initCaptureMap debug ints P =
      (ISingleCapture.new self.addr self.captureTest).initCaptureMap debug ints P) ∧
    (∀ st, XML.captureMapNode.isSome = true → multi.loadCaptureMap debug XML = .ok st →
      st.noXmlLoad = false ∧ st.initCaptureMap debug ints P = .ok st) ∧
    (XML.captureMapNode = none → multi.loadCaptureMap debug XML = .ok multi) ∧
    multi.forgetXMLCaptureMap.initCaptureMap debug ints P =
      (IMultiCapture.new multi.addr multi.captureTest).initCaptureMap debug ints P ∧
    (multi.noXmlLoad = true → multi.initCaptureMap debug ints P =
      (IMultiCapture.new multi.addr multi.captureTest).initCaptureMap debug ints P) ∧
    (StoreIndexedByID P →
      (((∀ p1 ∈ P, ∀ p2 ∈ P, p1.ID < p2.ID → isError (getInteraction ints p1 p2) = false) →
          ∃ st1, self.forgetXMLCaptureMap.initCaptureMap debug ints P = .ok st1) ∧
        ∀ st1, self.forgetXMLCaptureMap.initCaptureMap debug ints P = .ok st1 →
          ∀ key, key ∈ st1.captureMap ↔
            ∃ p1 ∈ P, ∃ p2 ∈ P, p1.ID < p2.ID ∧ OwnedBy ints self.addr p1 p2 ∧
              self.captureTest p1 p2 = true ∧ key = (p1.ID, p2.ID)) ∧
      (self.noXmlLoad = true →
        ((∀ p1 ∈ P, ∀ p2 ∈ P, p1.ID < p2.ID → isError (getInteraction ints p1 p2) = false) →
          ∃ st1, self.initCaptureMap debug ints P = .ok st1) ∧
        ∀ st1, self.initCaptureMap debug ints P = .ok st1 →
          ∀ key, key ∈ st1.captureMap ↔
            ∃ p1 ∈ P, ∃ p2 ∈ P, p1.ID < p2.ID ∧ OwnedBy ints self.addr p1 p2 ∧
              self.captureTest p1 p2 = true ∧ key = (p1.ID, p2.ID)) ∧
      (((∀ p1 ∈ P, ∀ p2 ∈ P, p1.ID < p2.ID → isError (getInteraction ints p1 p2) = false) →
          ∃ mt1, multi.forgetXMLCaptureMap.initCaptureMap debug ints P = .ok mt1) ∧
        ∀ mt1, multi.forgetXMLCaptureMap.initCaptureMap debug ints P = .ok mt1 →
          ∀ key, key ∈ mt1.captureMap ↔
            ∃ p1 ∈ P, ∃ p2 ∈ P, p1.ID < p2.ID ∧ OwnedBy ints multi.addr p1 p2 ∧
              multi.captureTest p1 p2 ≠ 0 ∧ key = (p1.ID, p2.ID)) ∧
      (multi.noXmlLoad = true →
        ((∀ p1 ∈ P, ∀ p2 ∈ P, p1.ID < p2.ID → isError (getInteraction ints p1 p2) = false) →
          ∃ mt1, multi.initCaptureMap debug ints P = .ok mt1) ∧
        ∀ mt1, multi.initCaptureMap debug ints P = .ok mt1 →
          ∀ key, key ∈ mt1.captureMap ↔
            ∃ p1 ∈ P, ∃ p2 ∈ P, p1.ID < p2.ID ∧ OwnedBy ints multi.addr p1 p2 ∧
              multi.captureTest p1 p2 ≠ 0 ∧ key = (p1.ID, p2.ID))) := by
  refine ⟨?_, ?_, rfl, rfl, ?_, ?_, ?_, rfl, ?_, ?_⟩
  · intro pairs hx
    refine ⟨?_, ?_⟩
    · intro hok
      obtain ⟨m1, hm1⟩ := loadPairs_total debug pairs hok ∅
      refine ⟨{ self with noXmlLoad := false, captureMap := m1 }, ?_⟩
      unfold ISingleCapture.loadCaptureMap
      rw [hx]
      simp only [hm1]
    · intro st h
      unfold ISingleCapture.loadCaptureMap at h
      rw [hx] at h
      simp only at h
      cases hl : ISingleCapture.loadPairs debug pairs ∅ with
      | error msg => rw [hl] at h; simp at h
      | ok m1 =>
        rw [hl] at h
        simp only [Except.ok.injEq] at h
        subst h
        refine ⟨?_, rfl, rfl⟩
        intro key
        rw [loadPairs_char debug pairs ∅ m1 hl key]
        simp
  · intro hx
    unfold ISingleCapture.loadCaptureMap
    rw [hx]
  · intro hno
    have hclear : self.clear = (ISingleCapture.new self.addr self.captureTest).clear := by
      cases self
      simp only at hno
      simp [ISingleCapture.clear, ISingleCapture.new, hno]
    unfold ISingleCapture.initCaptureMap ICapture.initCaptureMap
    rw [if_pos hno, hclear]
    rfl
  · intro st hx h
    unfold IMultiCapture.loadCaptureMap at h
    cases hn : XML.captureMapNode with
    | none => rw [hn] at hx; simp at hx
    | some pairs =>
      rw [hn] at h
      simp only at h
      cases hl : IMultiCapture.loadPairs debug pairs ∅ with
      | error msg => rw [hl] at h; simp at h
      | ok m1 =>
        rw [hl] at h
        simp only [Except.ok.injEq] at h
        subst h
        exact ⟨rfl, rfl⟩
  · intro hx
    unfold IMultiCapture.loadCaptureMap
    rw [hx]
  · intro hno
    have hclear : multi.clear = (IMultiCapture.new multi.addr multi.captureTest).clear := by
      cases multi
      simp only at hno
      simp [IMultiCapture.clear, IMultiCapture.new, hno]
    unfold IMultiCapture.initCaptureMap ICapture.initCaptureMap
    rw [if_pos hno, hclear]
    rfl
  · intro hstore
    exact ⟨single_rebuild debug ints P self.forgetXMLCaptureMap hstore rfl,
      fun hno => single_rebuild debug ints P self hstore hno,
      multi_rebuild debug ints P multi.forgetXMLCaptureMap hstore rfl,
      fun hno => multi_rebuild debug ints P multi hstore hno⟩

/-- C8 on a concrete node: the loaded pairs (0,2) and (2,1) survive
`initCaptureMap` although the capture test asks for the pair (0,1) only; after
`forgetXMLCaptureMap`, `initCaptureMap` returns a map rebuilt from the capture
test, in which the pair (0,1) is captured and the loaded pair (0,2) is not. -/
theorem C8_load_bypasses_rebuild_witness :
    ∃ st, (ISingleCapture.new 11 exampleCaptureTest).loadCaptureMap true exampleXML = .ok st ∧
      st.initCaptureMap true exampleInteractions exampleParticles = .ok st ∧
      st.isCaptured true 0 2 = .ok true ∧ st.isCaptured true 1 2 = .ok true ∧
      ∃ st1, st.forgetXMLCaptureMap.initCaptureMap true exampleInteractions exampleParticles
          = .ok st1 ∧
        st1.isCaptured true 0 1 = .ok true ∧ st1.isCaptured true 0 2 = .ok false := by
  have key := C8_load_bypasses_rebuild true exampleInteractions exampleParticles
    (ISingleCapture.new 11 exampleCaptureTest) (IMultiCapture.new 12 (fun _ _ => 0)) exampleXML
  obtain ⟨st, hst⟩ := (key.1 _ rfl).1 (Or.inr (by decide))
  obtain ⟨hmap, _, hinit⟩ := (key.1 _ rfl).2 st hst
  have haddr : st.addr = 11 ∧ st.captureTest = exampleCaptureTest := by
    unfold ISingleCapture.loadCaptureMap at hst
    simp only [exampleXML] at hst
    cases hl : ISingleCapture.loadPairs true [(0, 2, 1), (2, 1, 1)] ∅ with
    | error msg => rw [hl] at hst; simp at hst
    | ok m1 =>
      rw [hl] at hst
      simp only [Except.ok.injEq] at hst
      rw [← hst]
      exact ⟨rfl, rfl⟩
  have key2 := (C8_load_bypasses_rebuild true exampleInteractions exampleParticles st
    (IMultiCapture.new 12 (fun _ _ => 0)) exampleXML).2.2.2.2.2.2.2.2.2 (by decide)
  obtain ⟨st1, hst1⟩ := key2.1.1 (by decide)
  have hmap1 := key2.1.2 st1 hst1
  rw [haddr.1, haddr.2] at hmap1
  refine ⟨st, hst, hinit, ?_, ?_, st1, hst1, ?_, ?_⟩
  · rw [isCaptured_eq_ok true st 0 2 (Or.inr (by decide))]
    exact congrArg Except.ok (decide_eq_true ((hmap _).mpr ⟨(0, 2, 1), by decide, by decide⟩))
  · rw [isCaptured_eq_ok true st 1 2 (Or.inr (by decide))]
    exact congrArg Except.ok (decide_eq_true ((hmap _).mpr ⟨(2, 1, 1), by decide, by decide⟩))
  · rw [isCaptured_eq_ok true st1 0 1 (Or.inr (by decide))]
    apply congrArg Except.ok
    apply decide_eq_true
    refine (hmap1 _).mpr ⟨particleAt 0, by decide,
      { ID := 1, pos := (1, 0, 0), vel := (0, 0, 0) }, by decide, by decide,
      ⟨_, rfl, rfl⟩, ?_, rfl⟩
    norm_num [exampleCaptureTest, particleAt]
  · rw [isCaptured_eq_ok true st1 0 2 (Or.inr (by decide))]
    apply congrArg Except.ok
    apply decide_eq_false
    intro hin
    obtain ⟨p1, _, p2, _, _, ⟨ptr, hg, hA⟩, _, hkey⟩ := (hmap1 _).mp hin
    have e2 : p2.ID = 2 := by
      have := congrArg Prod.snd hkey
      simp only [max_def] at this
      simpa using this.symm
    simp only [getInteraction, exampleInteractions, e2, or_true, decide_True, if_true,
      Except.ok.injEq] at hg
    rw [← hg] at hA
    simp at hA

/-! ### The primary-cell size check of `Simulation::initialise` -/

theorem primaryCellSizeLoop_ok_iff (size : Vector) (m : ℚ) (L : List Nat) :
    primaryCellSizeLoop size m L = .ok () ↔ ∀ i ∈ L, 2 * m < size.get i := by
  induction L with
  | nil => simp [primaryCellSizeLoop]
  | cons a rest ih =>
    unfold primaryCellSizeLoop
    by_cases h : size.get a ≤ 2 * m
    · rw [if_pos h]
      simp only [List.mem_cons, forall_eq_or_imp]
      constructor
      · intro hc; simp at hc
      · intro hc; exact absurd hc.1 (not_lt.mpr h)
    · rw [if_neg h, ih]
      simp only [List.mem_cons, forall_eq_or_imp]
      exact ⟨fun hr => ⟨not_le.mp h, hr⟩, fun hr => hr.2⟩

/-- C9 (as stated, refuted): with periodic boundary conditions, a longest
interaction distance 1 and a primary cell of extent exactly 2 on every axis,
every extent is greater than or equal to twice the longest interaction
distance, and the check of `Simulation::initialise` throws. -/
theorem C9_cell_size_equal_counterexample :
    BoundaryCondition.BCPeriodic.isBCPeriodic = true ∧
    getLongestInteraction [unitInteraction] = 1 ∧
    (∀ i, i < NDIM → (Vector.mk 2 2 2).get i ≥ 2 * getLongestInteraction [unitInteraction]) ∧
    (∀ i, i < NDIM → (Vector.mk 2 2 2).get i = 2 * getLongestInteraction [unitInteraction]) ∧
    isError (primaryCellSizeCheck BoundaryCondition.BCPeriodic (Vector.mk 2 2 2)
      [unitInteraction]) = true := by
  have hl : getLongestInteraction [unitInteraction] = 1 := by decide
  refine ⟨rfl, hl, ?_, ?_, ?_⟩
  · intro i hi
    rw [hl]
    unfold NDIM at hi
    interval_cases i <;> norm_num [Vector.get]
  · intro i hi
    rw [hl]
    unfold NDIM at hi
    interval_cases i <;> norm_num [Vector.get]
  · unfold primaryCellSizeCheck
    simp only [BoundaryCondition.isBCPeriodic, if_true, hl, NDIM]
    have : List.range 3 = [0, 1, 2] := by decide
    rw [this]
    unfold primaryCellSizeLoop
    norm_num [Vector.get, isError]

/-- C9 (amended): with periodic boundary conditions the primary-cell size check
of `Simulation::initialise` passes exactly when every axis extent
`primaryCellSize[i]` is strictly greater than `2 * getLongestInteraction()`, and
throws exactly when some extent is less than or equal to it. -/
theorem C9_cell_size_check_strict (BCs : BoundaryCondition) (primaryCellSize : Vector)
    (interactions : List Interaction) (hper : BCs.isBCPeriodic = true) :
    (primaryCellSizeCheck BCs primaryCellSize interactions = .ok () ↔
      ∀ i, i < NDIM → 2 * getLongestInteraction interactions < primaryCellSize.get i) ∧
    (isError (primaryCellSizeCheck BCs primaryCellSize interactions) = true ↔
      ∃ i, i < NDIM ∧ primaryCellSize.get i ≤ 2 * getLongestInteraction interactions) := by
  have h1 : primaryCellSizeCheck BCs primaryCellSize interactions = .ok () ↔
      ∀ i, i < NDIM → 2 * getLongestInteraction interactions < primaryCellSize.get i := by
    unfold primaryCellSizeCheck
    rw [if_pos hper]
    simp only [primaryCellSizeLoop_ok_iff, List.mem_range]
  refine ⟨h1, ?_⟩
  have h2 : isError (primaryCellSizeCheck BCs primaryCellSize interactions) = true ↔
      ¬ primaryCellSizeCheck BCs primaryCellSize interactions = .ok () := by
    cases primaryCellSizeCheck BCs primaryCellSize interactions with
    | error msg => simp [isError]
    | ok u => cases u; simp [isError]
  rw [h2, h1]
  push_neg
  rfl

/-- C9 (amended) on a primary cell of extent 3 with longest interaction
distance 1: the check passes. -/
theorem C9_cell_size_check_strict_witness :
    BoundaryCondition.BCPeriodic.isBCPeriodic = true ∧
    (primaryCellSizeCheck BoundaryCondition.BCPeriodic (Vector.mk 3 3 3) [unitInteraction]
        = .ok () ↔
      ∀ i, i < NDIM → 2 * getLongestInteraction [unitInteraction] < (Vector.mk 3 3 3).get i) ∧
    (isError (primaryCellSizeCheck BoundaryCondition.BCPeriodic (Vector.mk 3 3 3)
        [unitInteraction]) = true ↔
      ∃ i, i < NDIM ∧ (Vector.mk 3 3 3).get i ≤ 2 * getLongestInteraction [unitInteraction]) :=
  ⟨rfl, C9_cell_size_check_strict BoundaryCondition.BCPeriodic (Vector.mk 3 3 3)
    [unitInteraction] rfl⟩

/-! ### The species validation of `Simulation::initialise` -/

theorem speciesCountLoop_zero (part : Particle) (species : List Species) :
    speciesCountLoop part species 0 = if ∃ sp ∈ species, sp.isSpecies part = true then 1 else 0 := by
  induction species with
  | nil => simp [speciesCountLoop]
  | cons sp rest ih =>
    unfold speciesCountLoop
    by_cases h : sp.isSpecies part = true
    · simp [h]
    · rw [if_neg h, ih]
      simp [h]

theorem particleSpeciesLoop_ok (species : List Species) (L : List Particle)
    (h : particleSpeciesLoop species L 0 = .ok ()) :
    ∀ p ∈ L, ∃ sp ∈ species, sp.isSpecies p = true := by
  induction L with
  | nil => simp
  | cons a rest ih =>
    unfold particleSpeciesLoop at h
    simp only [speciesCountLoop_zero] at h
    by_cases ha : ∃ sp ∈ species, sp.isSpecies a = true
    · rw [if_pos ha] at h
      simp only [Nat.lt_irrefl, if_false] at h
      intro p hp
      rcases List.mem_cons.mp hp with rfl | hp
      · exact ha
      · exact ih h p hp
    · rw [if_neg ha] at h
      simp at h

theorem speciesTot_eq (species : List Species) (a : Nat) :
    species.foldl (fun tot ptr => (tot + ptr.getCount) % 2 ^ 64) a % 2 ^ 64 =
      (a + (species.map (fun sp => sp.range.card)).sum) % 2 ^ 64 := by
  induction species generalizing a with
  | nil => simp
  | cons sp rest ih =>
    simp only [List.foldl_cons, List.map_cons, List.sum_cons]
    rw [ih]
    unfold Species.getCount
    omega

theorem speciesTot_lt (species : List Species) (a : Nat) (ha : a < 2 ^ 64) :
    species.foldl (fun tot ptr => (tot + ptr.getCount) % 2 ^ 64) a < 2 ^ 64 := by
  induction species generalizing a with
  | nil => simpa using ha
  | cons sp rest ih =>
    simp only [List.foldl_cons]
    exact ih _ (Nat.mod_lt _ (by norm_num))

/-- Counting the pairs (particle, species containing it) species by species:
particles with distinct IDs cannot outnumber the members of the species. -/
theorem sum_speciesOf_le (species : List Species) (L : List Particle)
    (hnodup : (L.map Particle.ID).Nodup) :
    (L.map (speciesOf species)).sum ≤ (species.map (fun sp => sp.range.card)).sum := by
  induction species with
  | nil =>
    have hz : L.map (speciesOf []) = L.map (fun _ => 0) :=
      List.map_congr_left (fun p _ => rfl)
    rw [hz]
    simp
  | cons sp rest ih =>
    have hsplit : ∀ p, speciesOf (sp :: rest) p =
        (if p.ID ∈ sp.range then 1 else 0) + speciesOf rest p := by
      intro p
      unfold speciesOf
      by_cases hp : p.ID ∈ sp.range
      · simp [List.filter_cons, Species.isSpecies, hp, Nat.add_comm]
      · simp [List.filter_cons, Species.isSpecies, hp]
    have hsum : (L.map (speciesOf (sp :: rest))).sum =
        (L.map (fun p => if p.ID ∈ sp.range then 1 else 0)).sum +
          (L.map (speciesOf rest)).sum := by
      rw [← List.sum_map_add]
      congr 1
      exact List.map_congr_left (fun p _ => hsplit p)
    have hcount : (L.map (fun p => if p.ID ∈ sp.range then 1 else 0)).sum ≤ sp.range.card := by
      have h1 : (L.map (fun p => if p.ID ∈ sp.range then 1 else 0)).sum =
          ((L.map Particle.ID).filter (fun i => decide (i ∈ sp.range))).length := by
        clear hnodup hsum hsplit ih
        induction L with
        | nil => simp
        | cons a t iht =>
          by_cases ha : a.ID ∈ sp.range
          · simp [List.filter_cons, ha, iht, Nat.add_comm]
          · simp [List.filter_cons, ha, iht]
      rw [h1]
      have hnd : ((L.map Particle.ID).filter (fun i => decide (i ∈ sp.range))).Nodup :=
        hnodup.filter _
      rw [← List.toFinset_card_of_nodup hnd]
      apply Finset.card_le_card
      intro i hi
      simp only [List.mem_toFinset, List.mem_filter, decide_eq_true_eq] at hi
      exact hi.2
    rw [hsum, List.map_cons, List.sum_cons]
    exact Nat.add_le_add hcount ih

theorem all_one_of_sum_le (L : List Particle) (f : Particle → Nat)
    (hone : ∀ p ∈ L, 1 ≤ f p) (hsum : (L.map f).sum ≤ L.length) : ∀ p ∈ L, f p = 1 := by
  induction L with
  | nil => simp
  | cons a rest ih =>
    have hrest : rest.length ≤ (rest.map f).sum := by
      clear ih hsum
      induction rest with
      | nil => simp
      | cons b t iht =>
        have hb := hone b (List.mem_cons_of_mem _ (List.mem_cons_self _ _))
        have ht := iht (fun p hp => by
          rcases List.mem_cons.mp hp with rfl | hp
          · exact hone _ (List.mem_cons_self _ _)
          · exact hone p (List.mem_cons_of_mem _ (List.mem_cons_of_mem _ hp)))
        simp only [List.map_cons, List.sum_cons, List.length_cons]
        omega
    have ha := hone a (List.mem_cons_self _ _)
    simp only [List.map_cons, List.sum_cons, List.length_cons] at hsum
    intro p hp
    rcases List.mem_cons.mp hp with rfl | hp
    · omega
    · exact ih (fun q hq => hone q (List.mem_cons_of_mem _ hq)) (by omega) p hp

/-- C10: for a particle store with distinct IDs, `N` the number of particles
and species counts that fit the `unsigned long` accumulator: whenever the
species validation of `Simulation::initialise` completes without an error,
every particle belongs to exactly one species; and a configuration in which
some particle belongs to no species or to two or more species is rejected. -/
theorem C10_species_partition (particles : List Particle) (N : Nat) (species : List Species)
    (hN : N = particles.length) (hnodup : (particles.map Particle.ID).Nodup)
    (hfit : (species.map (fun sp => sp.range.card)).sum < 2 ^ 64) :
    (speciesValidation particles N species = .ok () →
      ∀ p ∈ particles, speciesOf species p = 1) ∧
    ((∃ p ∈ particles, speciesOf species p ≠ 1) →
      isError (speciesValidation particles N species) = true) := by
  have main : speciesValidation particles N species = .ok () →
      ∀ p ∈ particles, speciesOf species p = 1 := by
    intro h
    unfold speciesValidation at h
    cases hl : particleSpeciesLoop species particles 0 with
    | error msg => rw [hl] at h; simp at h
    | ok u =>
      rw [hl] at h
      simp only at h
      have htot : species.foldl (fun tot ptr => (tot + ptr.getCount) % 2 ^ 64) 0 =
          (species.map (fun sp => sp.range.card)).sum := by
        have h1 := speciesTot_eq species 0
        have h2 := speciesTot_lt species 0 (by norm_num)
        rw [Nat.mod_eq_of_lt h2, Nat.zero_add, Nat.mod_eq_of_lt hfit] at h1
        exact h1
      rw [htot] at h
      split_ifs at h with h1 h2
      have hsumN : (species.map (fun sp => sp.range.card)).sum = N := by omega
      have hex := particleSpeciesLoop_ok species particles hl
      apply all_one_of_sum_le particles (speciesOf species)
      · intro p hp
        obtain ⟨sp, hsp, hacc⟩ := hex p hp
        unfold speciesOf
        exact List.length_pos_of_mem (List.mem_filter.mpr ⟨hsp, hacc⟩)
      · calc (particles.map (speciesOf species)).sum
            ≤ (species.map (fun sp => sp.range.card)).sum :=
              sum_speciesOf_le species particles hnodup
          _ = particles.length := by rw [hsumN, hN]
  refine ⟨main, ?_⟩
  rintro ⟨p, hp, hne⟩
  cases hv : speciesValidation particles N species with
  | error msg => rfl
  | ok u =>
    cases u
    exact absurd (main hv p hp) hne

/-- C10 on three particles and the species {0,1} and {2}: the validation passes
and every particle is in exactly one species. -/
theorem C10_species_partition_witness :
    3 = exampleParticles.length ∧ (exampleParticles.map Particle.ID).Nodup ∧
    (exampleSpecies.map (fun sp => sp.range.card)).sum < 2 ^ 64 ∧
    speciesValidation exampleParticles 3 exampleSpecies = .ok () ∧
    ∀ p ∈ exampleParticles, speciesOf exampleSpecies p = 1 :=
  ⟨rfl, by decide, by decide, rfl,
    (C10_species_partition exampleParticles 3 exampleSpecies rfl (by decide) (by decide)).1 rfl⟩

/-! ### `SysUmbrella` -/

theorem newulevel_eq {K : Type} (self : SysUmbrella K) :
    self.newulevel =
      if self.type = EEventType.STEP_OUT then self.ulevel + 1 else self.ulevel - 1 := by
  unfold SysUmbrella.newulevel
  by_cases h0 : self.ulevel = 0
  · rw [if_pos h0, h0]
    split_ifs <;> rfl
  · rw [if_neg h0]

theorem recalculateTime_frame {K : Type} [LinearOrderedField K] (sqrt : K → K)
    (dyn : UmbrellaDynamics K) (self : SysUmbrella K) :
    (self.recalculateTime sqrt dyn).ulevel = self.ulevel ∧
    (self.recalculateTime sqrt dyn).ulevelcenter = self.ulevelcenter ∧
    (self.recalculateTime sqrt dyn).ulevelset = self.ulevelset ∧
    (self.recalculateTime sqrt dyn).a = self.a ∧
    (self.recalculateTime sqrt dyn).b = self.b ∧
    (self.recalculateTime sqrt dyn).delU = self.delU ∧
    (self.recalculateTime sqrt dyn).sysName = self.sysName := by
  unfold SysUmbrella.recalculateTime
  simp only
  split <;> split_ifs <;> exact ⟨rfl, rfl, rfl, rfl, rfl, rfl, rfl⟩

theorem streamTime_self {K : Type} [LinearOrderedField K] (t : K) :
    streamTime (t : WithTop K) (t : WithTop K) = ((0 : K) : WithTop K) := by
  show (((t - t : K)) : WithTop K) = ((0 : K) : WithTop K)
  rw [sub_self]

/-- C11: `SysUmbrella::runEvent` changes the discrete energy level only when the
multi-body well event is not a `BOUNCE`: if the event type reported is `BOUNCE`
the level `ulevel` is unchanged; otherwise the new level is `ulevel + 1` when
the scheduled event type is `STEP_OUT` and `ulevel - 1` when it is not, for
every integer `ulevel`, the level 0 included.  The umbrella after the event is
the umbrella before it with this level and the streamed time, on which
`recalculateTime` has run when the update signal reached it; the members `a`,
`b`, `delU`, `ulevelcenter`, `ulevelset` and the name do not change. -/
theorem C11_runEvent_level_update {K : Type} [LinearOrderedField K] (sqrt : K → K)
    (dyn after : UmbrellaDynamics K) (notified : Bool)
    (self : SysUmbrella K) (Sim : SimClock K) :
    (self.runEvent sqrt dyn after notified Sim).1.ulevel =
      (if dyn.multibdyWellEvent (if self.kedown then -self.delU else self.delU)
          = EEventType.BOUNCE then self.ulevel
        else if self.type = EEventType.STEP_OUT then self.ulevel + 1
        else self.ulevel - 1) ∧
    (self.runEvent sqrt dyn after notified Sim).1 =
      (if notified then SysUmbrella.recalculateTime sqrt after else id)
        { self with
          dt := streamTime self.dt self.dt,
          ulevel :=
            if dyn.multibdyWellEvent (if self.kedown then -self.delU else self.delU)
                = EEventType.BOUNCE then self.ulevel
            else if self.type = EEventType.STEP_OUT then self.ulevel + 1
            else self.ulevel - 1 } ∧
    (self.runEvent sqrt dyn after notified Sim).1.a = self.a ∧
    (self.runEvent sqrt dyn after notified Sim).1.b = self.b ∧
    (self.runEvent sqrt dyn after notified Sim).1.delU = self.delU ∧
    (self.runEvent sqrt dyn after notified Sim).1.ulevelcenter = self.ulevelcenter ∧
    (self.runEvent sqrt dyn after notified Sim).1.ulevelset = self.ulevelset ∧
    (self.runEvent sqrt dyn after notified Sim).1.sysName = self.sysName := by
  have hstate : (self.runEvent sqrt dyn after notified Sim).1 =
      (if notified then SysUmbrella.recalculateTime sqrt after else id)
        { self with
          dt := streamTime self.dt self.dt,
          ulevel :=
            if dyn.multibdyWellEvent (if self.kedown then -self.delU else self.delU)
                = EEventType.BOUNCE then self.ulevel
            else if self.type = EEventType.STEP_OUT then self.ulevel + 1
            else self.ulevel - 1 } := by
    have hk : SysUmbrella.kedown { self with dt := streamTime self.dt self.dt }
        = self.kedown := rfl
    have hn : SysUmbrella.newulevel { self with dt := streamTime self.dt self.dt }
        = self.newulevel := rfl
    unfold SysUmbrella.runEvent SysUmbrella.deltaKE
    simp only [hk, hn]
    by_cases hb : dyn.multibdyWellEvent (if self.kedown then -self.delU else self.delU)
        = EEventType.BOUNCE
    · cases notified <;> simp [hb]
    · cases notified <;>
        simp only [hb, ne_eq, not_false_eq_true, if_true, if_false, newulevel_eq,
          Bool.false_eq_true, id]
  refine ⟨?_, hstate, ?_, ?_, ?_, ?_, ?_, ?_⟩ <;> rw [hstate] <;> cases notified <;>
    simp only [if_true, Bool.false_eq_true, if_false, id] <;>
    first
      | rfl
      | exact (recalculateTime_frame sqrt after _).1
      | exact (recalculateTime_frame sqrt after _).2.2.2.1
      | exact (recalculateTime_frame sqrt after _).2.2.2.2.1
      | exact (recalculateTime_frame sqrt after _).2.2.2.2.2.1
      | exact (recalculateTime_frame sqrt after _).2.1
      | exact (recalculateTime_frame sqrt after _).2.2.1
      | exact (recalculateTime_frame sqrt after _).2.2.2.2.2.2

/-- C12: after every call of `SysUmbrella::recalculateTime` the event type is one
of `STEP_IN`, `STEP_OUT`, `NONE`; the type is `NONE` exactly when `dt` is
`HUGE_VAL`; and the type is `STEP_IN` exactly when `ulevel` differs from
`ulevelcenter` and the root of the inner shell `R_min` is finite, in which case
`dt` is that inner root, whatever the root of the outer shell is. -/
theorem C12_recalculateTime_type {K : Type} [LinearOrderedField K] (sqrt : K → K)
    (dyn : UmbrellaDynamics K) (self : SysUmbrella K) :
    ((self.recalculateTime sqrt dyn).type = EEventType.STEP_IN ∨
      (self.recalculateTime sqrt dyn).type = EEventType.STEP_OUT ∨
      (self.recalculateTime sqrt dyn).type = EEventType.NONE) ∧
    ((self.recalculateTime sqrt dyn).type = EEventType.NONE ↔
      (self.recalculateTime sqrt dyn).dt = ⊤) ∧
    ((self.recalculateTime sqrt dyn).type = EEventType.STEP_IN ↔
      self.ulevel ≠ self.ulevelcenter ∧
        ∃ R, self.R_min sqrt = some R ∧ dyn.SphereSphereInRoot R ≠ ⊤) ∧
    (∀ R, self.R_min sqrt = some R → dyn.SphereSphereInRoot R ≠ ⊤ →
      (self.recalculateTime sqrt dyn).dt = dyn.SphereSphereInRoot R) := by
  have hR : SysUmbrella.R_min sqrt { self with dt := ⊤, type := EEventType.NONE }
      = self.R_min sqrt := rfl
  have hnone : self.R_min sqrt = none ↔ self.ulevel = self.ulevelcenter := by
    unfold SysUmbrella.R_min
    split_ifs <;> simp_all
  unfold SysUmbrella.recalculateTime
  simp only [hR]
  generalize dyn.SphereSphereOutRoot
    (SysUmbrella.R_max sqrt { self with dt := ⊤, type := EEventType.NONE }) = dOut
  cases hm : self.R_min sqrt with
  | none =>
    have hc : ¬ (self.ulevel ≠ self.ulevelcenter) := not_not.mpr (hnone.mp hm)
    simp only
    split_ifs with h1
    · refine ⟨Or.inr (Or.inl rfl), ?_, ?_, ?_⟩
      · simp [h1]
      · simp [hc]
      · simp
    · have h1' := not_not.mp h1
      refine ⟨Or.inr (Or.inr rfl), ?_, ?_, ?_⟩
      · simp [h1']
      · simp [hc]
      · simp
  | some R =>
    have hc : self.ulevel ≠ self.ulevelcenter := by
      intro h
      rw [hnone.mpr h] at hm
      simp at hm
    simp only
    split_ifs with h1 h2
    · refine ⟨Or.inl rfl, ?_, ?_, ?_⟩
      · simp [h1]
      · simp [h1, hc]
      · simp
    · have h1' := not_not.mp h1
      refine ⟨Or.inr (Or.inl rfl), ?_, ?_, ?_⟩
      · simp [h2]
      · simp [h1']
      · simp [h1']
    · have h1' := not_not.mp h1
      have h2' := not_not.mp h2
      refine ⟨Or.inr (Or.inr rfl), ?_, ?_, ?_⟩
      · simp [h2']
      · simp [h1']
      · simp [h1']

/-! ### The clock under system events -/

theorem withTop_le_add_of_nonneg {K : Type} [LinearOrderedField K] (t d : WithTop K)
    (hd : 0 ≤ d) : t ≤ t + d :=
  le_add_of_nonneg_right hd

/-- `CStHalt::runEvent` adds the halt time to the clock. -/
theorem CStHalt_runEvent_clock (self : CStHalt) (Sim : SimDataClock) :
    (self.runEvent Sim).dSysTime = Sim.dSysTime + self.dt := rfl

/-- `CStHalt::runEvent` keeps the clock from decreasing when the halt time is
not negative. -/
theorem CStHalt_runEvent_monotone (unitTime ndt : ℚ) (nName : String) (Sim : SimDataClock)
    (h : 0 ≤ ndt * unitTime) :
    Sim.dSysTime ≤ ((CStHalt.new unitTime ndt nName).runEvent Sim).dSysTime := by
  rw [CStHalt_runEvent_clock]
  apply withTop_le_add_of_nonneg
  show (0 : WithTop ℚ) ≤ ((ndt * unitTime : ℚ) : WithTop ℚ)
  exact_mod_cast h

theorem SSnapshot_firings_state (unitTime nPeriod : ℚ) (nName : String) (applyBC : Bool)
    (Sim : SimClock ℚ) (k : Nat) :
    (SSnapshot.firings k (SSnapshot.new unitTime nPeriod nName applyBC, Sim)).1._saveCounter = k ∧
    (SSnapshot.firings k (SSnapshot.new unitTime nPeriod nName applyBC, Sim)).1._period =
      (SSnapshot.new unitTime nPeriod nName applyBC)._period ∧
    (SSnapshot.firings k (SSnapshot.new unitTime nPeriod nName applyBC, Sim)).1.dt =
      (((SSnapshot.new unitTime nPeriod nName applyBC)._period : ℚ) : Time) := by
  induction k with
  | zero => exact ⟨rfl, rfl, rfl⟩
  | succ k ih =>
    obtain ⟨h1, h2, h3⟩ := ih
    refine ⟨?_, ?_, ?_⟩
    · simp [SSnapshot.firings, SSnapshot.runEvent, h1]
    · simp [SSnapshot.firings, SSnapshot.runEvent, h2]
    · simp only [SSnapshot.firings, SSnapshot.runEvent, h2, h3, streamTime_self]
      rw [← WithTop.coe_add, zero_add]

/-- A freshly constructed `SSnapshot` never moves the clock backwards, at any of
its firings, when the unit of time is positive. -/
theorem SSnapshot_runEvent_monotone (unitTime nPeriod : ℚ) (nName : String) (applyBC : Bool)
    (Sim : SimClock ℚ) (k : Nat) (hunit : 0 < unitTime) :
    (SSnapshot.firings k (SSnapshot.new unitTime nPeriod nName applyBC, Sim)).2.systemTime ≤
      (SSnapshot.firings (k + 1)
        (SSnapshot.new unitTime nPeriod nName applyBC, Sim)).2.systemTime := by
  obtain ⟨_, _, h3⟩ := SSnapshot_firings_state unitTime nPeriod nName applyBC Sim k
  have hp : 0 < (SSnapshot.new unitTime nPeriod nName applyBC)._period := by
    unfold SSnapshot.new
    simp only
    split_ifs with h
    · exact mul_pos one_pos hunit
    · exact mul_pos (not_le.mp h) hunit
  simp only [SSnapshot.firings, SSnapshot.runEvent]
  apply withTop_le_add_of_nonneg
  rw [h3]
  exact_mod_cast le_of_lt hp

/-- `SysUmbrella::runEvent` keeps the clock from decreasing when the scheduled
time is not negative; this is so after construction (`HUGE_VAL`) and after
`recalculateTime` when the dynamics only reports roots that are not negative. -/
theorem SysUmbrella_runEvent_monotone {K : Type} [LinearOrderedField K] (sqrt : K → K)
    (dyn after : UmbrellaDynamics K) (notified : Bool) (self : SysUmbrella K)
    (Sim : SimClock K) :
    (0 ≤ self.dt →
      Sim.systemTime ≤ (self.runEvent sqrt dyn after notified Sim).2.systemTime) ∧
    (∀ na nb ndelu nName, (0 : WithTop K) ≤ (SysUmbrella.new na nb ndelu nName).dt) ∧
    ((∀ R, 0 ≤ dyn.SphereSphereInRoot R ∧ 0 ≤ dyn.SphereSphereOutRoot R) →
      0 ≤ (self.recalculateTime sqrt dyn).dt) := by
  refine ⟨fun h => withTop_le_add_of_nonneg _ _ h, fun _ _ _ _ => le_top, ?_⟩
  intro hroot
  unfold SysUmbrella.recalculateTime
  simp only
  cases SysUmbrella.R_min sqrt { self with dt := ⊤, type := EEventType.NONE } with
  | none =>
    simp only
    split_ifs
    · exact (hroot _).2
    · exact (hroot _).2
  | some R =>
    simp only
    split_ifs
    · exact (hroot _).1
    · exact (hroot _).2
    · exact (hroot _).2

/-- C13 (the code at the failing input): a `CStHalt` constructed with the halt
time -1 (unit of time 1) and fired at clock 5 leaves the clock at 4: the system
time after `runEvent` is smaller than before. -/
theorem C13_halt_negative_time_moves_clock_back :
    ((CStHalt.new 1 (-1) "SystemStopEvent").runEvent
        { dSysTime := 5, lNColl := 10, lMaxNColl := 100, lPrintLimiter := 50 }).dSysTime = 4 ∧
    ((CStHalt.new 1 (-1) "SystemStopEvent").runEvent
        { dSysTime := 5, lNColl := 10, lMaxNColl := 100, lPrintLimiter := 50 }).dSysTime <
      (5 : Time) := by
  have h : ((CStHalt.new 1 (-1) "SystemStopEvent").runEvent
      { dSysTime := 5, lNColl := 10, lMaxNColl := 100, lPrintLimiter := 50 }).dSysTime = 4 := by
    show ((5 : ℚ) : WithTop ℚ) + (((-1) * 1 : ℚ) : WithTop ℚ) = ((4 : ℚ) : WithTop ℚ)
    rw [← WithTop.coe_add]
    congr 1
    norm_num
  rw [h]
  exact ⟨rfl, by decide⟩

/-! ### Snapshot file names -/

theorem snapshot_config_name (r : String) :
    search_replace "Snapshot.%i.xml.bz2" "%i" r = "Snapshot." ++ r ++ ".xml.bz2" := by
  apply String.ext
  simp [search_replace, search_replace_go, List.isPrefixOf, String.data_append]

theorem snapshot_output_name (r : String) :
    search_replace "Snapshot.output.%i.xml.bz2" "%i" r =
      "Snapshot.output." ++ r ++ ".xml.bz2" := by
  apply String.ext
  simp [search_replace, search_replace_go, List.isPrefixOf, String.data_append]

/-- C19: for every `k`, the `(k+1)`-th firing of a freshly constructed
`SSnapshot` writes the configuration to `Snapshot.k.xml.bz2` and the observables
to `Snapshot.output.k.xml.bz2`, `k` in decimal digits: both names of one firing
carry the same number, the first firing uses 0, and the number grows by exactly
one per firing. -/
theorem C19_snapshot_file_names (unitTime nPeriod : ℚ) (nName : String) (applyBC : Bool)
    (Sim : SimClock ℚ) (k : Nat) :
    ((SSnapshot.firings k (SSnapshot.new unitTime nPeriod nName applyBC, Sim)).1.runEvent
        (SSnapshot.firings k (SSnapshot.new unitTime nPeriod nName applyBC, Sim)).2).2.2 =
      { configuration := "Snapshot." ++ Nat.repr k ++ ".xml.bz2",
        observables := "Snapshot.output." ++ Nat.repr k ++ ".xml.bz2" } ∧
    (SSnapshot.firings k (SSnapshot.new unitTime nPeriod nName applyBC, Sim)).1._saveCounter = k ∧
    (SSnapshot.firings (k + 1)
      (SSnapshot.new unitTime nPeriod nName applyBC, Sim)).1._saveCounter = k + 1 := by
  obtain ⟨h1, _, _⟩ := SSnapshot_firings_state unitTime nPeriod nName applyBC Sim k
  obtain ⟨h2, _, _⟩ := SSnapshot_firings_state unitTime nPeriod nName applyBC Sim (k + 1)
  refine ⟨?_, h1, h2⟩
  simp only [SSnapshot.runEvent, h1, snapshot_config_name, snapshot_output_name, lexical_cast]

/-! ### `Simulation::simShutdown` -/

theorem runSimulationStep_eventCount {σ : Type}
    (runNextEvent : SimulationRun σ → Except String (SimulationRun σ))
    (silentMode : Bool) (s : SimulationRun σ) (b : Bool) (s2 : SimulationRun σ)
    (h : s.runSimulationStep runNextEvent silentMode = .ok (b, s2)) :
    ∃ s1, runNextEvent { s with status := ESimulationStatus.PRODUCTION } = .ok s1 ∧
      s2.eventCount = s1.eventCount ∧ s2.endEventCount = s1.endEventCount ∧
      b = decide (s1.eventCount < s1.endEventCount) := by
  unfold SimulationRun.runSimulationStep at h
  split_ifs at h with hst
  simp only at h
  cases hr : runNextEvent { s with status := ESimulationStatus.PRODUCTION } with
  | error msg => rw [hr] at h; simp at h
  | ok s1 =>
    rw [hr] at h
    simp only [Except.ok.injEq, Prod.mk.injEq] at h
    obtain ⟨hb, hs⟩ := h
    refine ⟨s1, rfl, ?_, ?_, ?_⟩
    · rw [← hs]; split_ifs <;> rfl
    · rw [← hs]; split_ifs <;> rfl
    · rw [← hb]
      split_ifs <;> rfl

/-- C14: `Simulation::simShutdown` sets `endEventCount` and `nextPrintEvent` to
the current `eventCount` and changes no other member; and when executing an
event never decreases `eventCount` (and leaves the threshold alone, or sets it
to the event count as a halt does), the next call of `runSimulationStep` never
returns true, and it returns false whenever the simulation is initialised or in
production and the event executes without an exception. -/
theorem C14_simShutdown_stops_run {σ : Type}
    (runNextEvent : SimulationRun σ → Except String (SimulationRun σ))
    (silentMode : Bool) (s : SimulationRun σ)
    (hmono : NeverDecreasesEventCount runNextEvent) (hend : KeepsOrHalts runNextEvent) :
    s.simShutdown =
      { s with endEventCount := s.eventCount, nextPrintEvent := s.eventCount } ∧
    (∀ b s2, s.simShutdown.runSimulationStep runNextEvent silentMode = .ok (b, s2) →
      b = false) ∧
    ((s.status = ESimulationStatus.INITIALISED ∨ s.status = ESimulationStatus.PRODUCTION) →
      (∃ s1, runNextEvent { s.simShutdown with status := ESimulationStatus.PRODUCTION }
        = .ok s1) →
      ∃ s2, s.simShutdown.runSimulationStep runNextEvent silentMode = .ok (false, s2)) := by
  have key : ∀ b s2, s.simShutdown.runSimulationStep runNextEvent silentMode = .ok (b, s2) →
      b = false := by
    intro b s2 h
    obtain ⟨s1, hr, _, _, hb⟩ := runSimulationStep_eventCount runNextEvent silentMode _ b s2 h
    have h1 := hmono _ s1 hr
    have h2 := hend _ s1 hr
    simp only [SimulationRun.simShutdown] at h1 h2
    rw [hb]
    apply decide_eq_false
    rcases h2 with h2 | h2 <;> omega
  refine ⟨rfl, key, ?_⟩
  rintro hst ⟨s1, hr⟩
  have hst' : ¬ (s.simShutdown.status ≠ ESimulationStatus.INITIALISED ∧
      s.simShutdown.status ≠ ESimulationStatus.PRODUCTION) := by
    simp only [SimulationRun.simShutdown]
    rcases hst with h | h <;> simp [h]
  have hret : ∃ b s2, s.simShutdown.runSimulationStep runNextEvent silentMode = .ok (b, s2) := by
    unfold SimulationRun.runSimulationStep
    rw [if_neg hst']
    simp only [hr]
    exact ⟨_, _, rfl⟩
  obtain ⟨b, s2, h⟩ := hret
  have hb := key b s2 h
  rw [hb] at h
  exact ⟨s2, h⟩

/-- C14 on a simulation in production with an event that counts one event: after
`simShutdown` the step returns false. -/
theorem C14_simShutdown_stops_run_witness :
    NeverDecreasesEventCount countingEvent ∧ KeepsOrHalts countingEvent ∧
    exampleRun.simShutdown.endEventCount = 120 ∧
    ∃ s2, exampleRun.simShutdown.runSimulationStep countingEvent false = .ok (false, s2) := by
  have hmono : NeverDecreasesEventCount countingEvent := by
    intro s s1 h
    simp only [countingEvent, Except.ok.injEq] at h
    rw [← h]
    exact Nat.le_succ _
  have hend : KeepsOrHalts countingEvent := by
    intro s s1 h
    simp only [countingEvent, Except.ok.injEq] at h
    rw [← h]
    exact Or.inl rfl
  exact ⟨hmono, hend, rfl,
    (C14_simShutdown_stops_run countingEvent false exampleRun hmono hend).2.2
      (Or.inr rfl) ⟨_, rfl⟩⟩

/-! ### `CSFastSingle::rescaleTimes` -/

theorem scaleTime_coe {K : Type} [LinearOrderedField K] (scale t : K) :
    scaleTime scale (t : WithTop K) = some ((t * scale : K) : WithTop K) := rfl

theorem scaleTime_top {K : Type} [LinearOrderedField K] (scale : K) (h : 0 < scale) :
    scaleTime scale (⊤ : WithTop K) = some ⊤ := by
  show (if 0 < scale then some (⊤ : WithTop K) else none) = some ⊤
  rw [if_pos h]

theorem scaleTime_inverse {K : Type} [LinearOrderedField K] (scale : K) (hs : scale ≠ 0)
    (dt dt1 : WithTop K) (h : scaleTime scale dt = some dt1) :
    scaleTime (1 / scale) dt1 = some dt := by
  induction dt using WithTop.recTopCoe with
  | top =>
    by_cases hpos : 0 < scale
    · rw [scaleTime_top scale hpos] at h
      cases h
      exact scaleTime_top _ (one_div_pos.mpr hpos)
    · have : scaleTime scale (⊤ : WithTop K) = none := by
        show (if 0 < scale then some (⊤ : WithTop K) else none) = none
        rw [if_neg hpos]
      rw [this] at h
      cases h
  | coe t =>
    rw [scaleTime_coe] at h
    cases h
    rw [scaleTime_coe]
    congr 2
    field_simp

theorem scaleTime_total {K : Type} [LinearOrderedField K] (scale : K) (dt : WithTop K)
    (h : 0 < scale ∨ dt ≠ ⊤) : ∃ dt1, scaleTime scale dt = some dt1 := by
  induction dt using WithTop.recTopCoe with
  | top =>
    rcases h with h | h
    · exact ⟨⊤, scaleTime_top scale h⟩
    · exact absurd rfl h
  | coe t => exact ⟨_, scaleTime_coe scale t⟩

theorem forEach_forall₂ {α : Type} (f : α → Option α) :
    ∀ l l1 : List α, forEach f l = some l1 → List.Forall₂ (fun a b => f a = some b) l l1
  | [], l1, h => by
    simp only [forEach, Option.some.injEq] at h
    subst h
    exact List.Forall₂.nil
  | e :: rest, l1, h => by
    simp only [forEach] at h
    cases he : f e with
    | none => rw [he] at h; cases h
    | some e1 =>
      rw [he] at h
      cases hr : forEach f rest with
      | none => rw [hr] at h; cases h
      | some rest1 =>
        rw [hr] at h
        simp only [Option.some.injEq] at h
        subst h
        exact List.Forall₂.cons he (forEach_forall₂ f rest rest1 hr)

theorem forEach_of_forall₂ {α : Type} (f : α → Option α) (l l1 : List α)
    (h : List.Forall₂ (fun a b => f a = some b) l l1) : forEach f l = some l1 := by
  induction h with
  | nil => rfl
  | cons hab _ ih => simp only [forEach, hab, ih]

theorem forEach_inverse {α : Type} (f g : α → Option α)
    (hfg : ∀ a b, f a = some b → g b = some a) (l l1 : List α)
    (h : forEach f l = some l1) : forEach g l1 = some l := by
  have h2 := forEach_forall₂ f l l1 h
  apply forEach_of_forall₂
  exact (h2.imp (fun a b hab => hfg a b hab)).flip

theorem forEach_total {α : Type} (f : α → Option α) (l : List α)
    (hf : ∀ a ∈ l, ∃ b, f a = some b) : ∃ l1, forEach f l = some l1 := by
  induction l with
  | nil => exact ⟨[], rfl⟩
  | cons e rest ih =>
    obtain ⟨e1, he⟩ := hf e (List.mem_cons_self _ _)
    obtain ⟨rest1, hr⟩ := ih (fun a ha => hf a (List.mem_cons_of_mem _ ha))
    exact ⟨e1 :: rest1, by simp only [forEach, he, hr]⟩

theorem IntEvent_scaleTime_eq (scale : ℚ) (e e1 : IntEvent) :
    IntEvent.scaleTime scale e = some e1 ↔
      e1 = { e with dt := e1.dt } ∧ scaleTime scale e.dt = some e1.dt := by
  unfold IntEvent.scaleTime
  constructor
  · intro h
    cases hd : scaleTime scale e.dt with
    | none => rw [hd] at h; cases h
    | some t =>
      rw [hd] at h
      simp only [Option.map_some', Option.some.injEq] at h
      subst h
      exact ⟨rfl, rfl⟩
  · rintro ⟨h1, h2⟩
    rw [h2, h1]
    rfl

theorem CGlobEvent_scaleTime_eq (scale : ℚ) (e e1 : CGlobEvent) :
    CGlobEvent.scaleTime scale e = some e1 ↔
      e1 = { e with dt := e1.dt } ∧ scaleTime scale e.dt = some e1.dt := by
  unfold CGlobEvent.scaleTime
  constructor
  · intro h
    cases hd : scaleTime scale e.dt with
    | none => rw [hd] at h; cases h
    | some t =>
      rw [hd] at h
      simp only [Option.map_some', Option.some.injEq] at h
      subst h
      exact ⟨rfl, rfl⟩
  · rintro ⟨h1, h2⟩
    rw [h2, h1]
    rfl

theorem rescaleTimes_eq (scale : ℚ) (s s1 : CSFastSingle) :
    s.rescaleTimes scale = some s1 ↔
      forEach (IntEvent.scaleTime scale) s.intEventQueue = some s1.intEventQueue ∧
      forEach (CGlobEvent.scaleTime scale) s.globEventQueue = some s1.globEventQueue := by
  have hg : (if !s.globEventQueue.isEmpty then
        forEach (CGlobEvent.scaleTime scale) s.globEventQueue
      else some s.globEventQueue) = forEach (CGlobEvent.scaleTime scale) s.globEventQueue := by
    cases hq : s.globEventQueue with
    | nil => rfl
    | cons g rest => rfl
  unfold CSFastSingle.rescaleTimes
  simp only [hg]
  cases forEach (CGlobEvent.scaleTime scale) s.globEventQueue with
  | none => simp
  | some g =>
    cases forEach (IntEvent.scaleTime scale) s.intEventQueue with
    | none => simp
    | some i =>
      cases s1
      simp [and_comm]

theorem rescaleTimes_inverse (scale : ℚ) (hs : scale ≠ 0) (s s1 : CSFastSingle)
    (h : s.rescaleTimes scale = some s1) : s1.rescaleTimes (1 / scale) = some s := by
  rw [rescaleTimes_eq] at h ⊢
  refine ⟨forEach_inverse _ _ ?_ _ _ h.1, forEach_inverse _ _ ?_ _ _ h.2⟩
  · intro a b hab
    rw [IntEvent_scaleTime_eq] at hab ⊢
    have h2 := scaleTime_inverse scale hs _ _ hab.2
    refine ⟨?_, h2⟩
    rw [hab.1]
  · intro a b hab
    rw [CGlobEvent_scaleTime_eq] at hab ⊢
    have h2 := scaleTime_inverse scale hs _ _ hab.2
    refine ⟨?_, h2⟩
    rw [hab.1]

theorem rescaleTimes_total (scale : ℚ) (s : CSFastSingle)
    (h : 0 < scale ∨
      ((∀ e ∈ s.intEventQueue, e.dt ≠ ⊤) ∧ (∀ g ∈ s.globEventQueue, g.dt ≠ ⊤))) :
    ∃ s1, s.rescaleTimes scale = some s1 := by
  have hi : ∃ i, forEach (IntEvent.scaleTime scale) s.intEventQueue = some i := by
    apply forEach_total
    intro e he
    obtain ⟨t, ht⟩ := scaleTime_total scale e.dt (h.imp id (fun h => h.1 e he))
    exact ⟨{ e with dt := t }, (IntEvent_scaleTime_eq _ _ _).mpr ⟨rfl, ht⟩⟩
  have hg : ∃ g, forEach (CGlobEvent.scaleTime scale) s.globEventQueue = some g := by
    apply forEach_total
    intro e he
    obtain ⟨t, ht⟩ := scaleTime_total scale e.dt (h.imp id (fun h => h.2 e he))
    exact ⟨{ e with dt := t }, (CGlobEvent_scaleTime_eq _ _ _).mpr ⟨rfl, ht⟩⟩
  obtain ⟨i, hi⟩ := hi
  obtain ⟨g, hg⟩ := hg
  exact ⟨⟨i, g⟩, (rescaleTimes_eq _ _ _).mpr ⟨hi, hg⟩⟩

theorem Signal_run_slots {F : Type} : ∀ (ops : List (SigOp F)) (s : Signal F),
    (s.run ops).1.slots =
      s.slots.filter (fun p => !(ops.any (SigOp.isDisconnectOf p.1))) ++
        liveSubscriptions s.count ops
  | [], s => by simp [Signal.run, liveSubscriptions]
  | SigOp.Connect func :: ops, s => by
    simp only [Signal.run, liveSubscriptions]
    rw [Signal_run_slots ops (s.Connect func).2]
    simp only [Signal.Connect, List.filter_append, List.any_cons, SigOp.isDisconnectOf,
      Bool.false_or, List.append_assoc]
    congr 1
    generalize (s.count + 1) % 18446744073709551616 = h
    simp only [List.filter]
    cases hb : ops.any (SigOp.isDisconnectOf h) <;> simp
  | SigOp.Disconnect id :: ops, s => by
    simp only [Signal.run, liveSubscriptions]
    rw [Signal_run_slots ops (s.Disconnect id)]
    simp only [Signal.Disconnect, List.filter_filter, List.any_cons, SigOp.isDisconnectOf]
    congr 1
    apply List.filter_congr
    intro p _
    generalize ops.any (SigOp.isDisconnectOf p.1) = b
    by_cases h1 : p.1 = id
    · simp [h1]
    · have h2 : ¬ id = p.1 := fun h => h1 h.symm
      have e1 : (p.1 == id) = false := by simp [h1]
      have e2 : (id == p.1) = false := by simp [h2]
      rw [e1, e2]
      cases b <;> rfl

theorem Signal_run_handles {F : Type} : ∀ (ops : List (SigOp F)) (s : Signal F),
    (s.run ops).2 =
      (List.range (ops.countP SigOp.isConnect)).map (fun i => (s.count + 1 + i) % 2 ^ 64)
  | [], s => by simp [Signal.run]
  | SigOp.Connect func :: ops, s => by
    simp only [Signal.run]
    rw [Signal_run_handles ops (s.Connect func).2]
    have hc : (SigOp.Connect func :: ops).countP SigOp.isConnect
        = ops.countP SigOp.isConnect + 1 := by
      simp [List.countP_cons, SigOp.isConnect]
    rw [hc, List.range_succ_eq_map, List.map_cons, List.map_map]
    simp only [Signal.Connect, Nat.add_zero]
    congr 1
    apply List.map_congr_left
    intro i _
    simp only [Function.comp]
    omega
  | SigOp.Disconnect id :: ops, s => by
    simp only [Signal.run]
    rw [Signal_run_handles ops (s.Disconnect id)]
    have hc : (SigOp.Disconnect id :: ops).countP SigOp.isConnect
        = ops.countP SigOp.isConnect := by
      simp [List.countP_cons, SigOp.isConnect]
    rw [hc]
    rfl

theorem Signal_handles_nodup (count n : Nat) (hn : n < 2 ^ 64) :
    ((List.range n).map (fun i => (count + 1 + i) % 2 ^ 64)).Nodup := by
  apply List.Nodup.map_on _ (List.nodup_range n)
  intro i hi j hj hij
  rw [List.mem_range] at hi hj
  omega

theorem liveSubscriptions_handles {F : Type} : ∀ (ops : List (SigOp F)) (count : Nat),
    List.Sublist ((liveSubscriptions count ops).map Prod.fst)
      ((List.range (ops.countP SigOp.isConnect)).map (fun i => (count + 1 + i) % 2 ^ 64))
  | [], count => by simp [liveSubscriptions]
  | SigOp.Connect func :: ops, count => by
    have hc : (SigOp.Connect func :: ops).countP SigOp.isConnect
        = ops.countP SigOp.isConnect + 1 := by
      simp [List.countP_cons, SigOp.isConnect]
    have ih := liveSubscriptions_handles ops ((count + 1) % 2 ^ 64)
    have hm : (List.range (ops.countP SigOp.isConnect)).map
          (fun i => ((count + 1) % 2 ^ 64 + 1 + i) % 2 ^ 64)
        = (List.range (ops.countP SigOp.isConnect)).map
          ((fun i => (count + 1 + i) % 2 ^ 64) ∘ Nat.succ) := by
      apply List.map_congr_left
      intro i _
      simp only [Function.comp]
      omega
    rw [hm] at ih
    rw [hc, List.range_succ_eq_map, List.map_cons, List.map_map]
    simp only [liveSubscriptions, Nat.add_zero]
    split_ifs
    · exact List.Sublist.cons _ ih
    · exact List.Sublist.cons₂ _ ih
  | SigOp.Disconnect id :: ops, count => by
    have hc : (SigOp.Disconnect id :: ops).countP SigOp.isConnect
        = ops.countP SigOp.isConnect := by
      simp [List.countP_cons, SigOp.isConnect]
    rw [hc]
    exact liveSubscriptions_handles ops count

theorem Signal_Disconnect_length {F : Type} (h : Nat) : ∀ (slots : List (Nat × F)),
    (slots.map Prod.fst).Nodup →
    slots.length ≤ (slots.filter (fun nbs => !(nbs.1 == h))).length + 1
  | [], _ => by simp
  | p :: rest, hn => by
    rw [List.map_cons, List.nodup_cons] at hn
    by_cases hp : p.1 = h
    · have hrest : rest.filter (fun nbs => !(nbs.1 == h)) = rest := by
        apply List.filter_eq_self.mpr
        intro q hq
        have : q.1 ≠ h := by
          intro hqh
          exact hn.1 (by rw [hp, ← hqh]; exact List.mem_map_of_mem _ hq)
        simp [this]
      have e : (p.1 == h) = true := by simp [hp]
      simp only [List.filter, e, Bool.not_true]
      rw [hrest]
      simp
    · have e : (p.1 == h) = false := by simp [hp]
      have ih := Signal_Disconnect_length h rest hn.2
      simp only [List.filter, e, Bool.not_false, List.length_cons]
      omega

/-- C18: on a neighbour-list signal, whatever value the counter starts from,
the slot list after any sequence of `Connect` and `Disconnect` calls is exactly
the list of the subscriptions connected and not yet disconnected, in their
registration order.  `Connect` returns the counter plus one (as a `size_t`) and
appends its slot; while fewer than `2^64` `Connect` calls have been made the
handles returned are pairwise different and so are the handles of the slots.
`Disconnect(h)` removes exactly the slots with handle `h` (at most one when the
handles are different), keeps the order of the others, leaves the counter alone
and is a no-op for a handle no slot has.  The cell-change, new-neighbour and
re-init signals run this same code, each on its own counter and vector. -/
theorem C18_signal_slots_and_handles {F G : Type} (count : Nat) (ops : List (SigOp F)) :
    ((Signal.new count).run ops).1.slots = liveSubscriptions count ops ∧
    (∀ (s : Signal F) (func : F),
      (s.Connect func).1 = (s.count + 1) % 2 ^ 64 ∧
      (s.Connect func).2.count = (s.Connect func).1 ∧
      (s.Connect func).2.slots = s.slots ++ [((s.Connect func).1, func)]) ∧
    (ops.countP SigOp.isConnect < 2 ^ 64 →
      ((Signal.new count).run ops).2.Nodup ∧
      (((Signal.new count).run ops).1.slots.map Prod.fst).Nodup) ∧
    (∀ (s : Signal F) (h : Nat),
      (∀ p, p ∈ (s.Disconnect h).slots ↔ p ∈ s.slots ∧ p.1 ≠ h) ∧
      List.Sublist (s.Disconnect h).slots s.slots ∧
      (s.Disconnect h).count = s.count ∧
      ((s.slots.map Prod.fst).Nodup → s.slots.length ≤ (s.Disconnect h).slots.length + 1) ∧
      ((∀ p ∈ s.slots, p.1 ≠ h) → s.Disconnect h = s)) ∧
    (∀ (nl : GNeighbourList F G) (f : F) (g : G) (id : Nat),
      nl.ConnectSigCellChangeNotify f = ((nl.sigCellChangeNotify.Connect f).1,
        { nl with sigCellChangeNotify := (nl.sigCellChangeNotify.Connect f).2 }) ∧
      nl.DisconnectSigCellChangeNotify id =
        { nl with sigCellChangeNotify := nl.sigCellChangeNotify.Disconnect id } ∧
      nl.ConnectSigNewNeighbourNotify f = ((nl.sigNewNeighbourNotify.Connect f).1,
        { nl with sigNewNeighbourNotify := (nl.sigNewNeighbourNotify.Connect f).2 }) ∧
      nl.DisconnectSigNewNeighbourNotify id =
        { nl with sigNewNeighbourNotify := nl.sigNewNeighbourNotify.Disconnect id } ∧
      nl.ConnectSigReInitNotify g = ((nl.sigReInitNotify.Connect g).1,
        { nl with sigReInitNotify := (nl.sigReInitNotify.Connect g).2 }) ∧
      nl.DisconnectSigReInitNotify id =
        { nl with sigReInitNotify := nl.sigReInitNotify.Disconnect id }) := by
  have hslots : ((Signal.new count).run ops).1.slots = liveSubscriptions count ops := by
    rw [Signal_run_slots]
    simp [Signal.new]
  refine ⟨hslots, fun s func => ⟨rfl, rfl, rfl⟩, ?_, ?_,
    fun nl f g id => ⟨rfl, rfl, rfl, rfl, rfl, rfl⟩⟩
  · intro hn
    have hh := Signal_handles_nodup count _ hn
    refine ⟨?_, ?_⟩
    · rw [Signal_run_handles]
      exact hh
    · rw [hslots]
      exact (liveSubscriptions_handles ops count).nodup hh
  · intro s h
    refine ⟨?_, ?_, rfl, ?_, ?_⟩
    · intro p
      simp [Signal.Disconnect, List.mem_filter]
    · exact List.filter_sublist _
    · intro hn
      exact Signal_Disconnect_length h s.slots hn
    · intro hp
      cases s with
      | mk c slots =>
        simp only [Signal.Disconnect, Signal.mk.injEq, true_and]
        apply List.filter_eq_self.mpr
        intro q hq
        have := hp q hq
        simp [this]

/-- C18 on a signal whose counter starts at 7: the two `Connect` calls return
the different handles 8 and 9. -/
theorem C18_signal_slots_and_handles_witness :
    exampleSigOps.countP SigOp.isConnect < 2 ^ 64 ∧
    ((Signal.new 7).run exampleSigOps).2.Nodup ∧
    liveSubscriptions 7 exampleSigOps = [(9, "plugin")] :=
  ⟨by decide,
    ((@C18_signal_slots_and_handles String Unit 7 exampleSigOps).2.2.1 (by decide)).1, rfl⟩

/-! ### `Simulation::writeXMLfile` -/

/-- C20, counterexample: with `round` set, `writeXMLfile` in an initialised
simulation sets the precision 13, which is not `digits10 - 1 = 14`. -/
theorem C20_round_precision_counterexample :
    writeXMLfile ESimulationStatus.INITIALISED true
      = .ok { scientific := true, precision := 13 } ∧
    (13 : Int) ≠ digits10 - 1 :=
  ⟨rfl, by decide⟩

/-- C20, amended: in a simulation that is initialised or in production,
`writeXMLfile` writes floating-point values in scientific format with precision
`digits10 - 1` (14) when `round` is false and `digits10 - 2` (13) when `round`
is true. -/
theorem C20_writeXMLfile_precision (status : ESimulationStatus) (round : Bool)
    (hst : status = ESimulationStatus.INITIALISED ∨ status = ESimulationStatus.PRODUCTION) :
    writeXMLfile status round =
      .ok { scientific := true,
            precision := if round then digits10 - 2 else digits10 - 1 } ∧
    writeXMLfile status false = .ok { scientific := true, precision := 14 } ∧
    writeXMLfile status true = .ok { scientific := true, precision := 13 } := by
  rcases hst with h | h <;> subst h <;> cases round <;> exact ⟨rfl, rfl, rfl⟩

/-- C20 (amended) in a simulation in production, without rounding. -/
theorem C20_writeXMLfile_precision_witness :
    writeXMLfile ESimulationStatus.PRODUCTION false
      = .ok { scientific := true, precision := 14 } :=
  (C20_writeXMLfile_precision ESimulationStatus.PRODUCTION false (Or.inr rfl)).2.1

/-! ### `Simulation::replexerSwap` -/

theorem replexerSwap_eq {K Sch : Type} [LinearOrderedField K] (sqrt : K → K)
    (rescaleTimes : K → Sch → Option Sch) (self other : Simulation K Sch) (q1 q2 : Sch)
    (h2 : rescaleTimes (sqrt (other.temperature / self.temperature)) other.ptrScheduler
      = some q2)
    (h1 : rescaleTimes (1 / sqrt (other.temperature / self.temperature)) self.ptrScheduler
      = some q1) :
    self.replexerSwap sqrt rescaleTimes other = some
      ({ addr := self.addr, systemTime := other.systemTime, eventCount := other.eventCount,
         systems := other.systems.map (SystemEvent.changeSystem self.addr),
         ensemble := other.ensemble,
         particles := self.particles.map
           (ParticleK.scaleVelocity (sqrt (other.temperature / self.temperature))),
         ptrScheduler := q1 },
       { addr := other.addr, systemTime := self.systemTime, eventCount := self.eventCount,
         systems := self.systems.map (SystemEvent.changeSystem other.addr),
         ensemble := self.ensemble,
         particles := other.particles.map
           (ParticleK.scaleVelocity (1 / sqrt (other.temperature / self.temperature))),
         ptrScheduler := q2 }) := by
  unfold Simulation.replexerSwap
  simp only [h1, h2]

theorem scaleVelocity_inverse {K : Type} [LinearOrderedField K] (a b : K) (hab : a * b = 1)
    (ps : List (ParticleK K)) :
    (ps.map (ParticleK.scaleVelocity a)).map (ParticleK.scaleVelocity b) = ps := by
  rw [List.map_map]
  conv_rhs => rw [← List.map_id ps]
  apply List.map_congr_left
  intro p _
  obtain ⟨ID, x, y, z⟩ := p
  simp only [Function.comp, ParticleK.scaleVelocity, mul_assoc, hab, mul_one, id]

theorem IsSqrtAt_pos {K : Type} [LinearOrderedField K] (sqrt : K → K) (x : K)
    (h : IsSqrtAt sqrt x) (hx : 0 < x) : 0 < sqrt x := by
  rcases lt_or_eq_of_le h.1 with hlt | heq
  · exact hlt
  · exfalso
    have h2 := h.2
    rw [← heq, mul_zero] at h2
    exact absurd h2 (ne_of_lt hx)

theorem one_div_sqrt {K : Type} [LinearOrderedField K] (sqrt : K → K) (Ts To : K)
    (hTs : 0 < Ts) (hTo : 0 < To) (h1 : IsSqrtAt sqrt (To / Ts)) (h2 : IsSqrtAt sqrt (Ts / To)) :
    1 / sqrt (To / Ts) = sqrt (Ts / To) := by
  have ha := IsSqrtAt_pos sqrt _ h1 (div_pos hTo hTs)
  have hsq : 1 / sqrt (To / Ts) * (1 / sqrt (To / Ts)) = sqrt (Ts / To) * sqrt (Ts / To) := by
    rw [h2.2, div_mul_div_comm, one_mul, h1.2, one_div_div]
  exact (mul_self_inj (le_of_lt (one_div_pos.mpr ha)) h2.1).mp hsq

/-- C17: for positive ensemble temperatures, exact square roots of the two
temperature ratios, schedulers whose `rescaleTimes` returns and is undone by the
reciprocal scale, and system events that point back to their simulation,
applying `Simulation::replexerSwap` twice to the same two simulations restores
both: the second swap returns the two simulations as they were before the
first. -/
theorem C17_replexerSwap_twice_restores {K Sch : Type} [LinearOrderedField K]
    (sqrt : K → K) (rescaleTimes : K → Sch → Option Sch) (self other : Simulation K Sch)
    (hTs : 0 < self.temperature) (hTo : 0 < other.temperature)
    (h1 : IsSqrtAt sqrt (other.temperature / self.temperature))
    (h2 : IsSqrtAt sqrt (self.temperature / other.temperature))
    (hret : RescaleReturns rescaleTimes) (hundo : RescaleUndoes rescaleTimes)
    (ho1 : OwnsSystems self) (ho2 : OwnsSystems other) :
    ∃ r, self.replexerSwap sqrt rescaleTimes other = some r ∧
      r.1.replexerSwap sqrt rescaleTimes r.2 = some (self, other) := by
  have ha := IsSqrtAt_pos sqrt _ h1 (div_pos hTo hTs)
  have hb := IsSqrtAt_pos sqrt _ h2 (div_pos hTs hTo)
  have hinv := one_div_sqrt sqrt _ _ hTs hTo h1 h2
  have hinv2 := one_div_sqrt sqrt _ _ hTo hTs h2 h1
  obtain ⟨q2, hq2⟩ := hret _ other.ptrScheduler ha
  obtain ⟨q1, hq1⟩ := hret _ self.ptrScheduler (one_div_pos.mpr ha)
  have hback2 := hundo _ _ _ ha hq2
  have hq1b := hq1
  rw [hinv] at hq1b
  have hback1 := hundo _ _ _ hb hq1b
  rw [hinv] at hback2
  have hab : sqrt (other.temperature / self.temperature)
      * sqrt (self.temperature / other.temperature) = 1 := by
    rw [← hinv]
    field_simp
  have hba : 1 / sqrt (other.temperature / self.temperature)
      * (1 / sqrt (self.temperature / other.temperature)) = 1 := by
    rw [div_mul_div_comm, one_mul, hab, div_one]
  have hsys : ∀ (a b : Nat) (l : List (SystemEvent K)), (∀ e ∈ l, e.Sim = a) →
      (l.map (SystemEvent.changeSystem b)).map (SystemEvent.changeSystem a) = l := by
    intro a b l hl
    rw [List.map_map]
    conv_rhs => rw [← List.map_id l]
    apply List.map_congr_left
    intro e he
    have := hl e he
    cases e
    simp only [Function.comp, SystemEvent.changeSystem, id] at this ⊢
    rw [this]
  refine ⟨_, replexerSwap_eq sqrt rescaleTimes self other q1 q2 hq2 hq1, ?_⟩
  rw [replexerSwap_eq sqrt rescaleTimes _ _ self.ptrScheduler other.ptrScheduler]
  · simp only [Simulation.temperature] at hab hba ⊢
    rw [scaleVelocity_inverse _ _ hab, scaleVelocity_inverse _ _ hba, hsys _ _ _ ho1,
      hsys _ _ _ ho2]
  · exact hback2
  · simp only [Simulation.temperature]
    exact hback1

/-- C17 on two two-particle simulations at the temperatures 1 and 4 with
fast-single schedulers: the swap returns and a second swap restores both. -/
theorem C17_replexerSwap_twice_restores_witness :
    IsSqrtAt sqrtTable (exampleReplica2.temperature / exampleReplica1.temperature) ∧
    IsSqrtAt sqrtTable (exampleReplica1.temperature / exampleReplica2.temperature) ∧
    OwnsSystems exampleReplica1 ∧ OwnsSystems exampleReplica2 ∧
    ∃ r, exampleReplica1.replexerSwap sqrtTable CSFastSingle.rescaleTimes exampleReplica2
        = some r ∧
      r.1.replexerSwap sqrtTable CSFastSingle.rescaleTimes r.2
        = some (exampleReplica1, exampleReplica2) := by
  have hT1 : (0 : ℚ) < exampleReplica1.temperature := by
    show (0 : ℚ) < 1
    exact one_pos
  have hT2 : (0 : ℚ) < exampleReplica2.temperature := by
    show (0 : ℚ) < 4
    norm_num
  have h1 : IsSqrtAt sqrtTable (exampleReplica2.temperature / exampleReplica1.temperature) := by
    show IsSqrtAt sqrtTable ((4 : ℚ) / 1)
    norm_num [IsSqrtAt, sqrtTable]
  have h2 : IsSqrtAt sqrtTable (exampleReplica1.temperature / exampleReplica2.temperature) := by
    show IsSqrtAt sqrtTable ((1 : ℚ) / 4)
    norm_num [IsSqrtAt, sqrtTable]
  have ho1 : OwnsSystems exampleReplica1 := by
    intro e he
    simp only [exampleReplica1, List.mem_singleton] at he
    rw [he]
    rfl
  have ho2 : OwnsSystems exampleReplica2 := by
    intro e he
    simp [exampleReplica2] at he
  exact ⟨h1, h2, ho1, ho2,
    C17_replexerSwap_twice_restores sqrtTable CSFastSingle.rescaleTimes
      exampleReplica1 exampleReplica2 hT1 hT2 h1 h2
      (fun scale q hs => rescaleTimes_total scale q (Or.inl hs))
      (fun scale q q1 hs h => rescaleTimes_inverse scale (ne_of_gt hs) q q1 h) ho1 ho2⟩

/-! ### `Property::rescaleUnit` -/

theorem exactPow_ne_zero (x : ℚ) (n : Int) (hx : x ≠ 0) : exactPow x n ≠ 0 :=
  zpow_ne_zero n hx

theorem exactPow_zero_base (n : Int) (hn : 0 < n) : exactPow 0 n = 0 :=
  zero_zpow n (ne_of_gt hn)

theorem flushPow_underflow : flushPow (1 / 10 ^ 200) 2 = 0 := by
  unfold flushPow
  rw [if_pos]
  rw [abs_of_nonneg (by positivity)]
  rw [show ((2 : ℚ) ^ (-1075 : Int)) = 1 / 2 ^ 1075 by
    rw [zpow_neg, one_div]
    norm_cast]
  rw [show ((1 / 10 ^ 200 : ℚ) ^ (2 : Int)) = 1 / 10 ^ 400 by
    rw [zpow_ofNat]
    norm_num]
  apply one_div_lt_one_div_of_lt (by positivity)
  norm_num

/-- C21, counterexample: with the rescale factor 0 on units of length the
factor `std::pow(0, 1)` is 0; `NumericProperty` multiplies its value 3 by it,
but `ParticleProperty` leaves its values 1 and 2 as they are instead of
multiplying them by 0. -/
theorem C21_zero_factor_counterexample :
    exactPow 0 (unitsOfLength.getUnitsPower Dimension.L) = 0 ∧
    NumericProperty.rescaleUnit exactPow Dimension.L 0 { _units := unitsOfLength, _val := 3 }
      = { _units := unitsOfLength, _val := 0 } ∧
    ParticleProperty.rescaleUnit exactPow Dimension.L 0
        { _units := unitsOfLength, _name := "D", _values := [1, 2] }
      = { _units := unitsOfLength, _name := "D", _values := [1, 2] } ∧
    ([1, 2] : List ℚ) ≠ [1 * 0, 2 * 0] := by
  have hp : exactPow 0 (unitsOfLength.getUnitsPower Dimension.L) = 0 :=
    exactPow_zero_base 1 one_pos
  refine ⟨hp, ?_, ?_, ?_⟩
  · unfold NumericProperty.rescaleUnit
    simp only [hp, mul_zero]
  · unfold ParticleProperty.rescaleUnit
    simp only [hp, ne_eq, not_true_eq_false, if_false]
  · norm_num

/-- C21, amended: for every unit dimension and every rescale factor,
`rescaleUnit` computes the factor `std::pow(rescale, units power of dim)`.
`NumericProperty` multiplies its value by the factor.  `ParticleProperty`
multiplies every per-particle value by the factor when the computed factor is
not zero, and leaves every value unchanged when it is zero.  The exact power is
zero only for the rescale factor 0 with a positive power; a computed factor is
also zero when `std::pow` underflows. -/
theorem C21_rescaleUnit_raises_factor (pow : ℚ → Int → ℚ) (dim : Dimension) (rescale : ℚ)
    (num : NumericProperty) (part : ParticleProperty) :
    num.rescaleUnit pow dim rescale
      = { num with _val := num._val * pow rescale (num._units.getUnitsPower dim) } ∧
    (pow rescale (part._units.getUnitsPower dim) ≠ 0 →
      part.rescaleUnit pow dim rescale
        = { part with _values :=
            part._values.map (fun v => v * pow rescale (part._units.getUnitsPower dim)) }) ∧
    (pow rescale (part._units.getUnitsPower dim) = 0 →
      part.rescaleUnit pow dim rescale = part ∧
      (num._units = part._units → (num.rescaleUnit pow dim rescale)._val = 0)) ∧
    (rescale ≠ 0 → exactPow rescale (part._units.getUnitsPower dim) ≠ 0) ∧
    (0 < part._units.getUnitsPower dim → exactPow 0 (part._units.getUnitsPower dim) = 0) := by
  refine ⟨rfl, ?_, ?_, exactPow_ne_zero _ _, exactPow_zero_base _⟩
  · intro hf
    unfold ParticleProperty.rescaleUnit
    simp only [ne_eq, hf, not_false_eq_true, if_true]
  · intro hf
    refine ⟨?_, ?_⟩
    · unfold ParticleProperty.rescaleUnit
      simp only [ne_eq, hf, not_true_eq_false, if_false]
    · intro hu
      unfold NumericProperty.rescaleUnit
      simp only [hu, hf, mul_zero]

/-- C21 (amended) for the rescale factor 2 on units of length, where the
factor is 2 and both kinds of property are multiplied by it, and for the
rescale factor `10^-200` on units of area with a `std::pow` that underflows:
the computed factor is zero, the per-particle values 1 and 2 stay and the value
3 of the `NumericProperty` becomes 0. -/
theorem C21_rescaleUnit_raises_factor_witness :
    exactPow 2 (unitsOfLength.getUnitsPower Dimension.L) ≠ 0 ∧
    NumericProperty.rescaleUnit exactPow Dimension.L 2 { _units := unitsOfLength, _val := 3 }
      = { _units := unitsOfLength,
          _val := 3 * exactPow 2 (unitsOfLength.getUnitsPower Dimension.L) } ∧
    ParticleProperty.rescaleUnit exactPow Dimension.L 2
        { _units := unitsOfLength, _name := "D", _values := [1, 2] }
      = { _units := unitsOfLength, _name := "D",
          _values := [1 * exactPow 2 (unitsOfLength.getUnitsPower Dimension.L),
                      2 * exactPow 2 (unitsOfLength.getUnitsPower Dimension.L)] } ∧
    flushPow (1 / 10 ^ 200) (unitsOfArea.getUnitsPower Dimension.L) = 0 ∧
    ParticleProperty.rescaleUnit flushPow Dimension.L (1 / 10 ^ 200)
        { _units := unitsOfArea, _name := "A", _values := [1, 2] }
      = { _units := unitsOfArea, _name := "A", _values := [1, 2] } ∧
    (NumericProperty.rescaleUnit flushPow Dimension.L (1 / 10 ^ 200)
      { _units := unitsOfArea, _val := 3 })._val = 0 :=
  ⟨exactPow_ne_zero 2 _ two_ne_zero,
    (C21_rescaleUnit_raises_factor exactPow Dimension.L 2
      { _units := unitsOfLength, _val := 3 }
      { _units := unitsOfLength, _name := "D", _values := [1, 2] }).1,
    (C21_rescaleUnit_raises_factor exactPow Dimension.L 2
      { _units := unitsOfLength, _val := 3 }
      { _units := unitsOfLength, _name := "D", _values := [1, 2] }).2.1
      (exactPow_ne_zero 2 _ two_ne_zero),
    flushPow_underflow,
    ((C21_rescaleUnit_raises_factor flushPow Dimension.L (1 / 10 ^ 200)
      { _units := unitsOfArea, _val := 3 }
      { _units := unitsOfArea, _name := "A", _values := [1, 2] }).2.2.1 flushPow_underflow).1,
    ((C21_rescaleUnit_raises_factor flushPow Dimension.L (1 / 10 ^ 200)
      { _units := unitsOfArea, _val := 3 }
      { _units := unitsOfArea, _name := "A", _values := [1, 2] }).2.2.1 flushPow_underflow).2
      rfl⟩

/-! ### `GLMatrix::inverse` -/


theorem GLMatrix_toMatrix_eq {K : Type} [Field K] (M : GLMatrix K) :
    M.toMatrix = !![M 0, M 4, M 8, M 12; M 1, M 5, M 9, M 13; M 2, M 6, M 10, M 14;
      M 3, M 7, M 11, M 15] := by
  ext i j
  fin_cases i <;> fin_cases j <;> rfl

theorem det_fin_four_of {K : Type} [Field K] (a b c d e f g h i j k l m n o p : K) :
    Matrix.det !![a, b, c, d; e, f, g, h; i, j, k, l; m, n, o, p] =
      a * (f * (k * p - l * o) - g * (j * p - l * n) + h * (j * o - k * n))
      - b * (e * (k * p - l * o) - g * (i * p - l * m) + h * (i * o - k * m))
      + c * (e * (j * p - l * n) - f * (i * p - l * m) + h * (i * n - j * m))
      - d * (e * (j * o - k * n) - f * (i * o - k * m) + g * (i * n - j * m)) := by
  rw [Matrix.det_succ_row_zero]
  simp +decide [Fin.sum_univ_succ, Matrix.det_fin_three, Fin.succAbove]
  have h3 : (Fin.succ 2 : Fin 4) = 3 := rfl
  have h2 : (Fin.castSucc 2 : Fin 4) = 2 := rfl
  simp +decide [h3, h2]
  ring

theorem GLMatrix_det_eq {K : Type} [Field K] (M : GLMatrix K) :
    M.det = M.toMatrix.det := by
  rw [GLMatrix_toMatrix_eq, det_fin_four_of]
  simp [GLMatrix.det, GLMatrix.cofactors]
  ring

theorem GLMatrix_cofactors_apply {K : Type} [Field K] (M : GLMatrix K) :
    M.cofactors 0 = M 10 * M 15 * M 5 + M 11 * M 13 * M 6 + M 9 * M 14 * M 7 - M 11 * M 14 * M 5 - M 9 * M 15 * M 6 - M 10 * M 13 * M 7 ∧
    M.cofactors 1 = M 11 * M 14 * M 4 + M 8 * M 15 * M 6 + M 10 * M 12 * M 7 - M 10 * M 15 * M 4 - M 11 * M 12 * M 6 - M 8 * M 14 * M 7 ∧
    M.cofactors 2 = M 9 * M 15 * M 4 + M 11 * M 12 * M 5 + M 8 * M 13 * M 7 - M 11 * M 13 * M 4 - M 8 * M 15 * M 5 - M 9 * M 12 * M 7 ∧
    M.cofactors 3 = M 10 * M 13 * M 4 + M 8 * M 14 * M 5 + M 9 * M 12 * M 6 - M 9 * M 14 * M 4 - M 10 * M 12 * M 5 - M 8 * M 13 * M 6 ∧
    M.cofactors 4 = M 11 * M 14 * M 1 + M 9 * M 15 * M 2 + M 10 * M 13 * M 3 - M 10 * M 15 * M 1 - M 11 * M 13 * M 2 - M 9 * M 14 * M 3 ∧
    M.cofactors 5 = M 10 * M 15 * M 0 + M 11 * M 12 * M 2 + M 8 * M 14 * M 3 - M 11 * M 14 * M 0 - M 8 * M 15 * M 2 - M 10 * M 12 * M 3 ∧
    M.cofactors 6 = M 11 * M 13 * M 0 + M 8 * M 15 * M 1 + M 9 * M 12 * M 3 - M 9 * M 15 * M 0 - M 11 * M 12 * M 1 - M 8 * M 13 * M 3 ∧
    M.cofactors 7 = M 9 * M 14 * M 0 + M 10 * M 12 * M 1 + M 8 * M 13 * M 2 - M 10 * M 13 * M 0 - M 8 * M 14 * M 1 - M 9 * M 12 * M 2 ∧
    M.cofactors 8 = M 2 * M 7 * M 13 + M 3 * M 5 * M 14 + M 1 * M 6 * M 15 - M 3 * M 6 * M 13 - M 1 * M 7 * M 14 - M 2 * M 5 * M 15 ∧
    M.cofactors 9 = M 3 * M 6 * M 12 + M 0 * M 7 * M 14 + M 2 * M 4 * M 15 - M 2 * M 7 * M 12 - M 3 * M 4 * M 14 - M 0 * M 6 * M 15 ∧
    M.cofactors 10 = M 1 * M 7 * M 12 + M 3 * M 4 * M 13 + M 0 * M 5 * M 15 - M 3 * M 5 * M 12 - M 0 * M 7 * M 13 - M 1 * M 4 * M 15 ∧
    M.cofactors 11 = M 2 * M 5 * M 12 + M 0 * M 6 * M 13 + M 1 * M 4 * M 14 - M 1 * M 6 * M 12 - M 2 * M 4 * M 13 - M 0 * M 5 * M 14 ∧
    M.cofactors 12 = M 1 * M 7 * M 10 + M 2 * M 5 * M 11 + M 3 * M 6 * M 9 - M 1 * M 6 * M 11 - M 2 * M 7 * M 9 - M 3 * M 5 * M 10 ∧
    M.cofactors 13 = M 0 * M 6 * M 11 + M 2 * M 7 * M 8 + M 3 * M 4 * M 10 - M 0 * M 7 * M 10 - M 2 * M 4 * M 11 - M 3 * M 6 * M 8 ∧
    M.cofactors 14 = M 0 * M 7 * M 9 + M 1 * M 4 * M 11 + M 3 * M 5 * M 8 - M 0 * M 5 * M 11 - M 1 * M 7 * M 8 - M 3 * M 4 * M 9 ∧
    M.cofactors 15 = M 0 * M 5 * M 10 + M 1 * M 6 * M 8 + M 2 * M 4 * M 9 - M 0 * M 6 * M 9 - M 1 * M 4 * M 10 - M 2 * M 5 * M 8 :=
  ⟨rfl, rfl, rfl, rfl, rfl, rfl, rfl, rfl, rfl, rfl, rfl, rfl, rfl, rfl, rfl, rfl⟩

theorem GLMatrix_mul_cofactors {K : Type} [Field K] (M : GLMatrix K) :
    M 0 * M.cofactors 0 + M 4 * M.cofactors 4 + M 8 * M.cofactors 8 + M 12 * M.cofactors 12 = M.det ∧
    M 1 * M.cofactors 0 + M 5 * M.cofactors 4 + M 9 * M.cofactors 8 + M 13 * M.cofactors 12 = 0 ∧
    M 2 * M.cofactors 0 + M 6 * M.cofactors 4 + M 10 * M.cofactors 8 + M 14 * M.cofactors 12 = 0 ∧
    M 3 * M.cofactors 0 + M 7 * M.cofactors 4 + M 11 * M.cofactors 8 + M 15 * M.cofactors 12 = 0 ∧
    M 0 * M.cofactors 1 + M 4 * M.cofactors 5 + M 8 * M.cofactors 9 + M 12 * M.cofactors 13 = 0 ∧
    M 1 * M.cofactors 1 + M 5 * M.cofactors 5 + M 9 * M.cofactors 9 + M 13 * M.cofactors 13 = M.det ∧
    M 2 * M.cofactors 1 + M 6 * M.cofactors 5 + M 10 * M.cofactors 9 + M 14 * M.cofactors 13 = 0 ∧
    M 3 * M.cofactors 1 + M 7 * M.cofactors 5 + M 11 * M.cofactors 9 + M 15 * M.cofactors 13 = 0 ∧
    M 0 * M.cofactors 2 + M 4 * M.cofactors 6 + M 8 * M.cofactors 10 + M 12 * M.cofactors 14 = 0 ∧
    M 1 * M.cofactors 2 + M 5 * M.cofactors 6 + M 9 * M.cofactors 10 + M 13 * M.cofactors 14 = 0 ∧
    M 2 * M.cofactors 2 + M 6 * M.cofactors 6 + M 10 * M.cofactors 10 + M 14 * M.cofactors 14 = M.det ∧
    M 3 * M.cofactors 2 + M 7 * M.cofactors 6 + M 11 * M.cofactors 10 + M 15 * M.cofactors 14 = 0 ∧
    M 0 * M.cofactors 3 + M 4 * M.cofactors 7 + M 8 * M.cofactors 11 + M 12 * M.cofactors 15 = 0 ∧
    M 1 * M.cofactors 3 + M 5 * M.cofactors 7 + M 9 * M.cofactors 11 + M 13 * M.cofactors 15 = 0 ∧
    M 2 * M.cofactors 3 + M 6 * M.cofactors 7 + M 10 * M.cofactors 11 + M 14 * M.cofactors 15 = 0 ∧
    M 3 * M.cofactors 3 + M 7 * M.cofactors 7 + M 11 * M.cofactors 11 + M 15 * M.cofactors 15 = M.det := by
  obtain ⟨h0, h1, h2, h3, h4, h5, h6, h7, h8, h9, h10, h11, h12, h13, h14, h15⟩ := GLMatrix_cofactors_apply M
  refine ⟨?_, ?_, ?_, ?_, ?_, ?_, ?_, ?_, ?_, ?_, ?_, ?_, ?_, ?_, ?_, ?_⟩ <;>
    simp only [GLMatrix.det, h0, h1, h2, h3, h4, h5, h6, h7, h8, h9, h10, h11, h12, h13, h14, h15] <;> ring

theorem GLMatrix_cofactors_mul {K : Type} [Field K] (M : GLMatrix K) :
    M.cofactors 0 * M 0 + M.cofactors 1 * M 1 + M.cofactors 2 * M 2 + M.cofactors 3 * M 3 = M.det ∧
    M.cofactors 4 * M 0 + M.cofactors 5 * M 1 + M.cofactors 6 * M 2 + M.cofactors 7 * M 3 = 0 ∧
    M.cofactors 8 * M 0 + M.cofactors 9 * M 1 + M.cofactors 10 * M 2 + M.cofactors 11 * M 3 = 0 ∧
    M.cofactors 12 * M 0 + M.cofactors 13 * M 1 + M.cofactors 14 * M 2 + M.cofactors 15 * M 3 = 0 ∧
    M.cofactors 0 * M 4 + M.cofactors 1 * M 5 + M.cofactors 2 * M 6 + M.cofactors 3 * M 7 = 0 ∧
    M.cofactors 4 * M 4 + M.cofactors 5 * M 5 + M.cofactors 6 * M 6 + M.cofactors 7 * M 7 = M.det ∧
    M.cofactors 8 * M 4 + M.cofactors 9 * M 5 + M.cofactors 10 * M 6 + M.cofactors 11 * M 7 = 0 ∧
    M.cofactors 12 * M 4 + M.cofactors 13 * M 5 + M.cofactors 14 * M 6 + M.cofactors 15 * M 7 = 0 ∧
    M.cofactors 0 * M 8 + M.cofactors 1 * M 9 + M.cofactors 2 * M 10 + M.cofactors 3 * M 11 = 0 ∧
    M.cofactors 4 * M 8 + M.cofactors 5 * M 9 + M.cofactors 6 * M 10 + M.cofactors 7 * M 11 = 0 ∧
    M.cofactors 8 * M 8 + M.cofactors 9 * M 9 + M.cofactors 10 * M 10 + M.cofactors 11 * M 11 = M.det ∧
    M.cofactors 12 * M 8 + M.cofactors 13 * M 9 + M.cofactors 14 * M 10 + M.cofactors 15 * M 11 = 0 ∧
    M.cofactors 0 * M 12 + M.cofactors 1 * M 13 + M.cofactors 2 * M 14 + M.cofactors 3 * M 15 = 0 ∧
    M.cofactors 4 * M 12 + M.cofactors 5 * M 13 + M.cofactors 6 * M 14 + M.cofactors 7 * M 15 = 0 ∧
    M.cofactors 8 * M 12 + M.cofactors 9 * M 13 + M.cofactors 10 * M 14 + M.cofactors 11 * M 15 = 0 ∧
    M.cofactors 12 * M 12 + M.cofactors 13 * M 13 + M.cofactors 14 * M 14 + M.cofactors 15 * M 15 = M.det := by
  obtain ⟨h0, h1, h2, h3, h4, h5, h6, h7, h8, h9, h10, h11, h12, h13, h14, h15⟩ := GLMatrix_cofactors_apply M
  refine ⟨?_, ?_, ?_, ?_, ?_, ?_, ?_, ?_, ?_, ?_, ?_, ?_, ?_, ?_, ?_, ?_⟩ <;>
    simp only [GLMatrix.det, h0, h1, h2, h3, h4, h5, h6, h7, h8, h9, h10, h11, h12, h13, h14, h15] <;> ring

theorem GLMatrix_inverse_of_det_ne_zero {K : Type} [Field K] [DecidableEq K] (M : GLMatrix K)
    (h : M.det ≠ 0) : M.inverse = GLMatrix.transpose (fun i => M.cofactors i / M.det) := by
  unfold GLMatrix.inverse
  simp only [if_neg h]

theorem GLMatrix_mul_inverse {K : Type} [Field K] [DecidableEq K] (M : GLMatrix K)
    (h : M.det ≠ 0) : M.mul M.inverse = GLMatrix.identity := by
  rw [GLMatrix_inverse_of_det_ne_zero M h]
  obtain ⟨a0, a1, a2, a3, a4, a5, a6, a7, a8, a9, a10, a11, a12, a13, a14, a15⟩ := GLMatrix_mul_cofactors M
  funext idx
  fin_cases idx
  · show 0 + M 0 * (M.cofactors 0 / M.det) + M 4 * (M.cofactors 4 / M.det) + M 8 * (M.cofactors 8 / M.det) + M 12 * (M.cofactors 12 / M.det) = (1 : K)
    rw [show 0 + M 0 * (M.cofactors 0 / M.det) + M 4 * (M.cofactors 4 / M.det) + M 8 * (M.cofactors 8 / M.det) + M 12 * (M.cofactors 12 / M.det) = (M 0 * M.cofactors 0 + M 4 * M.cofactors 4 + M 8 * M.cofactors 8 + M 12 * M.cofactors 12) / M.det from by ring, a0]
    exact div_self h
  · show 0 + M 1 * (M.cofactors 0 / M.det) + M 5 * (M.cofactors 4 / M.det) + M 9 * (M.cofactors 8 / M.det) + M 13 * (M.cofactors 12 / M.det) = (0 : K)
    rw [show 0 + M 1 * (M.cofactors 0 / M.det) + M 5 * (M.cofactors 4 / M.det) + M 9 * (M.cofactors 8 / M.det) + M 13 * (M.cofactors 12 / M.det) = (M 1 * M.cofactors 0 + M 5 * M.cofactors 4 + M 9 * M.cofactors 8 + M 13 * M.cofactors 12) / M.det from by ring, a1]
    exact zero_div _
  · show 0 + M 2 * (M.cofactors 0 / M.det) + M 6 * (M.cofactors 4 / M.det) + M 10 * (M.cofactors 8 / M.det) + M 14 * (M.cofactors 12 / M.det) = (0 : K)
    rw [show 0 + M 2 * (M.cofactors 0 / M.det) + M 6 * (M.cofactors 4 / M.det) + M 10 * (M.cofactors 8 / M.det) + M 14 * (M.cofactors 12 / M.det) = (M 2 * M.cofactors 0 + M 6 * M.cofactors 4 + M 10 * M.cofactors 8 + M 14 * M.cofactors 12) / M.det from by ring, a2]
    exact zero_div _
  · show 0 + M 3 * (M.cofactors 0 / M.det) + M 7 * (M.cofactors 4 / M.det) + M 11 * (M.cofactors 8 / M.det) + M 15 * (M.cofactors 12 / M.det) = (0 : K)
    rw [show 0 + M 3 * (M.cofactors 0 / M.det) + M 7 * (M.cofactors 4 / M.det) + M 11 * (M.cofactors 8 / M.det) + M 15 * (M.cofactors 12 / M.det) = (M 3 * M.cofactors 0 + M 7 * M.cofactors 4 + M 11 * M.cofactors 8 + M 15 * M.cofactors 12) / M.det from by ring, a3]
    exact zero_div _
  · show 0 + M 0 * (M.cofactors 1 / M.det) + M 4 * (M.cofactors 5 / M.det) + M 8 * (M.cofactors 9 / M.det) + M 12 * (M.cofactors 13 / M.det) = (0 : K)
    rw [show 0 + M 0 * (M.cofactors 1 / M.det) + M 4 * (M.cofactors 5 / M.det) + M 8 * (M.cofactors 9 / M.det) + M 12 * (M.cofactors 13 / M.det) = (M 0 * M.cofactors 1 + M 4 * M.cofactors 5 + M 8 * M.cofactors 9 + M 12 * M.cofactors 13) / M.det from by ring, a4]
    exact zero_div _
  · show 0 + M 1 * (M.cofactors 1 / M.det) + M 5 * (M.cofactors 5 / M.det) + M 9 * (M.cofactors 9 / M.det) + M 13 * (M.cofactors 13 / M.det) = (1 : K)
    rw [show 0 + M 1 * (M.cofactors 1 / M.det) + M 5 * (M.cofactors 5 / M.det) + M 9 * (M.cofactors 9 / M.det) + M 13 * (M.cofactors 13 / M.det) = (M 1 * M.cofactors 1 + M 5 * M.cofactors 5 + M 9 * M.cofactors 9 + M 13 * M.cofactors 13) / M.det from by ring, a5]
    exact div_self h
  · show 0 + M 2 * (M.cofactors 1 / M.det) + M 6 * (M.cofactors 5 / M.det) + M 10 * (M.cofactors 9 / M.det) + M 14 * (M.cofactors 13 / M.det) = (0 : K)
    rw [show 0 + M 2 * (M.cofactors 1 / M.det) + M 6 * (M.cofactors 5 / M.det) + M 10 * (M.cofactors 9 / M.det) + M 14 * (M.cofactors 13 / M.det) = (M 2 * M.cofactors 1 + M 6 * M.cofactors 5 + M 10 * M.cofactors 9 + M 14 * M.cofactors 13) / M.det from by ring, a6]
    exact zero_div _
  · show 0 + M 3 * (M.cofactors 1 / M.det) + M 7 * (M.cofactors 5 / M.det) + M 11 * (M.cofactors 9 / M.det) + M 15 * (M.cofactors 13 / M.det) = (0 : K)
    rw [show 0 + M 3 * (M.cofactors 1 / M.det) + M 7 * (M.cofactors 5 / M.det) + M 11 * (M.cofactors 9 / M.det) + M 15 * (M.cofactors 13 / M.det) = (M 3 * M.cofactors 1 + M 7 * M.cofactors 5 + M 11 * M.cofactors 9 + M 15 * M.cofactors 13) / M.det from by ring, a7]
    exact zero_div _
  · show 0 + M 0 * (M.cofactors 2 / M.det) + M 4 * (M.cofactors 6 / M.det) + M 8 * (M.cofactors 10 / M.det) + M 12 * (M.cofactors 14 / M.det) = (0 : K)
    rw [show 0 + M 0 * (M.cofactors 2 / M.det) + M 4 * (M.cofactors 6 / M.det) + M 8 * (M.cofactors 10 / M.det) + M 12 * (M.cofactors 14 / M.det) = (M 0 * M.cofactors 2 + M 4 * M.cofactors 6 + M 8 * M.cofactors 10 + M 12 * M.cofactors 14) / M.det from by ring, a8]
    exact zero_div _
  · show 0 + M 1 * (M.cofactors 2 / M.det) + M 5 * (M.cofactors 6 / M.det) + M 9 * (M.cofactors 10 / M.det) + M 13 * (M.cofactors 14 / M.det) = (0 : K)
    rw [show 0 + M 1 * (M.cofactors 2 / M.det) + M 5 * (M.cofactors 6 / M.det) + M 9 * (M.cofactors 10 / M.det) + M 13 * (M.cofactors 14 / M.det) = (M 1 * M.cofactors 2 + M 5 * M.cofactors 6 + M 9 * M.cofactors 10 + M 13 * M.cofactors 14) / M.det from by ring, a9]
    exact zero_div _
  · show 0 + M 2 * (M.cofactors 2 / M.det) + M 6 * (M.cofactors 6 / M.det) + M 10 * (M.cofactors 10 / M.det) + M 14 * (M.cofactors 14 / M.det) = (1 : K)
    rw [show 0 + M 2 * (M.cofactors 2 / M.det) + M 6 * (M.cofactors 6 / M.det) + M 10 * (M.cofactors 10 / M.det) + M 14 * (M.cofactors 14 / M.det) = (M 2 * M.cofactors 2 + M 6 * M.cofactors 6 + M 10 * M.cofactors 10 + M 14 * M.cofactors 14) / M.det from by ring, a10]
    exact div_self h
  · show 0 + M 3 * (M.cofactors 2 / M.det) + M 7 * (M.cofactors 6 / M.det) + M 11 * (M.cofactors 10 / M.det) + M 15 * (M.cofactors 14 / M.det) = (0 : K)
    rw [show 0 + M 3 * (M.cofactors 2 / M.det) + M 7 * (M.cofactors 6 / M.det) + M 11 * (M.cofactors 10 / M.det) + M 15 * (M.cofactors 14 / M.det) = (M 3 * M.cofactors 2 + M 7 * M.cofactors 6 + M 11 * M.cofactors 10 + M 15 * M.cofactors 14) / M.det from by ring, a11]
    exact zero_div _
  · show 0 + M 0 * (M.cofactors 3 / M.det) + M 4 * (M.cofactors 7 / M.det) + M 8 * (M.cofactors 11 / M.det) + M 12 * (M.cofactors 15 / M.det) = (0 : K)
    rw [show 0 + M 0 * (M.cofactors 3 / M.det) + M 4 * (M.cofactors 7 / M.det) + M 8 * (M.cofactors 11 / M.det) + M 12 * (M.cofactors 15 / M.det) = (M 0 * M.cofactors 3 + M 4 * M.cofactors 7 + M 8 * M.cofactors 11 + M 12 * M.cofactors 15) / M.det from by ring, a12]
    exact zero_div _
  · show 0 + M 1 * (M.cofactors 3 / M.det) + M 5 * (M.cofactors 7 / M.det) + M 9 * (M.cofactors 11 / M.det) + M 13 * (M.cofactors 15 / M.det) = (0 : K)
    rw [show 0 + M 1 * (M.cofactors 3 / M.det) + M 5 * (M.cofactors 7 / M.det) + M 9 * (M.cofactors 11 / M.det) + M 13 * (M.cofactors 15 / M.det) = (M 1 * M.cofactors 3 + M 5 * M.cofactors 7 + M 9 * M.cofactors 11 + M 13 * M.cofactors 15) / M.det from by ring, a13]
    exact zero_div _
  · show 0 + M 2 * (M.cofactors 3 / M.det) + M 6 * (M.cofactors 7 / M.det) + M 10 * (M.cofactors 11 / M.det) + M 14 * (M.cofactors 15 / M.det) = (0 : K)
    rw [show 0 + M 2 * (M.cofactors 3 / M.det) + M 6 * (M.cofactors 7 / M.det) + M 10 * (M.cofactors 11 / M.det) + M 14 * (M.cofactors 15 / M.det) = (M 2 * M.cofactors 3 + M 6 * M.cofactors 7 + M 10 * M.cofactors 11 + M 14 * M.cofactors 15) / M.det from by ring, a14]
    exact zero_div _
  · show 0 + M 3 * (M.cofactors 3 / M.det) + M 7 * (M.cofactors 7 / M.det) + M 11 * (M.cofactors 11 / M.det) + M 15 * (M.cofactors 15 / M.det) = (1 : K)
    rw [show 0 + M 3 * (M.cofactors 3 / M.det) + M 7 * (M.cofactors 7 / M.det) + M 11 * (M.cofactors 11 / M.det) + M 15 * (M.cofactors 15 / M.det) = (M 3 * M.cofactors 3 + M 7 * M.cofactors 7 + M 11 * M.cofactors 11 + M 15 * M.cofactors 15) / M.det from by ring, a15]
    exact div_self h

theorem GLMatrix_inverse_mul {K : Type} [Field K] [DecidableEq K] (M : GLMatrix K)
    (h : M.det ≠ 0) : M.inverse.mul M = GLMatrix.identity := by
  rw [GLMatrix_inverse_of_det_ne_zero M h]
  obtain ⟨a0, a1, a2, a3, a4, a5, a6, a7, a8, a9, a10, a11, a12, a13, a14, a15⟩ := GLMatrix_cofactors_mul M
  funext idx
  fin_cases idx
  · show 0 + M.cofactors 0 / M.det * M 0 + M.cofactors 1 / M.det * M 1 + M.cofactors 2 / M.det * M 2 + M.cofactors 3 / M.det * M 3 = (1 : K)
    rw [show 0 + M.cofactors 0 / M.det * M 0 + M.cofactors 1 / M.det * M 1 + M.cofactors 2 / M.det * M 2 + M.cofactors 3 / M.det * M 3 = (M.cofactors 0 * M 0 + M.cofactors 1 * M 1 + M.cofactors 2 * M 2 + M.cofactors 3 * M 3) / M.det from by ring, a0]
    exact div_self h
  · show 0 + M.cofactors 4 / M.det * M 0 + M.cofactors 5 / M.det * M 1 + M.cofactors 6 / M.det * M 2 + M.cofactors 7 / M.det * M 3 = (0 : K)
    rw [show 0 + M.cofactors 4 / M.det * M 0 + M.cofactors 5 / M.det * M 1 + M.cofactors 6 / M.det * M 2 + M.cofactors 7 / M.det * M 3 = (M.cofactors 4 * M 0 + M.cofactors 5 * M 1 + M.cofactors 6 * M 2 + M.cofactors 7 * M 3) / M.det from by ring, a1]
    exact zero_div _
  · show 0 + M.cofactors 8 / M.det * M 0 + M.cofactors 9 / M.det * M 1 + M.cofactors 10 / M.det * M 2 + M.cofactors 11 / M.det * M 3 = (0 : K)
    rw [show 0 + M.cofactors 8 / M.det * M 0 + M.cofactors 9 / M.det * M 1 + M.cofactors 10 / M.det * M 2 + M.cofactors 11 / M.det * M 3 = (M.cofactors 8 * M 0 + M.cofactors 9 * M 1 + M.cofactors 10 * M 2 + M.cofactors 11 * M 3) / M.det from by ring, a2]
    exact zero_div _
  · show 0 + M.cofactors 12 / M.det * M 0 + M.cofactors 13 / M.det * M 1 + M.cofactors 14 / M.det * M 2 + M.cofactors 15 / M.det * M 3 = (0 : K)
    rw [show 0 + M.cofactors 12 / M.det * M 0 + M.cofactors 13 / M.det * M 1 + M.cofactors 14 / M.det * M 2 + M.cofactors 15 / M.det * M 3 = (M.cofactors 12 * M 0 + M.cofactors 13 * M 1 + M.cofactors 14 * M 2 + M.cofactors 15 * M 3) / M.det from by ring, a3]
    exact zero_div _
  · show 0 + M.cofactors 0 / M.det * M 4 + M.cofactors 1 / M.det * M 5 + M.cofactors 2 / M.det * M 6 + M.cofactors 3 / M.det * M 7 = (0 : K)
    rw [show 0 + M.cofactors 0 / M.det * M 4 + M.cofactors 1 / M.det * M 5 + M.cofactors 2 / M.det * M 6 + M.cofactors 3 / M.det * M 7 = (M.cofactors 0 * M 4 + M.cofactors 1 * M 5 + M.cofactors 2 * M 6 + M.cofactors 3 * M 7) / M.det from by ring, a4]
    exact zero_div _
  · show 0 + M.cofactors 4 / M.det * M 4 + M.cofactors 5 / M.det * M 5 + M.cofactors 6 / M.det * M 6 + M.cofactors 7 / M.det * M 7 = (1 : K)
    rw [show 0 + M.cofactors 4 / M.det * M 4 + M.cofactors 5 / M.det * M 5 + M.cofactors 6 / M.det * M 6 + M.cofactors 7 / M.det * M 7 = (M.cofactors 4 * M 4 + M.cofactors 5 * M 5 + M.cofactors 6 * M 6 + M.cofactors 7 * M 7) / M.det from by ring, a5]
    exact div_self h
  · show 0 + M.cofactors 8 / M.det * M 4 + M.cofactors 9 / M.det * M 5 + M.cofactors 10 / M.det * M 6 + M.cofactors 11 / M.det * M 7 = (0 : K)
    rw [show 0 + M.cofactors 8 / M.det * M 4 + M.cofactors 9 / M.det * M 5 + M.cofactors 10 / M.det * M 6 + M.cofactors 11 / M.det * M 7 = (M.cofactors 8 * M 4 + M.cofactors 9 * M 5 + M.cofactors 10 * M 6 + M.cofactors 11 * M 7) / M.det from by ring, a6]
    exact zero_div _
  · show 0 + M.cofactors 12 / M.det * M 4 + M.cofactors 13 / M.det * M 5 + M.cofactors 14 / M.det * M 6 + M.cofactors 15 / M.det * M 7 = (0 : K)
    rw [show 0 + M.cofactors 12 / M.det * M 4 + M.cofactors 13 / M.det * M 5 + M.cofactors 14 / M.det * M 6 + M.cofactors 15 / M.det * M 7 = (M.cofactors 12 * M 4 + M.cofactors 13 * M 5 + M.cofactors 14 * M 6 + M.cofactors 15 * M 7) / M.det from by ring, a7]
    exact zero_div _
  · show 0 + M.cofactors 0 / M.det * M 8 + M.cofactors 1 / M.det * M 9 + M.cofactors 2 / M.det * M 10 + M.cofactors 3 / M.det * M 11 = (0 : K)
    rw [show 0 + M.cofactors 0 / M.det * M 8 + M.cofactors 1 / M.det * M 9 + M.cofactors 2 / M.det * M 10 + M.cofactors 3 / M.det * M 11 = (M.cofactors 0 * M 8 + M.cofactors 1 * M 9 + M.cofactors 2 * M 10 + M.cofactors 3 * M 11) / M.det from by ring, a8]
    exact zero_div _
  · show 0 + M.cofactors 4 / M.det * M 8 + M.cofactors 5 / M.det * M 9 + M.cofactors 6 / M.det * M 10 + M.cofactors 7 / M.det * M 11 = (0 : K)
    rw [show 0 + M.cofactors 4 / M.det * M 8 + M.cofactors 5 / M.det * M 9 + M.cofactors 6 / M.det * M 10 + M.cofactors 7 / M.det * M 11 = (M.cofactors 4 * M 8 + M.cofactors 5 * M 9 + M.cofactors 6 * M 10 + M.cofactors 7 * M 11) / M.det from by ring, a9]
    exact zero_div _
  · show 0 + M.cofactors 8 / M.det * M 8 + M.cofactors 9 / M.det * M 9 + M.cofactors 10 / M.det * M 10 + M.cofactors 11 / M.det * M 11 = (1 : K)
    rw [show 0 + M.cofactors 8 / M.det * M 8 + M.cofactors 9 / M.det * M 9 + M.cofactors 10 / M.det * M 10 + M.cofactors 11 / M.det * M 11 = (M.cofactors 8 * M 8 + M.cofactors 9 * M 9 + M.cofactors 10 * M 10 + M.cofactors 11 * M 11) / M.det from by ring, a10]
    exact div_self h
  · show 0 + M.cofactors 12 / M.det * M 8 + M.cofactors 13 / M.det * M 9 + M.cofactors 14 / M.det * M 10 + M.cofactors 15 / M.det * M 11 = (0 : K)
    rw [show 0 + M.cofactors 12 / M.det * M 8 + M.cofactors 13 / M.det * M 9 + M.cofactors 14 / M.det * M 10 + M.cofactors 15 / M.det * M 11 = (M.cofactors 12 * M 8 + M.cofactors 13 * M 9 + M.cofactors 14 * M 10 + M.cofactors 15 * M 11) / M.det from by ring, a11]
    exact zero_div _
  · show 0 + M.cofactors 0 / M.det * M 12 + M.cofactors 1 / M.det * M 13 + M.cofactors 2 / M.det * M 14 + M.cofactors 3 / M.det * M 15 = (0 : K)
    rw [show 0 + M.cofactors 0 / M.det * M 12 + M.cofactors 1 / M.det * M 13 + M.cofactors 2 / M.det * M 14 + M.cofactors 3 / M.det * M 15 = (M.cofactors 0 * M 12 + M.cofactors 1 * M 13 + M.cofactors 2 * M 14 + M.cofactors 3 * M 15) / M.det from by ring, a12]
    exact zero_div _
  · show 0 + M.cofactors 4 / M.det * M 12 + M.cofactors 5 / M.det * M 13 + M.cofactors 6 / M.det * M 14 + M.cofactors 7 / M.det * M 15 = (0 : K)
    rw [show 0 + M.cofactors 4 / M.det * M 12 + M.cofactors 5 / M.det * M 13 + M.cofactors 6 / M.det * M 14 + M.cofactors 7 / M.det * M 15 = (M.cofactors 4 * M 12 + M.cofactors 5 * M 13 + M.cofactors 6 * M 14 + M.cofactors 7 * M 15) / M.det from by ring, a13]
    exact zero_div _
  · show 0 + M.cofactors 8 / M.det * M 12 + M.cofactors 9 / M.det * M 13 + M.cofactors 10 / M.det * M 14 + M.cofactors 11 / M.det * M 15 = (0 : K)
    rw [show 0 + M.cofactors 8 / M.det * M 12 + M.cofactors 9 / M.det * M 13 + M.cofactors 10 / M.det * M 14 + M.cofactors 11 / M.det * M 15 = (M.cofactors 8 * M 12 + M.cofactors 9 * M 13 + M.cofactors 10 * M 14 + M.cofactors 11 * M 15) / M.det from by ring, a14]
    exact zero_div _
  · show 0 + M.cofactors 12 / M.det * M 12 + M.cofactors 13 / M.det * M 13 + M.cofactors 14 / M.det * M 14 + M.cofactors 15 / M.det * M 15 = (1 : K)
    rw [show 0 + M.cofactors 12 / M.det * M 12 + M.cofactors 13 / M.det * M 13 + M.cofactors 14 / M.det * M 14 + M.cofactors 15 / M.det * M 15 = (M.cofactors 12 * M 12 + M.cofactors 13 * M 13 + M.cofactors 14 * M 14 + M.cofactors 15 * M 15) / M.det from by ring, a15]
    exact div_self h

theorem GLMatrix_inverse_of_det_zero {K : Type} [Field K] [DecidableEq K] (M : GLMatrix K)
    (h : M.det = 0) : M.inverse = GLMatrix.identity := by
  unfold GLMatrix.inverse
  simp only [if_pos h]
  funext idx
  fin_cases idx <;> rfl

theorem GLMatrix_mul_toMatrix {K : Type} [Field K] (A B : GLMatrix K) :
    (A.mul B).toMatrix = A.toMatrix * B.toMatrix := by
  ext i j
  rw [Matrix.mul_apply]
  simp only [Fin.sum_univ_succ, Finset.univ_eq_empty, Finset.sum_empty, add_zero]
  fin_cases i <;> fin_cases j <;>
    (show 0 + _ * _ + _ * _ + _ * _ + _ * _ = _ * _ + (_ * _ + (_ * _ + _ * _))
     rw [zero_add, add_assoc, add_assoc]
     rfl)

/-- C22: over a field, for every 4x4 `GLMatrix` `M` whose determinant is not
zero, `M * M.inverse()` and `M.inverse() * M` both equal `GLMatrix::identity()`,
where `*` is `GLMatrix::operator*` (the matrix product of the column-major
matrices); and for every `M` whose determinant is zero `M.inverse()` is the
identity matrix.  The value `det` the code tests is the determinant. -/
theorem C22_inverse_two_sided {K : Type} [Field K] [DecidableEq K] (M : GLMatrix K) :
    M.det = M.toMatrix.det ∧
    (M.toMatrix.det ≠ 0 →
      M.mul M.inverse = GLMatrix.identity ∧ M.inverse.mul M = GLMatrix.identity) ∧
    (M.toMatrix.det = 0 → M.inverse = GLMatrix.identity) ∧
    (∀ A B : GLMatrix K, (A.mul B).toMatrix = A.toMatrix * B.toMatrix) := by
  refine ⟨GLMatrix_det_eq M, ?_, ?_, GLMatrix_mul_toMatrix⟩
  · intro h
    rw [← GLMatrix_det_eq] at h
    exact ⟨GLMatrix_mul_inverse M h, GLMatrix_inverse_mul M h⟩
  · intro h
    rw [← GLMatrix_det_eq] at h
    exact GLMatrix_inverse_of_det_zero M h

/-- C22 on a matrix of determinant 8. -/
theorem C22_inverse_two_sided_witness :
    exampleGLMatrix.toMatrix.det ≠ 0 ∧
    exampleGLMatrix.mul exampleGLMatrix.inverse = GLMatrix.identity ∧
    exampleGLMatrix.inverse.mul exampleGLMatrix = GLMatrix.identity := by
  have hdet : exampleGLMatrix.toMatrix.det ≠ 0 := by
    rw [← GLMatrix_det_eq]
    obtain ⟨h0, h1, h2, h3, _⟩ := GLMatrix_cofactors_apply exampleGLMatrix
    have e0 : exampleGLMatrix 0 = 2 := rfl
    have e1 : exampleGLMatrix 1 = 0 := rfl
    have e2 : exampleGLMatrix 2 = 0 := rfl
    have e3 : exampleGLMatrix 3 = 0 := rfl
    have e4 : exampleGLMatrix 4 = 1 := rfl
    have e5 : exampleGLMatrix 5 = 2 := rfl
    have e6 : exampleGLMatrix 6 = 0 := rfl
    have e7 : exampleGLMatrix 7 = 0 := rfl
    have e8 : exampleGLMatrix 8 = 0 := rfl
    have e9 : exampleGLMatrix 9 = 0 := rfl
    have e10 : exampleGLMatrix 10 = 2 := rfl
    have e11 : exampleGLMatrix 11 = 0 := rfl
    have e12 : exampleGLMatrix 12 = 3 := rfl
    have e13 : exampleGLMatrix 13 = 4 := rfl
    have e14 : exampleGLMatrix 14 = 5 := rfl
    have e15 : exampleGLMatrix 15 = 1 := rfl
    simp only [GLMatrix.det, h0, h1, h2, h3, e0, e1, e2, e3, e4, e5, e6, e7, e8, e9, e10, e11, e12, e13, e14, e15]
    norm_num
  exact ⟨hdet, (C22_inverse_two_sided exampleGLMatrix).2.1 hdet⟩

/-! ### `IDPairRangeChainGroups::isInRange` -/

theorem bothInGroup_eq (self : IDPairRangeChainGroups) (lo ra hi rb : Nat)
    (hlo : lo < 2 ^ 64) (hhi : hi < 2 ^ 64)
    (ha : ra + self.length < 2 ^ 64) (hb : rb + self.length < 2 ^ 64) :
    self.bothInGroup lo ra hi rb =
      some (decide (∃ i, i < self.length ∧ lo = ra + i ∧ hi = rb + i)) := by
  unfold IDPairRangeChainGroups.bothInGroup size_t_add
  rw [Nat.mod_eq_of_lt ha, Nat.mod_eq_of_lt hb]
  by_cases hc : (lo ≥ ra ∧ lo < ra + self.length) ∧ (hi ≥ rb ∧ hi < rb + self.length)
  · have hl : self.length ≠ 0 := by omega
    have hc2 : ((decide (lo ≥ ra) && decide (lo < ra + self.length))
        && (decide (hi ≥ rb) && decide (hi < rb + self.length))) = true := by
      simp only [Bool.and_eq_true, decide_eq_true_eq]
      exact hc
    rw [if_pos hc2]
    have s1 : size_t_sub lo ra = lo - ra := by
      unfold size_t_sub
      omega
    have s2 : size_t_sub hi rb = hi - rb := by
      unfold size_t_sub
      omega
    simp only [size_t_mod, if_neg hl, s1, s2]
    rw [Nat.mod_eq_of_lt (by omega), Nat.mod_eq_of_lt (by omega)]
    congr 1
    by_cases he : lo - ra = hi - rb
    · have : ∃ i, i < self.length ∧ lo = ra + i ∧ hi = rb + i :=
        ⟨lo - ra, by omega, by omega, by omega⟩
      simp [he, this]
    · have : ¬ ∃ i, i < self.length ∧ lo = ra + i ∧ hi = rb + i := by
        rintro ⟨i, _, h1, h2⟩
        omega
      simp [he, this]
  · have hc2 : ¬ (((decide (lo ≥ ra) && decide (lo < ra + self.length))
        && (decide (hi ≥ rb) && decide (hi < rb + self.length))) = true) := by
      simp only [Bool.and_eq_true, decide_eq_true_eq]
      exact hc
    rw [if_neg hc2]
    have : ¬ ∃ i, i < self.length ∧ lo = ra + i ∧ hi = rb + i := by
      rintro ⟨i, _, h1, h2⟩
      omega
    simp [this]

theorem IDPairRangeChainGroups_new_fields (r1 r2 l : Nat) :
    (IDPairRangeChainGroups.new r1 r2 l).range1 = min r1 r2 ∧
    (IDPairRangeChainGroups.new r1 r2 l).range2 = max r1 r2 ∧
    (IDPairRangeChainGroups.new r1 r2 l).length = l := by
  unfold IDPairRangeChainGroups.new
  by_cases h : r1 > r2
  · rw [if_pos h]
    exact ⟨(min_eq_right (le_of_lt h)).symm, (max_eq_left (le_of_lt h)).symm, rfl⟩
  · rw [if_neg h]
    exact ⟨(min_eq_left (not_lt.mp h)).symm, (max_eq_right (not_lt.mp h)).symm, rfl⟩

/-- C23, counterexample: for the group built from `(0, 10, 2^64 - 5)` the sum
`range2 + length` wraps to 5, so the test `p2 < range2 + length` fails for the
particles 0 and 10 and `isInRange` returns false, although the index `i = 0` is
below `length` and gives `min(id1,id2) = range1 + i` and
`max(id1,id2) = range2 + i`. -/
theorem C23_wrapped_sum_counterexample :
    (IDPairRangeChainGroups.new 0 10 (2 ^ 64 - 5)).range1 = 0 ∧
    (IDPairRangeChainGroups.new 0 10 (2 ^ 64 - 5)).range2 = 10 ∧
    size_t_add 10 (2 ^ 64 - 5) = 5 ∧
    (IDPairRangeChainGroups.new 0 10 (2 ^ 64 - 5)).isInRange (particleAt 0) (particleAt 10)
      = some false ∧
    ∃ i, i < 2 ^ 64 - 5 ∧ min (particleAt 0).ID (particleAt 10).ID = min 0 10 + i ∧
      max (particleAt 0).ID (particleAt 10).ID = max 0 10 + i :=
  ⟨rfl, rfl, by decide, by decide, 0, by decide, by decide, by decide⟩

/-- C23, amended: for an `IDPairRangeChainGroups` built from `(r1, r2, length)`,
stored with `range1 = min(r1,r2)` and `range2 = max(r1,r2)`, whose sum
`range2 + length` does not wrap (it is below `2^64`), and for every two particles, `isInRange(p1,p2)` returns, and it
returns true if and only if there is an index `i < length` with
`min(id1,id2) = range1 + i` and `max(id1,id2) = range2 + i`; the result does not
depend on the argument order, and for `length = 0` it is false without the
remainder by `length` being evaluated. -/
theorem C23_isInRange_iff (r1 r2 l : Nat) (p1 p2 : Particle)
    (hid1 : p1.ID < 2 ^ 64) (hid2 : p2.ID < 2 ^ 64) (hov : max r1 r2 + l < 2 ^ 64) :
    (IDPairRangeChainGroups.new r1 r2 l).range1 = min r1 r2 ∧
    (IDPairRangeChainGroups.new r1 r2 l).range2 = max r1 r2 ∧
    ∃ b, (IDPairRangeChainGroups.new r1 r2 l).isInRange p1 p2 = some b ∧
      (b = true ↔ ∃ i, i < l ∧ min p1.ID p2.ID = min r1 r2 + i ∧
        max p1.ID p2.ID = max r1 r2 + i) ∧
      (IDPairRangeChainGroups.new r1 r2 l).isInRange p2 p1 = some b ∧
      (l = 0 → b = false) := by
  obtain ⟨hr1, hr2, hl⟩ := IDPairRangeChainGroups_new_fields r1 r2 l
  refine ⟨hr1, hr2, ?_⟩
  have hov1 : (IDPairRangeChainGroups.new r1 r2 l).range1
      + (IDPairRangeChainGroups.new r1 r2 l).length < 2 ^ 64 := by
    rw [hr1, hl]
    have := @min_le_max _ _ r1 r2
    omega
  have hov2 : (IDPairRangeChainGroups.new r1 r2 l).range2
      + (IDPairRangeChainGroups.new r1 r2 l).length < 2 ^ 64 := by
    rw [hr2, hl]
    exact hov
  have key : ∀ q1 q2 : Particle, q1.ID < 2 ^ 64 → q2.ID < 2 ^ 64 →
      (IDPairRangeChainGroups.new r1 r2 l).isInRange q1 q2 =
        some (decide (∃ i, i < l ∧ min q1.ID q2.ID = min r1 r2 + i ∧
          max q1.ID q2.ID = max r1 r2 + i)) := by
    intro q1 q2 h1 h2
    unfold IDPairRangeChainGroups.isInRange
    by_cases hgt : q1.ID > q2.ID
    · rw [if_pos hgt, bothInGroup_eq _ _ _ _ _ h1 h2 hov2 hov1, hr1, hr2, hl,
        min_eq_right (le_of_lt hgt), max_eq_left (le_of_lt hgt)]
      congr 1
      apply decide_eq_decide.mpr
      constructor
      · rintro ⟨i, hi, ha, hb⟩
        exact ⟨i, hi, hb, ha⟩
      · rintro ⟨i, hi, ha, hb⟩
        exact ⟨i, hi, hb, ha⟩
    · rw [if_neg hgt, bothInGroup_eq _ _ _ _ _ h1 h2 hov1 hov2, hr1, hr2, hl,
        min_eq_left (not_lt.mp hgt), max_eq_right (not_lt.mp hgt)]
  refine ⟨_, key p1 p2 hid1 hid2, ?_, ?_, ?_⟩
  · exact decide_eq_true_iff
  · rw [key p2 p1 hid2 hid1, min_comm, max_comm]
  · intro h0
    apply decide_eq_false
    rintro ⟨i, hi, _⟩
    omega

/-- C23 (amended) for the group built from `(10, 0, 5)` and the particles 12 and 2. -/
theorem C23_isInRange_iff_witness :
    (particleAt 12).ID < 2 ^ 64 ∧ (particleAt 2).ID < 2 ^ 64 ∧ max 10 0 + 5 < 2 ^ 64 ∧
    (IDPairRangeChainGroups.new 10 0 5).range1 = 0 ∧
    (IDPairRangeChainGroups.new 10 0 5).isInRange (particleAt 12) (particleAt 2) = some true := by
  have h1 : (particleAt 12).ID < 2 ^ 64 := by decide
  have h2 : (particleAt 2).ID < 2 ^ 64 := by decide
  have h3 : max 10 0 + 5 < 2 ^ 64 := by decide
  obtain ⟨hr1, _, b, hb, hiff, _, _⟩ := C23_isInRange_iff 10 0 5 (particleAt 12) (particleAt 2) h1 h2 h3
  refine ⟨h1, h2, h3, hr1, ?_⟩
  rw [hb]
  congr 1
  exact hiff.mpr ⟨2, by decide, by decide, by decide⟩

/-! ### `Simulation::setCOMVelocity` -/

theorem sumMomentum_eq (applyBC : ℚ × ℚ × ℚ → ℚ × ℚ × ℚ → (ℚ × ℚ × ℚ) × (ℚ × ℚ × ℚ))
    (getMass : Nat → ℚ) (hbc : ∀ pos vel, (applyBC pos vel).2 = vel) :
    ∀ (particles : List Particle) (init : (ℚ × ℚ × ℚ) × ℚ),
      sumMomentum applyBC getMass particles init =
        (init.1 - totalMomentum getMass particles, init.2 + totalMass getMass particles)
  | [], init => by simp [sumMomentum, totalMomentum, totalMass]
  | p :: rest, init => by
    have ih := sumMomentum_eq applyBC getMass hbc rest
      (init.1 - vecScale (applyBC p.pos p.vel).2 (getMass p.ID), init.2 + getMass p.ID)
    unfold sumMomentum at ih ⊢
    rw [List.foldl_cons, ih, hbc]
    simp only [totalMomentum, totalMass, List.map_cons, List.sum_cons]
    ext <;> simp <;> ring

theorem totalMomentum_shift (getMass : Nat → ℚ) (s : ℚ × ℚ × ℚ) (particles : List Particle) :
    totalMomentum getMass (particles.map (fun Part => { Part with vel := Part.vel + s })) =
      totalMomentum getMass particles + vecScale s (totalMass getMass particles) := by
  induction particles with
  | nil => simp [totalMomentum, totalMass, vecScale]
  | cons p rest ih =>
    simp only [totalMomentum, totalMass, List.map_cons, List.sum_cons] at ih ⊢
    rw [ih]
    ext <;> simp [vecScale] <;> ring

theorem totalMass_shift (getMass : Nat → ℚ) (s : ℚ × ℚ × ℚ) (particles : List Particle) :
    totalMass getMass (particles.map (fun Part => { Part with vel := Part.vel + s })) =
      totalMass getMass particles := by
  unfold totalMass
  rw [List.map_map]
  rfl

/-- C24, counterexample: in `double` arithmetic, for two particles of mass 1
with the velocities `(0.1, 0, 0)` and `(0.2, 0, 0)` and the target `V = 0`, the
sum `0.1 + 0.2` is rounded, the velocities after `setCOMVelocity` are
`-7205759403792796 * 2^-57` and `7205759403792792 * 2^-57` in `x`, and their
mass-weighted mean is `-2^-56` in `x`, not 0. -/
theorem C24_double_rounding_counterexample :
    (Double.ofInt 1).div (Double.ofInt 10) = { m := 7205759403792794, e := -56 } ∧
    (Double.ofInt 2).div (Double.ofInt 10) = { m := 7205759403792794, e := -55 } ∧
    ((Double.ofInt 1).div (Double.ofInt 10)).add ((Double.ofInt 2).div (Double.ofInt 10))
      = { m := 5404319552844596, e := -54 } ∧
    (setCOMVelocityDouble (fun pos vel => (pos, vel)) (fun _ => Double.ofInt 1)
        (Double.ofInt 0, Double.ofInt 0, Double.ofInt 0) tenthParticles).map
          (fun Part => Part.vel)
      = [({ m := -7205759403792796, e := -57 }, Double.ofInt 0, Double.ofInt 0),
         ({ m := 7205759403792792, e := -57 }, Double.ofInt 0, Double.ofInt 0)] ∧
    meanVelocity (fun _ => 1)
        ((setCOMVelocityDouble (fun pos vel => (pos, vel)) (fun _ => Double.ofInt 1)
          (Double.ofInt 0, Double.ofInt 0, Double.ofInt 0) tenthParticles).map
            ParticleDouble.toParticle)
      = (-(1 / 2 ^ 56), 0, 0) ∧
    meanVelocity (fun _ => 1)
        ((setCOMVelocityDouble (fun pos vel => (pos, vel)) (fun _ => Double.ofInt 1)
          (Double.ofInt 0, Double.ofInt 0, Double.ofInt 0) tenthParticles).map
            ParticleDouble.toParticle)
      ≠ ((Double.ofInt 0).toRat, (Double.ofInt 0).toRat, (Double.ofInt 0).toRat) := by
  have hout : setCOMVelocityDouble (fun pos vel => (pos, vel)) (fun _ => Double.ofInt 1)
      (Double.ofInt 0, Double.ofInt 0, Double.ofInt 0) tenthParticles
      = [{ ID := 0, pos := ({ m := 0, e := 0 }, { m := 0, e := 0 }, { m := 0, e := 0 }),
           vel := ({ m := -7205759403792796, e := -57 }, { m := 0, e := 0 },
                   { m := 0, e := 0 }) },
         { ID := 1, pos := ({ m := 0, e := 0 }, { m := 0, e := 0 }, { m := 0, e := 0 }),
           vel := ({ m := 7205759403792792, e := -57 }, { m := 0, e := 0 },
                   { m := 0, e := 0 }) }] := by
    set_option maxRecDepth 100000 in rfl
  have hmean : meanVelocity (fun _ => 1)
      ((setCOMVelocityDouble (fun pos vel => (pos, vel)) (fun _ => Double.ofInt 1)
        (Double.ofInt 0, Double.ofInt 0, Double.ofInt 0) tenthParticles).map
          ParticleDouble.toParticle)
      = (-(1 / 2 ^ 56), 0, 0) := by
    rw [hout]
    simp only [meanVelocity, totalMomentum, totalMass, vecScale, vecDiv, List.map_cons,
      List.map_nil, List.sum_cons, List.sum_nil, ParticleDouble.toParticle, Double.toRat]
    ext <;> norm_num
  have hzero : (Double.ofInt 0).toRat = 0 := by
    show ((0 : Int) : ℚ) * (2 : ℚ) ^ (0 : Int) = 0
    norm_num
  refine ⟨rfl, rfl, rfl, ?_, hmean, ?_⟩
  · rw [hout]
    rfl
  · rw [hmean, hzero]
    intro h
    have := congrArg Prod.fst h
    norm_num at this

/-- C24, amended: in exact arithmetic, for a particle set of non-zero total mass and a boundary condition that
leaves velocities unchanged, after `Simulation::setCOMVelocity(V)` the
mass-weighted mean velocity equals `V`, and every particle's velocity was
shifted by one and the same vector (positions and IDs are kept). -/
theorem C24_setCOMVelocity_mean
    (applyBC : ℚ × ℚ × ℚ → ℚ × ℚ × ℚ → (ℚ × ℚ × ℚ) × (ℚ × ℚ × ℚ))
    (getMass : Nat → ℚ) (COMVelocity : ℚ × ℚ × ℚ) (particles : List Particle)
    (hmass : totalMass getMass particles ≠ 0)
    (hbc : ∀ pos vel, (applyBC pos vel).2 = vel) :
    meanVelocity getMass (setCOMVelocity applyBC getMass COMVelocity particles) = COMVelocity ∧
    ∃ shift : ℚ × ℚ × ℚ,
      setCOMVelocity applyBC getMass COMVelocity particles =
        particles.map (fun Part => { Part with vel := Part.vel + shift }) := by
  refine ⟨?_, _, rfl⟩
  unfold meanVelocity setCOMVelocity
  simp only
  rw [totalMomentum_shift, totalMass_shift, sumMomentum_eq applyBC getMass hbc]
  generalize totalMomentum getMass particles = P at *
  generalize totalMass getMass particles = m at *
  obtain ⟨px, py, pz⟩ := P
  obtain ⟨vx, vy, vz⟩ := COMVelocity
  ext <;> simp [vecDiv, vecScale] <;> field_simp

/-- C24 (amended) for two particles of the masses 1 and 3 and the target velocity
`(2, 0, 0)`, with a boundary condition that changes nothing. -/
theorem C24_setCOMVelocity_mean_witness :
    totalMass exampleMass movingParticles ≠ 0 ∧
    meanVelocity exampleMass
      (setCOMVelocity (fun pos vel => (pos, vel)) exampleMass (2, 0, 0) movingParticles)
      = (2, 0, 0) := by
  have hm : totalMass exampleMass movingParticles ≠ 0 := by
    norm_num [totalMass, movingParticles, exampleMass]
  exact ⟨hm, (C24_setCOMVelocity_mean (fun pos vel => (pos, vel)) exampleMass (2, 0, 0)
    movingParticles hm (fun _ _ => rfl)).1⟩

/-! ### `SysUmbrella::runEvent`: the energy change -/

theorem kedown_iff_farther {K : Type} (self : SysUmbrella K) :
    (self.kedown = true ↔ |self.newulevel| > |self.ulevel|) ∧
    (self.kedown = false ↔ |self.newulevel| < |self.ulevel|) := by
  unfold SysUmbrella.kedown SysUmbrella.newulevel
  simp only [abs_eq_max_neg]
  by_cases h0 : self.ulevel = 0
  · by_cases ht : self.type = EEventType.STEP_OUT
    · simp [h0, ht]
    · simp [h0, ht]
  · by_cases ht : self.type = EEventType.STEP_OUT
    · simp only [h0, ht, if_true, if_false, decide_eq_true_eq, decide_eq_false_iff_not]
      constructor <;> constructor <;> intro h <;> omega
    · simp only [h0, ht, if_true, if_false, decide_eq_true_eq, decide_eq_false_iff_not]
      constructor <;> constructor <;> intro h <;> omega

/-- C25: in `SysUmbrella::runEvent`, for every integer `ulevel` and every
scheduled event type, the candidate level is either farther from the minimum
than the current one or closer to it, and the energy change passed to the
multi-body well event is `-delU` when it is farther (`|newulevel| > |ulevel|`)
and `+delU` when it is closer (`|newulevel| < |ulevel|`); for `delU ≠ 0` the
value passed tells the two cases apart. -/
theorem C25_energy_change_sign {K : Type} [LinearOrderedField K] (self : SysUmbrella K) :
    (|self.newulevel| > |self.ulevel| ∨ |self.newulevel| < |self.ulevel|) ∧
    (|self.newulevel| > |self.ulevel| → self.deltaKE = -self.delU) ∧
    (|self.newulevel| < |self.ulevel| → self.deltaKE = self.delU) ∧
    (self.delU ≠ 0 →
      (self.deltaKE = -self.delU ↔ |self.newulevel| > |self.ulevel|) ∧
      (self.deltaKE = self.delU ↔ |self.newulevel| < |self.ulevel|)) ∧
    (∀ (sqrt : K → K) (dyn after : UmbrellaDynamics K) (notified : Bool) (Sim : SimClock K),
      (self.runEvent sqrt dyn after notified Sim).1.ulevel =
        if dyn.multibdyWellEvent self.deltaKE ≠ EEventType.BOUNCE then self.newulevel
        else self.ulevel) := by
  obtain ⟨hup, hdown⟩ := kedown_iff_farther self
  have hfar : |self.newulevel| > |self.ulevel| → self.deltaKE = -self.delU := by
    intro h
    unfold SysUmbrella.deltaKE
    rw [if_pos (hup.mpr h)]
  have hnear : |self.newulevel| < |self.ulevel| → self.deltaKE = self.delU := by
    intro h
    unfold SysUmbrella.deltaKE
    rw [hdown.mpr h]
    rfl
  have hcases : |self.newulevel| > |self.ulevel| ∨ |self.newulevel| < |self.ulevel| := by
    cases hk : self.kedown
    · exact Or.inr (hdown.mp hk)
    · exact Or.inl (hup.mp hk)
  refine ⟨hcases, hfar, hnear, ?_, ?_⟩
  · intro hd
    have hne : -self.delU ≠ self.delU := by
      intro h
      apply hd
      have h2 : self.delU + self.delU = 0 := by
        nth_rewrite 1 [← h]
        exact neg_add_cancel _
      have h3 : 2 * self.delU = 0 := by rw [two_mul]; exact h2
      rcases mul_eq_zero.mp h3 with h4 | h4
      · exact absurd h4 two_ne_zero
      · exact h4
    refine ⟨⟨fun h => ?_, hfar⟩, ⟨fun h => ?_, hnear⟩⟩
    · rcases hcases with hc | hc
      · exact hc
      · exact absurd ((hnear hc).symm.trans h).symm hne
    · rcases hcases with hc | hc
      · exact absurd ((hfar hc).symm.trans h) hne
      · exact hc
  · intro sqrt dyn after notified Sim
    have hd : SysUmbrella.deltaKE { self with dt := streamTime self.dt self.dt }
        = self.deltaKE := rfl
    have hn : SysUmbrella.newulevel { self with dt := streamTime self.dt self.dt }
        = self.newulevel := rfl
    unfold SysUmbrella.runEvent
    simp only [hd, hn]
    cases notified <;> split_ifs <;>
      first
        | rfl
        | exact (recalculateTime_frame sqrt after _).1

/-! ### `SysUmbrella::initialise` -/

theorem recalculateTime_levels {K : Type} [LinearOrderedField K] (sqrt : K → K)
    (dyn : UmbrellaDynamics K) (self : SysUmbrella K) :
    (self.recalculateTime sqrt dyn).ulevel = self.ulevel ∧
    (self.recalculateTime sqrt dyn).ulevelcenter = self.ulevelcenter ∧
    (self.recalculateTime sqrt dyn).a = self.a ∧
    (self.recalculateTime sqrt dyn).b = self.b ∧
    (self.recalculateTime sqrt dyn).delU = self.delU := by
  unfold SysUmbrella.recalculateTime
  simp only
  split <;> split_ifs <;> exact ⟨rfl, rfl, rfl, rfl, rfl⟩

theorem truncToInt_of_nonneg {K : Type} [LinearOrderedField K] [FloorRing K] (x : K)
    (hx : 0 ≤ x) : truncToInt x = ⌊x⌋ := by
  unfold truncToInt
  rw [if_pos hx]

theorem truncToInt_neg {K : Type} [LinearOrderedField K] [FloorRing K] (y : K)
    (hy : 0 ≤ y) : truncToInt (-y) = -⌊y⌋ := by
  unfold truncToInt
  by_cases h : 0 ≤ -y
  · have hy0 : y = 0 := le_antisymm (neg_nonneg.mp h) hy
    rw [if_pos h, hy0]
    simp
  · rw [if_neg h, Int.ceil_neg]

theorem initialise_levels {K : Type} [LinearOrderedField K] [FloorRing K] (sqrt : K → K)
    (dyn : UmbrellaDynamics K) (r : K) (self : SysUmbrella K) (hset : self.ulevelset = false) :
    (self.initialise sqrt dyn r).ulevelcenter
      = truncToInt (-self.a * self.b * self.b / self.delU) ∧
    (self.initialise sqrt dyn r).ulevel
      = if r < self.b then truncToInt (self.a * (r - self.b) * (r - self.b) / self.delU) * -1
        else truncToInt (self.a * (r - self.b) * (r - self.b) / self.delU) := by
  unfold SysUmbrella.initialise
  simp only [hset, Bool.not_false, if_true]
  obtain ⟨h1, h2, _⟩ := recalculateTime_levels sqrt dyn
    { self with
      ulevelcenter := truncToInt (-self.a * self.b * self.b / self.delU),
      ulevel := if r < self.b then
          truncToInt (self.a * (r - self.b) * (r - self.b) / self.delU) * -1
        else truncToInt (self.a * (r - self.b) * (r - self.b) / self.delU),
      ulevelset := true }
  exact ⟨h2, h1⟩

theorem radii_depend_on_sqrtArguments {K : Type} [LinearOrderedField K] (sqrt1 sqrt2 : K → K)
    (self : SysUmbrella K) (h : ∀ x ∈ self.sqrtArguments, sqrt1 x = sqrt2 x) :
    self.R_max sqrt1 = self.R_max sqrt2 ∧ self.R_min sqrt1 = self.R_min sqrt2 := by
  unfold SysUmbrella.sqrtArguments at h
  unfold SysUmbrella.R_max SysUmbrella.R_min
  by_cases hc : self.ulevel = self.ulevelcenter
  · simp only [hc, if_true] at h ⊢
    by_cases hb : self.b = 0
    · simp only [hb, if_true] at h ⊢
      rw [h _ (List.mem_cons_of_mem _ (List.mem_singleton.mpr rfl))]
      exact ⟨rfl, trivial⟩
    · simp only [hb, if_false] at h ⊢
      rw [h _ (List.mem_cons_self _ _)]
      exact ⟨rfl, trivial⟩
  · simp only [hc, if_false] at h ⊢
    by_cases h0 : self.ulevel = 0
    · simp only [h0, if_true] at h ⊢
      rw [h _ (List.mem_cons_self _ _)]
      exact ⟨rfl, rfl⟩
    · simp only [h0, if_false] at h ⊢
      by_cases hneg : self.ulevel < 0
      · simp only [hneg, if_true] at h ⊢
        rw [h _ (List.mem_cons_self _ _),
          h _ (List.mem_cons_of_mem _ (List.mem_singleton.mpr rfl))]
        exact ⟨rfl, rfl⟩
      · simp only [hneg, if_false] at h ⊢
        rw [h _ (List.mem_cons_self _ _),
          h _ (List.mem_cons_of_mem _ (List.mem_singleton.mpr rfl))]
        exact ⟨rfl, rfl⟩

theorem sqrtArguments_nonneg_off_centre {K : Type} [LinearOrderedField K]
    (self : SysUmbrella K) (ha : 0 < self.a) (hd : 0 < self.delU)
    (hc : self.ulevel ≠ self.ulevelcenter) : ∀ x ∈ self.sqrtArguments, 0 ≤ x := by
  unfold SysUmbrella.sqrtArguments
  rw [if_neg hc]
  by_cases h0 : self.ulevel = 0
  · rw [if_pos h0]
    intro x hx
    simp only [List.mem_cons, List.mem_singleton, List.not_mem_nil, or_false, or_self] at hx
    rw [hx]
    exact div_nonneg (mul_nonneg zero_le_one (le_of_lt hd)) (le_of_lt ha)
  · rw [if_neg h0]
    by_cases hneg : self.ulevel < 0
    · rw [if_pos hneg]
      intro x hx
      simp only [List.mem_cons, List.mem_singleton, List.not_mem_nil, or_false] at hx
      have h1 : (0 : K) ≤ ((-self.ulevel : Int) : K) := by
        exact_mod_cast (by omega : (0 : Int) ≤ -self.ulevel)
      have h2 : (0 : K) ≤ ((-self.ulevel + 1 : Int) : K) := by
        exact_mod_cast (by omega : (0 : Int) ≤ -self.ulevel + 1)
      rcases hx with hx | hx <;> rw [hx]
      · exact div_nonneg (mul_nonneg h1 (le_of_lt hd)) (le_of_lt ha)
      · exact div_nonneg (mul_nonneg h2 (le_of_lt hd)) (le_of_lt ha)
    · rw [if_neg hneg]
      intro x hx
      simp only [List.mem_cons, List.mem_singleton, List.not_mem_nil, or_false] at hx
      have h1 : (0 : K) ≤ (self.ulevel : K) := by
        exact_mod_cast (by omega : (0 : Int) ≤ self.ulevel)
      have h2 : (0 : K) ≤ ((self.ulevel + 1 : Int) : K) := by
        exact_mod_cast (by omega : (0 : Int) ≤ self.ulevel + 1)
      rcases hx with hx | hx <;> rw [hx]
      · exact div_nonneg (mul_nonneg h1 (le_of_lt hd)) (le_of_lt ha)
      · exact div_nonneg (mul_nonneg h2 (le_of_lt hd)) (le_of_lt ha)

theorem sqrtArguments_negative_at_centre {K : Type} [LinearOrderedField K]
    (self : SysUmbrella K) (ha : 0 < self.a) (hd : 0 < self.delU)
    (hc : self.ulevel = self.ulevelcenter) (hneg : self.ulevelcenter < 0) :
    ∃ x ∈ self.sqrtArguments, x < 0 := by
  refine ⟨((self.ulevel : K) * self.delU) / self.a, ?_, ?_⟩
  · unfold SysUmbrella.sqrtArguments
    rw [if_pos hc]
    exact List.mem_cons_self _ _
  · apply div_neg_of_neg_of_pos _ ha
    apply mul_neg_of_neg_of_pos _ hd
    rw [hc]
    exact_mod_cast hneg

/-- C27: with `a = 1`, `b = 2`, `delU = 1` and the two groups at the separation
`r = 0`, `SysUmbrella::initialise` sets `ulevelcenter = ulevel = -4`, and the
central branch of `recalculateTime` takes the square root of
`(ulevel * delU) / a = -4`: the radius `R_max` is `2 - sqrt(-4)`. -/
theorem C27_central_branch_sqrt_of_negative :
    (exampleUmbrella.initialise sqrtTable noCrossing 0).ulevelcenter = -4 ∧
    (exampleUmbrella.initialise sqrtTable noCrossing 0).ulevel = -4 ∧
    (exampleUmbrella.initialise sqrtTable noCrossing 0).sqrtArguments = [-4] ∧
    (∀ sqrt : ℚ → ℚ,
      (exampleUmbrella.initialise sqrtTable noCrossing 0).R_max sqrt = 2 - sqrt (-4)) := by
  obtain ⟨hc, hu⟩ := initialise_levels sqrtTable noCrossing 0 exampleUmbrella rfl
  have hc4 : (exampleUmbrella.initialise sqrtTable noCrossing 0).ulevelcenter = -4 := by
    rw [hc]
    show truncToInt (-(1 : ℚ) * 2 * 2 / 1) = -4
    have e : (-(1 : ℚ) * 2 * 2 / 1) = -((4 : Int) : ℚ) := by norm_num
    rw [e, truncToInt_neg _ (by norm_num), Int.floor_intCast]
  have hu4 : (exampleUmbrella.initialise sqrtTable noCrossing 0).ulevel = -4 := by
    rw [hu]
    show (if (0 : ℚ) < 2 then truncToInt ((1 : ℚ) * (0 - 2) * (0 - 2) / 1) * -1
      else truncToInt ((1 : ℚ) * (0 - 2) * (0 - 2) / 1)) = -4
    have e : ((1 : ℚ) * (0 - 2) * (0 - 2) / 1) = ((4 : Int) : ℚ) := by norm_num
    rw [if_pos two_pos, e, truncToInt_of_nonneg _ (by norm_num), Int.floor_intCast]
    rfl
  have ha1 : (exampleUmbrella.initialise sqrtTable noCrossing 0).a = 1 := by
    unfold SysUmbrella.initialise
    simp only
    exact (recalculateTime_levels sqrtTable noCrossing _).2.2.1
  have hb2 : (exampleUmbrella.initialise sqrtTable noCrossing 0).b = 2 := by
    unfold SysUmbrella.initialise
    simp only
    exact (recalculateTime_levels sqrtTable noCrossing _).2.2.2.1
  have hd1 : (exampleUmbrella.initialise sqrtTable noCrossing 0).delU = 1 := by
    unfold SysUmbrella.initialise
    simp only
    exact (recalculateTime_levels sqrtTable noCrossing _).2.2.2.2
  refine ⟨hc4, hu4, ?_, ?_⟩
  · unfold SysUmbrella.sqrtArguments
    rw [hc4, hu4, ha1, hb2, hd1]
    norm_num
  · intro sqrt
    unfold SysUmbrella.R_max
    rw [hc4, hu4, ha1, hb2, hd1]
    norm_num

/-! ### `SysUmbrella::recalculateTime`: the shell radii -/

theorem lastChars_eq_iff (n : Nat) (fileName ext : String) (hn : n ≤ fileName.length)
    (hext : ext.length = n) :
    lastChars n fileName = some ext ↔ ext.data <:+ fileName.data := by
  unfold lastChars
  rw [if_pos hn, List.suffix_iff_eq_drop]
  have hl : ext.data.length = n := hext
  have hf : fileName.data.length = fileName.length := rfl
  rw [hl, hf]
  constructor
  · intro h
    simp only [Option.some.injEq] at h
    rw [← h]
  · intro h
    rw [← h]

theorem loadXMLfile_short (fileName : String) (h : fileName.length < 8) :
    loadXMLfile ESimulationStatus.START true fileName = none := by
  have h8 : lastChars 8 fileName = none := by
    unfold lastChars
    rw [if_neg (not_le.mpr h)]
  unfold loadXMLfile
  simp [h8]

theorem loadXMLfile_long (fileName : String) (h : 8 ≤ fileName.length) :
    loadXMLfile ESimulationStatus.START true fileName =
      some (if ".xml.bz2".data <:+ fileName.data then .ok true
        else if ".xml".data <:+ fileName.data then .ok false
        else .error "Unrecognized extension for xml file") := by
  have h4 : 4 ≤ fileName.length := le_trans (by decide) h
  obtain ⟨e8, he8⟩ : ∃ e, lastChars 8 fileName = some e := by
    unfold lastChars
    rw [if_pos h]
    exact ⟨_, rfl⟩
  obtain ⟨e4, he4⟩ : ∃ e, lastChars 4 fileName = some e := by
    unfold lastChars
    rw [if_pos h4]
    exact ⟨_, rfl⟩
  have i8 : e8 = ".xml.bz2" ↔ ".xml.bz2".data <:+ fileName.data := by
    rw [← lastChars_eq_iff 8 fileName ".xml.bz2" h rfl, he8]
    constructor
    · intro hh; rw [hh]
    · intro hh; exact Option.some.inj hh
  have i4 : e4 = ".xml" ↔ ".xml".data <:+ fileName.data := by
    rw [← lastChars_eq_iff 4 fileName ".xml" h4 rfl, he4]
    constructor
    · intro hh; rw [hh]
    · intro hh; exact Option.some.inj hh
  unfold loadXMLfile
  simp only [ne_eq, not_true_eq_false, if_false, Bool.not_true, Bool.false_eq_true, he8, he4]
  by_cases c8 : e8 = ".xml.bz2"
  · rw [if_pos c8, if_pos (i8.mp c8)]
  · rw [if_neg c8, if_neg (fun hh => c8 (i8.mpr hh))]
    by_cases c4 : e4 = ".xml"
    · rw [if_neg (not_not.mpr c4), if_pos (i4.mp c4)]
    · rw [if_pos c4, if_neg (fun hh => c4 (i4.mpr hh))]

/-- C29: for the name `a.xml` of an existing file, in a simulation in the state
`START`, the extension test of `Simulation::loadXMLfile` builds the string
`std::string(fileName.end()-8, fileName.end())` from three characters before the
start of the five-character name: the call has undefined behaviour.  So has it
for every name shorter than 8 characters; for a name of 8 or more characters
the test selects decompression when the name ends in `.xml.bz2`, plain XML when
it ends in `.xml`, and the unrecognized-extension error otherwise. -/
theorem C29_short_name_read_before_start :
    "a.xml".length = 5 ∧ lastChars 8 "a.xml" = none ∧
    loadXMLfile ESimulationStatus.START true "a.xml" = none ∧
    (∀ fileName : String, fileName.length < 8 →
      loadXMLfile ESimulationStatus.START true fileName = none) ∧
    (∀ fileName : String, 8 ≤ fileName.length →
      loadXMLfile ESimulationStatus.START true fileName =
        some (if ".xml.bz2".data <:+ fileName.data then .ok true
          else if ".xml".data <:+ fileName.data then .ok false
          else .error "Unrecognized extension for xml file")) :=
  ⟨rfl, rfl, loadXMLfile_short "a.xml" (by decide), loadXMLfile_short, loadXMLfile_long⟩

end DynamO
